import Mathlib

/-!
# Block Breaker: a shallow embedding of the simulation code

The repository holds the same game three times:

* `src/scripts/utils.js`: loose helpers (namespace `Utils`);
* `src/scripts/game.js`: the DOM-bound game (namespace `GameJs`);
* `src/components/block-breaker-game.tsx`: the React component (namespace `Component`).

JavaScript numbers are modelled by an arbitrary linearly ordered field `α` with a floor
function (the theorems that need trigonometry instantiate it with `ℝ`).  The transcendental
functions of `Math`, and the stream of values returned by `Math.random()`, are supplied by a
`Host` record, so every definition below is an ordinary computable function of its arguments.
Mutable objects become explicit state passing: a function that mutates `game` and a ball
returns the new game and the new ball.
-/

namespace BlockBreaker

/-! ## Data model -/

/-- A ball: `{ x, y, dx, dy, attached }`. -/
structure Ball (α : Type) where
  x : α
  y : α
  dx : α
  dy : α
  attached : Bool

/-- A block: `{ x, y, width, height, color, destroyed, isWall, hits }`. -/
structure Block (α : Type) where
  x : α
  y : α
  width : α
  height : α
  color : String
  destroyed : Bool
  isWall : Bool
  hits : Int

/-- The paddle: `{ x, width }`. -/
structure Paddle (α : Type) where
  x : α
  width : α

/-- The two kinds of power-up: `"split" | "scatter"`. -/
inductive ItemType where
  | split
  | scatter
  deriving DecidableEq, Repr

/-- A falling power-up: `{ x, y, type }`. -/
structure Item (α : Type) where
  x : α
  y : α
  type : ItemType

/-- A particle: `{ x, y, dx, dy, life, maxLife, color }`.  The component's particles carry no
`maxLife`; there the field repeats the initial `life`. -/
structure Particle (α : Type) where
  x : α
  y : α
  dx : α
  dy : α
  life : Int
  maxLife : Int
  color : String

/-- The game states: `"menu" | "playing" | "paused" | "gameover" | "levelup"`. -/
inductive GameState where
  | menu
  | playing
  | paused
  | gameover
  | levelup
  deriving DecidableEq, Repr

/-- What the JavaScript host supplies to the program.

* `PI`, `sqrt`, `sin`, `cos`, `atan2`: the functions of `Math` that are not field arithmetic;
* `random n`: the value returned by the `n`-th call of `Math.random()`, a number in `[0, 1)`;
* `speed ball`: the number read by the expression `ball.speed` in `calculateBounce` of
  `game.js`.  No ball object of the program has a property `speed` (every ball literal is
  `{ x, y, dx, dy, attached }`), so at run time the read gives `undefined` and the product
  a `NaN`; the embedding leaves the value open instead.  Its numbers have no `NaN`, so the
  embedding does not follow a ball of `game.js` after its first bounce off a block; the
  results on `lives` and on the terminal outcomes over several frames of `game.js` are
  therefore stated over `GameJs.ReachableInPlay`, which admits every ball list. -/
structure Host (α : Type) [LinearOrderedField α] where
  PI : α
  sqrt : α → α
  sin : α → α
  cos : α → α
  atan2 : α → α → α
  random : ℕ → α
  random_mem : ∀ n, 0 ≤ random n ∧ random n < 1
  speed : Ball α → α

section Defs

variable {α : Type} [LinearOrderedField α] [FloorRing α]

/-! ## `src/scripts/utils.js` -/

namespace Utils

/-- JavaScript `clamp(value, min, max)`: `Math.max(min, Math.min(max, value))`. -/
def clamp (value lo hi : α) : α :=
  max lo (min hi value)

/-- JavaScript `circleRectCollision(circleX, circleY, radius, rectX, rectY, rectW, rectH)`. -/
def circleRectCollision (circleX circleY radius rectX rectY rectW rectH : α) : Bool :=
  let closestX := max rectX (min circleX (rectX + rectW))
  let closestY := max rectY (min circleY (rectY + rectH))
  let distX := circleX - closestX
  let distY := circleY - closestY
  decide (distX * distX + distY * distY < radius * radius)

/-- JavaScript `calculateBounce(ball, rect, radius)`: the new velocity `{ dx, dy }`. -/
def calculateBounce (ball : Ball α) (rect : Block α) (radius : α) : α × α :=
  let overlapLeft := ball.x + radius - rect.x
  let overlapRight := rect.x + rect.width - (ball.x - radius)
  let overlapTop := ball.y + radius - rect.y
  let overlapBottom := rect.y + rect.height - (ball.y - radius)
  let minOverlapX := min overlapLeft overlapRight
  let minOverlapY := min overlapTop overlapBottom
  if minOverlapX < minOverlapY then (-ball.dx, ball.dy) else (ball.dx, -ball.dy)

/-- JavaScript `createExplosionParticles(x, y, color, count)`: `count` particles on evenly spaced
angles; particle `i` uses the draws `rng + 2 i` and `rng + 2 i + 1`. -/
def createExplosionParticles (H : Host α) (rng : ℕ) (x y : α) (color : String) (count : ℕ) :
    List (Particle α) :=
  (List.range count).map fun (i : ℕ) =>
    let angle := H.PI * 2 * ((i : ℕ) : α) / ((count : ℕ) : α)
    { x := x
      y := y
      dx := H.cos angle * (2 + H.random (rng + 2 * i) * 2)
      dy := H.sin angle * (2 + H.random (rng + 2 * i + 1) * 2)
      life := 25
      maxLife := 25
      color := color }

/-- JavaScript `updateParticles(particles, gravity)`: the callback of the filter applied to one
particle, and whether the particle is kept. -/
def updateParticle (gravity : α) (p : Particle α) : Particle α × Bool :=
  let p := { p with x := p.x + p.dx }
  let p := { p with y := p.y + p.dy }
  let p := { p with dy := p.dy + gravity }
  let p := { p with life := p.life - 1 }
  (p, decide (p.life > 0))

/-- JavaScript `updateParticles(particles, gravity = 0.1)`. -/
def updateParticles (particles : List (Particle α)) (gravity : α) : List (Particle α) :=
  particles.filterMap fun p =>
    let r := updateParticle gravity p
    if r.2 then some r.1 else none

/-- JavaScript `randomInt(min, max)` at the draw `u`: `Math.floor(u * (max - min + 1)) + min`. -/
def randomInt (u : α) (lo hi : Int) : Int :=
  ⌊u * ((hi - lo + 1 : Int) : α)⌋ + lo

/-- JavaScript `randomFloat(min, max)` at the draw `u`. -/
def randomFloat (u : α) (lo hi : α) : α :=
  u * (hi - lo) + lo

end Utils

/-! ## `src/scripts/game.js` -/

namespace GameJs

/-! ### `CONFIG` -/

/-- JavaScript `CONFIG.paddle.width`. -/
def CONFIG.paddle.width : α := 100
/-- JavaScript `CONFIG.paddle.height`. -/
def CONFIG.paddle.height : α := 14
/-- JavaScript `CONFIG.paddle.offsetBottom`. -/
def CONFIG.paddle.offsetBottom : α := 35
/-- JavaScript `CONFIG.ball.radius`. -/
def CONFIG.ball.radius : α := 6
/-- JavaScript `CONFIG.ball.speed`. -/
def CONFIG.ball.speed : α := 5
/-- JavaScript `CONFIG.block.rows`. -/
def CONFIG.block.rows : Int := 10
/-- JavaScript `CONFIG.block.cols`. -/
def CONFIG.block.cols : ℕ := 12
/-- JavaScript `CONFIG.block.width`. -/
def CONFIG.block.width : α := 36
/-- JavaScript `CONFIG.block.height`. -/
def CONFIG.block.height : α := 16
/-- JavaScript `CONFIG.block.padding`. -/
def CONFIG.block.padding : α := 3
/-- JavaScript `CONFIG.block.topOffset`. -/
def CONFIG.block.topOffset : α := 60
/-- JavaScript `CONFIG.item.size`. -/
def CONFIG.item.size : α := 20
/-- JavaScript `CONFIG.item.speed`. -/
def CONFIG.item.speed : α := 3
/-- JavaScript `CONFIG.item.dropChance`. -/
def CONFIG.item.dropChance : α := 0.15
/-- JavaScript `CONFIG.colors.blocks`. -/
def CONFIG.colors.blocks : List String :=
  ["#ff6b6b", "#feca57", "#48dbfb", "#1dd1a1", "#ff9ff3", "#54a0ff", "#5f27cd", "#ff9f43"]
/-- JavaScript `CONFIG.colors.paddle`. -/
def CONFIG.colors.paddle : String := "#00d4ff"
/-- JavaScript `CONFIG.colors.wall`. -/
def CONFIG.colors.wall : String := "#4a4a5e"
/-- JavaScript `CONFIG.colors.itemSplit`. -/
def CONFIG.colors.itemSplit : String := "#a855f7"
/-- JavaScript `CONFIG.colors.itemScatter`. -/
def CONFIG.colors.itemScatter : String := "#ec4899"

/-- The global `game` object.  Its fields `canvas`, `ctx` and `animationId` only serve
drawing and frame scheduling and are left out.  Two fields are added:

* `outcomes`: the terminal outcomes signalled so far, one entry for each call of `gameOver()`
  (`GameState.gameover`) or `levelComplete()` (`GameState.levelup`), oldest first;
* `rng`: how many times `Math.random()` has been called so far. -/
structure Game (α : Type) where
  state : GameState
  score : ℕ
  lives : Int
  level : ℕ
  paddle : Paddle α
  balls : List (Ball α)
  blocks : List (Block α)
  items : List (Item α)
  particles : List (Particle α)
  canvasWidth : α
  canvasHeight : α
  outcomes : List GameState
  rng : ℕ

/-! ### Helpers (the end of `game.js`) -/

/-- JavaScript `clamp(value, min, max)`. -/
def clamp (value lo hi : α) : α :=
  max lo (min hi value)

/-- JavaScript `randomInt(min, max)` at the draw `u`: `Math.floor(u * (max - min + 1)) + min`. -/
def randomInt (u : α) (lo hi : Int) : Int :=
  ⌊u * ((hi - lo + 1 : Int) : α)⌋ + lo

/-- JavaScript `updateParticles(particles)` of `game.js`: only `life` is changed. -/
def updateParticles (particles : List (Particle α)) : List (Particle α) :=
  particles.filterMap fun p =>
    let p := { p with life := p.life - 1 }
    if p.life > 0 then some p else none

/-- JavaScript `createExplosionParticles(x, y, color, count)` of `game.js`; particle `i` uses the four
draws `rng + 4 i`, ..., `rng + 4 i + 3`, in the order `x`, `y`, `dx`, `dy`. -/
def createExplosionParticles (H : Host α) (rng : ℕ) (x y : α) (color : String) (count : ℕ) :
    List (Particle α) :=
  (List.range count).map fun (i : ℕ) =>
    { x := x + (H.random (rng + 4 * i) - 0.5) * 10
      y := y + (H.random (rng + 4 * i + 1) - 0.5) * 10
      dx := (H.random (rng + 4 * i + 2) - 0.5) * 2
      dy := (H.random (rng + 4 * i + 3) - 0.5) * 2
      color := color
      life := 30
      maxLife := 30 }

/-- The statement `game.particles.push(...createExplosionParticles(x, y, color, count))`. -/
def pushParticles (H : Host α) (g : Game α) (x y : α) (color : String) (count : ℕ) : Game α :=
  { g with
    particles := g.particles ++ createExplosionParticles H g.rng x y color count
    rng := g.rng + 4 * count }

/-- JavaScript `circleRectCollision(cx, cy, cr, rx, ry, rw, rh)` of `game.js`. -/
def circleRectCollision (cx cy cr rx ry rw rh : α) : Bool :=
  let closestX := clamp cx rx (rx + rw)
  let closestY := clamp cy ry (ry + rh)
  let distanceX := cx - closestX
  let distanceY := cy - closestY
  let distanceSquared := distanceX * distanceX + distanceY * distanceY
  decide (distanceSquared < cr * cr)

/-- JavaScript `calculateBounce(ball, block, radius)` of `game.js`: the velocity points from the centre
of the block to the ball and is scaled by `ball.speed` (see `Host.speed`). -/
def calculateBounce (H : Host α) (ball : Ball α) (block : Block α) (_radius : α) : α × α :=
  let blockCenterX := block.x + block.width / 2
  let blockCenterY := block.y + block.height / 2
  let distanceX := ball.x - blockCenterX
  let distanceY := ball.y - blockCenterY
  let angle := H.atan2 distanceY distanceX
  (H.cos angle * H.speed ball, H.sin angle * H.speed ball)

/-! ### Game control -/

/-- JavaScript `gameOver()`. -/
def gameOver (g : Game α) : Game α :=
  { g with state := GameState.gameover, outcomes := g.outcomes ++ [GameState.gameover] }

/-- JavaScript `levelComplete()`. -/
def levelComplete (g : Game α) : Game α :=
  { g with state := GameState.levelup, outcomes := g.outcomes ++ [GameState.levelup] }

/-! ### Collisions of one ball -/

/-- JavaScript `handleWallCollision(ball)`. -/
def handleWallCollision (g : Game α) (ball : Ball α) : Ball α :=
  let r : α := CONFIG.ball.radius
  let ball := if ball.x - r ≤ 0 then { ball with dx := |ball.dx|, x := r } else ball
  let ball :=
    if ball.x + r ≥ g.canvasWidth then { ball with dx := -|ball.dx|, x := g.canvasWidth - r }
    else ball
  let ball := if ball.y - r ≤ 45 then { ball with dy := |ball.dy|, y := 45 + r } else ball
  ball

/-- The condition of the `if` of `handlePaddleCollision(ball, paddleY)`. -/
def paddleHit (g : Game α) (ball : Ball α) (paddleY : α) : Bool :=
  let r : α := CONFIG.ball.radius
  let paddle := g.paddle
  decide (ball.y + r ≥ paddleY) &&
  decide (ball.y - r ≤ paddleY + CONFIG.paddle.height) &&
  decide (ball.x ≥ paddle.x - r) &&
  decide (ball.x ≤ paddle.x + paddle.width + r) &&
  decide (ball.dy > 0)

/-- JavaScript `hitPos` of `handlePaddleCollision`. -/
def hitPos (g : Game α) (ball : Ball α) : α :=
  (ball.x - g.paddle.x) / g.paddle.width

/-- JavaScript `handlePaddleCollision(ball, paddleY)`. -/
def handlePaddleCollision (H : Host α) (g : Game α) (ball : Ball α) (paddleY : α) :
    Game α × Ball α :=
  let r : α := CONFIG.ball.radius
  if paddleHit g ball paddleY then
    let hitPos := hitPos g ball
    let angle := (hitPos - 0.5) * H.PI * 0.7
    let speed := H.sqrt (ball.dx * ball.dx + ball.dy * ball.dy)
    let ball := { ball with dx := H.sin angle * speed }
    let ball := { ball with dy := -|H.cos angle * speed| }
    let ball := { ball with y := paddleY - r }
    (pushParticles H g ball.x ball.y CONFIG.colors.paddle 4, ball)
  else (g, ball)

/-- The body of the `for (const block of game.blocks)` loop of `handleBlockCollision(ball)`,
run over the blocks still to visit.  It returns the visited blocks (one of them possibly
destroyed), the game and the ball.  The `break` is the absence of a recursive call. -/
def blockLoop (H : Host α) : List (Block α) → Game α → Ball α →
    List (Block α) × Game α × Ball α
  | [], g, ball => ([], g, ball)
  | block :: rest, g, ball =>
    let r : α := CONFIG.ball.radius
    if block.destroyed then
      let res := blockLoop H rest g ball
      (block :: res.1, res.2.1, res.2.2)
    else if circleRectCollision ball.x ball.y r block.x block.y block.width block.height then
      let bounce := calculateBounce H ball block r
      let ball := { ball with dx := bounce.1 }
      let ball := { ball with dy := bounce.2 }
      if !block.isWall then
        let block := { block with destroyed := true }
        let g := { g with score := g.score + 10 }
        let g := pushParticles H g (block.x + block.width / 2) (block.y + block.height / 2)
          block.color 10
        let drop := H.random g.rng
        let g := { g with rng := g.rng + 1 }
        if drop < CONFIG.item.dropChance then
          let kind := H.random g.rng
          let g := { g with rng := g.rng + 1 }
          let g := { g with
            items := g.items ++
              [{ x := block.x + block.width / 2
                 y := block.y + block.height / 2
                 type := if kind < 0.5 then ItemType.split else ItemType.scatter }] }
          (block :: rest, g, ball)
        else (block :: rest, g, ball)
      else
        let g := pushParticles H g ball.x ball.y CONFIG.colors.wall 3
        (block :: rest, g, ball)
    else
      let res := blockLoop H rest g ball
      (block :: res.1, res.2.1, res.2.2)

/-- JavaScript `handleBlockCollision(ball)`. -/
def handleBlockCollision (H : Host α) (g : Game α) (ball : Ball α) : Game α × Ball α :=
  let res := blockLoop H g.blocks g ball
  ({ res.2.1 with blocks := res.1 }, res.2.2)

/-! ### Power-ups -/

/-- The callback of `game.balls.forEach` in the `split` branch of `activatePowerUp`: the
balls pushed to `newBalls` for one ball. -/
def splitBall (H : Host α) (ball : Ball α) : List (Ball α) :=
  if !ball.attached then
    let speed := H.sqrt (ball.dx * ball.dx + ball.dy * ball.dy)
    let angle := H.atan2 ball.dy ball.dx
    [{ x := ball.x
       y := ball.y
       dx := H.cos (angle - 0.3) * speed
       dy := H.sin (angle - 0.3) * speed
       attached := false },
     { x := ball.x
       y := ball.y
       dx := H.cos (angle + 0.3) * speed
       dy := H.sin (angle + 0.3) * speed
       attached := false }]
  else [ball]

/-- The ball pushed by round `i` of the `for` loop of the `scatter` branch of
`activatePowerUp`. -/
def scatterBall (H : Host α) (g : Game α) (paddleY : α) (i : ℕ) : Ball α :=
  let paddleCenter := g.paddle.x + g.paddle.width / 2
  let angle := -H.PI / 2 + (H.PI / 8) * (((i : ℕ) : α) - 2)
  { x := paddleCenter
    y := paddleY - CONFIG.ball.radius - 2
    dx := H.cos angle * CONFIG.ball.speed
    dy := H.sin angle * CONFIG.ball.speed
    attached := false }

/-- JavaScript `activatePowerUp(item)`. -/
def activatePowerUp (H : Host α) (g : Game α) (item : Item α) : Game α :=
  let paddleY := g.canvasHeight - CONFIG.paddle.offsetBottom
  let g :=
    match item.type with
    | ItemType.split => { g with balls := g.balls.flatMap (splitBall H) }
    | ItemType.scatter => { g with balls := g.balls ++ (List.range 5).map (scatterBall H g paddleY) }
  pushParticles H g item.x item.y
    (if item.type = ItemType.split then CONFIG.colors.itemSplit else CONFIG.colors.itemScatter) 12

/-! ### The tick -/

/-- The callback of `game.balls.filter` in `updateBalls(paddleY)`, applied to one ball: the
game, the ball as mutated, and whether the ball is kept. -/
def ballCallback (H : Host α) (paddleY : α) (g : Game α) (ball : Ball α) :
    Game α × Ball α × Bool :=
  if ball.attached then
    let ball := { ball with x := g.paddle.x + g.paddle.width / 2 }
    let ball := { ball with y := paddleY - CONFIG.ball.radius - 2 }
    (g, ball, true)
  else
    let ball := { ball with x := ball.x + ball.dx }
    let ball := { ball with y := ball.y + ball.dy }
    let ball := handleWallCollision g ball
    let res := handlePaddleCollision H g ball paddleY
    let res := handleBlockCollision H res.1 res.2
    if res.2.y > res.1.canvasHeight + CONFIG.ball.radius then (res.1, res.2, false)
    else (res.1, res.2, true)

/-- JavaScript `game.balls.filter(...)` of `updateBalls`: the callback is run on the balls in order; the
result is the game after all the calls and the balls kept. -/
def filterBalls (H : Host α) (paddleY : α) : Game α → List (Ball α) → Game α × List (Ball α)
  | g, [] => (g, [])
  | g, ball :: rest =>
    let res := ballCallback H paddleY g ball
    let out := filterBalls H paddleY res.1 rest
    (out.1, if res.2.2 then res.2.1 :: out.2 else out.2)

/-- JavaScript `updateBalls(paddleY)`. -/
def updateBalls (H : Host α) (paddleY : α) (g : Game α) : Game α :=
  let res := filterBalls H paddleY g g.balls
  let g : Game α := { res.1 with balls := res.2 }
  if g.balls.length = 0 then
    let g : Game α := { g with lives := g.lives - 1 }
    if g.lives ≤ 0 then gameOver g
    else
      { g with
        balls :=
          [{ x := g.paddle.x + g.paddle.width / 2
             y := paddleY - CONFIG.ball.radius - 2
             dx := 0
             dy := 0
             attached := true }] }
  else g

/-- JavaScript `game.items.filter(...)` of `updateItems(paddleY)`. -/
def filterItems (H : Host α) (paddleY : α) : Game α → List (Item α) → Game α × List (Item α)
  | g, [] => (g, [])
  | g, item :: rest =>
    let item := { item with y := item.y + CONFIG.item.speed }
    if item.y + CONFIG.item.size / 2 ≥ paddleY ∧ item.x ≥ g.paddle.x ∧
        item.x ≤ g.paddle.x + g.paddle.width then
      filterItems H paddleY (activatePowerUp H g item) rest
    else
      let out := filterItems H paddleY g rest
      (out.1, if item.y < g.canvasHeight + CONFIG.item.size then item :: out.2 else out.2)

/-- JavaScript `updateItems(paddleY)`. -/
def updateItems (H : Host α) (paddleY : α) (g : Game α) : Game α :=
  let res := filterItems H paddleY g g.items
  { res.1 with items := res.2 }

/-- JavaScript `checkLevelComplete()`. -/
def checkLevelComplete (g : Game α) : Game α :=
  let remainingBlocks := g.blocks.filter fun b => !b.destroyed && !b.isWall
  if remainingBlocks.length = 0 then levelComplete g else g

/-- JavaScript `update()`: one tick. -/
def update (H : Host α) (g : Game α) : Game α :=
  let paddleY := g.canvasHeight - CONFIG.paddle.offsetBottom
  let g := updateBalls H paddleY g
  let g := updateItems H paddleY g
  let g := { g with particles := updateParticles g.particles }
  checkLevelComplete g

/-- The function `loop` of `startGameLoop()`, once: a frame ticks only while playing. -/
def loop (H : Host α) (g : Game α) : Game α :=
  if g.state = GameState.playing then update H g else g

/-! ### Level layout and initialisation -/

/-- The blocks pushed by the two nested `for` loops of `createBlocks(level)`, row by row. -/
def gridBlocks (canvasWidth : α) (actualRows : Int) : List (Block α) :=
  let cols := CONFIG.block.cols
  let width : α := CONFIG.block.width
  let height : α := CONFIG.block.height
  let padding : α := CONFIG.block.padding
  let topOffset : α := CONFIG.block.topOffset
  let totalWidth := (cols : α) * width + ((cols : α) - 1) * padding
  let startX := (canvasWidth - totalWidth) / 2
  (List.range actualRows.toNat).flatMap fun (row : ℕ) =>
    (List.range cols).map fun (col : ℕ) =>
      { x := startX + ((col : ℕ) : α) * (width + padding)
        y := topOffset + ((row : ℕ) : α) * (height + padding)
        width := width
        height := height
        color := CONFIG.colors.blocks.getD (row % CONFIG.colors.blocks.length) ""
        destroyed := false
        isWall := false
        hits := 1 }

/-- The three assignments that turn `blocks[blockIndex]` into a wall, under the guard
`blockIndex < blocks.length`.  The index is `row * cols + col` with `row` and `col` results
of `randomInt` with non-negative lower bounds, so it is never negative. -/
def markWall (blocks : List (Block α)) (blockIndex : Int) : List (Block α) :=
  if blockIndex < (blocks.length : Int) then
    blocks.modify (fun b => { b with isWall := true, color := CONFIG.colors.wall, hits := -1 })
      blockIndex.toNat
  else blocks

/-- The wall loop of `createBlocks(level)` with `n` rounds left; `used` is `usedPositions`
(the key of a position is the pair itself).  It returns the blocks and the number of draws
made. -/
def wallLoop (H : Host α) (actualRows : Int) :
    ℕ → ℕ → List (Int × Int) → List (Block α) → List (Block α) × ℕ
  | 0, rng, _, blocks => (blocks, rng)
  | n + 1, rng, used, blocks =>
    let cols : Int := (CONFIG.block.cols : ℕ)
    let row := randomInt (H.random rng) 2 (min (actualRows - 2) 6)
    let col := randomInt (H.random (rng + 1)) 1 (cols - 2)
    if (row, col) ∉ used then
      wallLoop H actualRows n (rng + 2) ((row, col) :: used) (markWall blocks (row * cols + col))
    else wallLoop H actualRows n (rng + 2) used blocks

/-- JavaScript `createBlocks(level)`: the blocks, and the number of draws made afterwards. -/
def createBlocks (H : Host α) (g : Game α) (level : ℕ) : List (Block α) × ℕ :=
  let actualRows : Int := min (CONFIG.block.rows + ((level / 2 : ℕ) : Int)) 12
  let blocks := gridBlocks g.canvasWidth actualRows
  let wallCount := min (3 + level) 8
  wallLoop H actualRows wallCount g.rng [] blocks

/-- JavaScript `initGameData(keepScore)`. -/
def initGameData (H : Host α) (g : Game α) (keepScore : Bool) : Game α :=
  let g : Game α :=
    { g with paddle := { g.paddle with x := (g.canvasWidth - CONFIG.paddle.width) / 2 } }
  let g : Game α := { g with paddle := { g.paddle with width := CONFIG.paddle.width } }
  let paddleY := g.canvasHeight - CONFIG.paddle.offsetBottom
  let g : Game α :=
    { g with
      balls :=
        [{ x := g.canvasWidth / 2
           y := paddleY - CONFIG.ball.radius - 2
           dx := 0
           dy := 0
           attached := true }] }
  let made := createBlocks H g g.level
  let g : Game α := { g with blocks := made.1, rng := made.2 }
  let g : Game α := { g with items := [] }
  let g : Game α := { g with particles := [] }
  if !keepScore then { g with score := 0, lives := 3, level := 1 } else g

/-- JavaScript `resizeCanvas()`, with `clientWidth` the width of the container of the canvas. -/
def resizeCanvas (g : Game α) (clientWidth : α) : Game α :=
  let maxWidth := min 480 clientWidth
  let maxHeight := maxWidth * (4 / 3)
  let g : Game α := { g with canvasWidth := maxWidth }
  let g : Game α := { g with canvasHeight := maxHeight }
  { g with paddle := { g.paddle with x := (g.canvasWidth - g.paddle.width) / 2 } }

/-- The initial value of the global `game`. -/
def game : Game α :=
  { state := GameState.menu
    score := 0
    lives := 3
    level := 1
    paddle := { x := 0, width := CONFIG.paddle.width }
    balls := []
    blocks := []
    items := []
    particles := []
    canvasWidth := 0
    canvasHeight := 0
    outcomes := []
    rng := 0 }

/-- JavaScript `init()`: the canvas is sized, then the game data is initialised. -/
def init (H : Host α) (clientWidth : α) : Game α :=
  initGameData H (resizeCanvas game clientWidth) false

/-- JavaScript `startGame()`. -/
def startGame (H : Host α) (g : Game α) : Game α :=
  { initGameData H g false with state := GameState.playing }

/-- JavaScript `restartGame()`. -/
def restartGame (H : Host α) (g : Game α) : Game α :=
  { initGameData H { g with level := 1 } false with state := GameState.playing }

/-- JavaScript `nextLevel()`. -/
def nextLevel (H : Host α) (g : Game α) : Game α :=
  { initGameData H { g with level := g.level + 1 } true with state := GameState.playing }

/-! ### Input -/

/-- JavaScript `handlePointerMove(e)` and `handleTouchMove(e)`, with `actualX` the pointer position in
canvas coordinates. -/
def handlePointerMove (g : Game α) (actualX : α) : Game α :=
  if g.state ≠ GameState.playing then g
  else
    { g with
      paddle :=
        { g.paddle with
          x := clamp (actualX - g.paddle.width / 2) 0 (g.canvasWidth - g.paddle.width) } }

/-- The three assignments of `handleClick(e)` applied to the first attached ball of the list
(`game.balls.find((b) => b.attached)`); `u` is the draw. -/
def launchFirst (u : α) : List (Ball α) → List (Ball α)
  | [] => []
  | b :: rest =>
    if b.attached then
      { b with attached := false, dx := (u - 0.5) * 3, dy := -CONFIG.ball.speed } :: rest
    else b :: launchFirst u rest

/-- JavaScript `handleClick(e)`. -/
def handleClick (H : Host α) (g : Game α) : Game α :=
  if g.state ≠ GameState.playing then g
  else if g.balls.any (fun b => b.attached) then
    { g with balls := launchFirst (H.random g.rng) g.balls, rng := g.rng + 1 }
  else g

/-- The states of `game.js` reachable from a freshly initialised game by frames of the game
loop, ticks, pointer moves, clicks, power-up activations, window resizes and the three
buttons. -/
inductive Reachable (H : Host α) : Game α → Prop where
  | init (g : Game α) (keepScore : Bool) : Reachable H (initGameData H g keepScore)
  | loop {g : Game α} : Reachable H g → Reachable H (loop H g)
  | update {g : Game α} : Reachable H g → Reachable H (update H g)
  | move {g : Game α} (actualX : α) : Reachable H g → Reachable H (handlePointerMove g actualX)
  | click {g : Game α} : Reachable H g → Reachable H (handleClick H g)
  | powerUp {g : Game α} (item : Item α) : Reachable H g → Reachable H (activatePowerUp H g item)
  | resize {g : Game α} (clientWidth : α) : Reachable H g → Reachable H (resizeCanvas g clientWidth)
  | start {g : Game α} : Reachable H g → Reachable H (startGame H g)
  | restart {g : Game α} : Reachable H g → Reachable H (restartGame H g)
  | next {g : Game α} : Reachable H g → Reachable H (nextLevel H g)

end GameJs

/-! ## `src/components/block-breaker-game.tsx` -/

namespace Component

/-- JavaScript `PADDLE_WIDTH`. -/
def PADDLE_WIDTH : α := 100
/-- JavaScript `PADDLE_HEIGHT`. -/
def PADDLE_HEIGHT : α := 14
/-- JavaScript `BALL_RADIUS`. -/
def BALL_RADIUS : α := 6
/-- JavaScript `BALL_SPEED`. -/
def BALL_SPEED : α := 5
/-- JavaScript `BLOCK_ROWS`. -/
def BLOCK_ROWS : Int := 10
/-- JavaScript `BLOCK_COLS`. -/
def BLOCK_COLS : ℕ := 12
/-- JavaScript `BLOCK_WIDTH`. -/
def BLOCK_WIDTH : α := 36
/-- JavaScript `BLOCK_HEIGHT`. -/
def BLOCK_HEIGHT : α := 16
/-- JavaScript `BLOCK_PADDING`. -/
def BLOCK_PADDING : α := 3
/-- JavaScript `BLOCK_TOP_OFFSET`. -/
def BLOCK_TOP_OFFSET : α := 60
/-- JavaScript `ITEM_SIZE`. -/
def ITEM_SIZE : α := 20
/-- JavaScript `ITEM_SPEED`. -/
def ITEM_SPEED : α := 3
/-- JavaScript `DROP_CHANCE`. -/
def DROP_CHANCE : α := 0.15
/-- JavaScript `COLORS.blocks`. -/
def COLORS.blocks : List String :=
  ["#ff6b6b", "#feca57", "#48dbfb", "#1dd1a1", "#ff9ff3", "#54a0ff", "#5f27cd", "#ff9f43"]
/-- JavaScript `COLORS.paddle`. -/
def COLORS.paddle : String := "#00d4ff"
/-- JavaScript `COLORS.wall`. -/
def COLORS.wall : String := "#4a4a5e"
/-- JavaScript `COLORS.itemSplit`. -/
def COLORS.itemSplit : String := "#a855f7"
/-- JavaScript `COLORS.itemScatter`. -/
def COLORS.itemScatter : String := "#ec4899"

/-- The object `gameRef.current`, with the count `rng` of the calls of `Math.random()` made
so far. -/
structure Game (α : Type) where
  paddle : Paddle α
  balls : List (Ball α)
  blocks : List (Block α)
  items : List (Item α)
  particles : List (Particle α)
  canvasWidth : α
  canvasHeight : α
  rng : ℕ

/-- The component: its React state (`gameState`, `score`, `lives`, `level`), the object
`gameRef.current`, and the size of the canvas element (`canvas.width`, `canvas.height`).
The fields `gameState`, `score`, `lives` and `level` hold the state that React commits once
it has processed the updates of a handler.  `outcomes` records the calls
`setGameState("gameover")` and `setGameState("levelup")` in the order in which React receives
them, oldest first. -/
structure App (α : Type) where
  gameState : GameState
  score : ℕ
  lives : Int
  level : ℕ
  game : Game α
  canvasWidth : α
  canvasHeight : α
  outcomes : List GameState

/-- The mutable variables of one run of `updateGame`: `game`, `scoreIncrease`,
`livesChange`. -/
structure Tick (α : Type) where
  game : Game α
  scoreIncrease : ℕ
  livesChange : Int

/-- JavaScript `createParticles(x, y, color, count)`; particle `i` uses the draws `rng + 2 i` and
`rng + 2 i + 1`. -/
def createParticles (H : Host α) (g : Game α) (x y : α) (color : String) (count : ℕ) : Game α :=
  { g with
    particles := g.particles ++ (List.range count).map fun (i : ℕ) =>
      let angle := H.PI * 2 * ((i : ℕ) : α) / ((count : ℕ) : α)
      { x := x
        y := y
        dx := H.cos angle * (2 + H.random (g.rng + 2 * i) * 2)
        dy := H.sin angle * (2 + H.random (g.rng + 2 * i + 1) * 2)
        life := 25
        maxLife := 25
        color := color }
    rng := g.rng + 2 * count }

/-! ### Power-ups -/

/-- The callback of `game.balls.forEach` in the `split` branch of `handleItemPickup`. -/
def splitBall (H : Host α) (ball : Ball α) : List (Ball α) :=
  if !ball.attached then
    let speed := H.sqrt (ball.dx * ball.dx + ball.dy * ball.dy)
    let angle1 := H.atan2 ball.dy ball.dx - 0.3
    let angle2 := H.atan2 ball.dy ball.dx + 0.3
    [{ x := ball.x
       y := ball.y
       dx := H.cos angle1 * speed
       dy := H.sin angle1 * speed
       attached := false },
     { x := ball.x
       y := ball.y
       dx := H.cos angle2 * speed
       dy := H.sin angle2 * speed
       attached := false }]
  else [ball]

/-- The ball pushed by round `i` of the `for` loop of the `scatter` branch of
`handleItemPickup`. -/
def scatterBall (H : Host α) (g : Game α) (i : ℕ) : Ball α :=
  let paddleCenter := g.paddle.x + g.paddle.width / 2
  let paddleTop := g.canvasHeight - 40
  let angle := -H.PI / 2 + (H.PI / 8) * (((i : ℕ) : α) - 2)
  { x := paddleCenter
    y := paddleTop
    dx := H.cos angle * BALL_SPEED
    dy := H.sin angle * BALL_SPEED
    attached := false }

/-- JavaScript `handleItemPickup(item)`. -/
def handleItemPickup (H : Host α) (g : Game α) (item : Item α) : Game α :=
  let g :=
    match item.type with
    | ItemType.split => { g with balls := g.balls.flatMap (splitBall H) }
    | ItemType.scatter => { g with balls := g.balls ++ (List.range 5).map (scatterBall H g) }
  createParticles H g item.x item.y
    (if item.type = ItemType.split then COLORS.itemSplit else COLORS.itemScatter) 12

/-! ### The tick -/

/-- The wall section of `updateGame`; `canvasWidth` is `canvas.width`. -/
def wallSection (canvasWidth : α) (ball : Ball α) : Ball α :=
  let ball :=
    if ball.x - BALL_RADIUS ≤ 0 then { ball with dx := |ball.dx|, x := BALL_RADIUS } else ball
  let ball :=
    if ball.x + BALL_RADIUS ≥ canvasWidth then
      { ball with dx := -|ball.dx|, x := canvasWidth - BALL_RADIUS }
    else ball
  let ball :=
    if ball.y - BALL_RADIUS ≤ 45 then { ball with dy := |ball.dy|, y := 45 + BALL_RADIUS }
    else ball
  ball

/-- The condition of the paddle `if` of `updateGame`. -/
def paddleHit (g : Game α) (ball : Ball α) (paddleY : α) : Bool :=
  decide (ball.y + BALL_RADIUS ≥ paddleY) &&
  decide (ball.y - BALL_RADIUS ≤ paddleY + PADDLE_HEIGHT) &&
  decide (ball.x ≥ g.paddle.x - BALL_RADIUS) &&
  decide (ball.x ≤ g.paddle.x + g.paddle.width + BALL_RADIUS) &&
  decide (ball.dy > 0)

/-- JavaScript `hitPos` of the paddle section of `updateGame`. -/
def hitPos (g : Game α) (ball : Ball α) : α :=
  (ball.x - g.paddle.x) / g.paddle.width

/-- The paddle section of `updateGame`. -/
def paddleSection (H : Host α) (g : Game α) (ball : Ball α) (paddleY : α) : Game α × Ball α :=
  if paddleHit g ball paddleY then
    let hitPos := hitPos g ball
    let angle := (hitPos - 0.5) * H.PI * 0.7
    let speed := H.sqrt (ball.dx * ball.dx + ball.dy * ball.dy)
    let ball := { ball with dx := H.sin angle * speed }
    let ball := { ball with dy := -|H.cos angle * speed| }
    let ball := { ball with y := paddleY - BALL_RADIUS }
    (createParticles H g ball.x ball.y COLORS.paddle 4, ball)
  else (g, ball)

/-- The test of the block section of `updateGame`: the four strict inequalities. -/
def blockHit (ball : Ball α) (block : Block α) : Bool :=
  decide (ball.x + BALL_RADIUS > block.x) &&
  decide (ball.x - BALL_RADIUS < block.x + block.width) &&
  decide (ball.y + BALL_RADIUS > block.y) &&
  decide (ball.y - BALL_RADIUS < block.y + block.height)

/-- The inline bounce rule of `updateGame`: the ball with one velocity component negated. -/
def bounce (ball : Ball α) (block : Block α) : Ball α :=
  let overlapLeft := ball.x + BALL_RADIUS - block.x
  let overlapRight := block.x + block.width - (ball.x - BALL_RADIUS)
  let overlapTop := ball.y + BALL_RADIUS - block.y
  let overlapBottom := block.y + block.height - (ball.y - BALL_RADIUS)
  let minOverlapX := min overlapLeft overlapRight
  let minOverlapY := min overlapTop overlapBottom
  if minOverlapX < minOverlapY then { ball with dx := -ball.dx } else { ball with dy := -ball.dy }

/-- The callback of `game.blocks.forEach` in `updateGame`, run over the blocks still to
visit: every block is visited.  It returns the visited blocks, the variables of the tick and
the ball. -/
def blockLoop (H : Host α) : List (Block α) → Tick α → Ball α →
    List (Block α) × Tick α × Ball α
  | [], t, ball => ([], t, ball)
  | block :: rest, t, ball =>
    if block.destroyed then
      let res := blockLoop H rest t ball
      (block :: res.1, res.2.1, res.2.2)
    else if blockHit ball block then
      let ball := bounce ball block
      if !block.isWall then
        let block := { block with destroyed := true }
        let t := { t with scoreIncrease := t.scoreIncrease + 10 }
        let g := createParticles H t.game (block.x + block.width / 2)
          (block.y + block.height / 2) block.color 8
        let drop := H.random g.rng
        let g := { g with rng := g.rng + 1 }
        if drop < DROP_CHANCE then
          let kind := H.random g.rng
          let g := { g with rng := g.rng + 1 }
          let g := { g with
            items := g.items ++
              [{ x := block.x + block.width / 2
                 y := block.y + block.height / 2
                 type := if kind < 0.5 then ItemType.split else ItemType.scatter }] }
          let res := blockLoop H rest { t with game := g } ball
          (block :: res.1, res.2.1, res.2.2)
        else
          let res := blockLoop H rest { t with game := g } ball
          (block :: res.1, res.2.1, res.2.2)
      else
        let g := createParticles H t.game ball.x ball.y COLORS.wall 3
        let res := blockLoop H rest { t with game := g } ball
        (block :: res.1, res.2.1, res.2.2)
    else
      let res := blockLoop H rest t ball
      (block :: res.1, res.2.1, res.2.2)

/-- The block section of `updateGame` for one ball. -/
def blockSection (H : Host α) (t : Tick α) (ball : Ball α) : Tick α × Ball α :=
  let res := blockLoop H t.game.blocks t ball
  ({ res.2.1 with game := { res.2.1.game with blocks := res.1 } }, res.2.2)

/-- The callback of `game.balls.filter` in `updateGame`, applied to one ball; `canvasWidth`
and `canvasHeight` are `canvas.width` and `canvas.height`. -/
def ballCallback (H : Host α) (canvasWidth canvasHeight paddleY : α) (t : Tick α)
    (ball : Ball α) : Tick α × Ball α × Bool :=
  if ball.attached then
    let ball := { ball with x := t.game.paddle.x + t.game.paddle.width / 2 }
    let ball := { ball with y := paddleY - BALL_RADIUS - 2 }
    (t, ball, true)
  else
    let ball := { ball with x := ball.x + ball.dx }
    let ball := { ball with y := ball.y + ball.dy }
    let ball := wallSection canvasWidth ball
    let res := paddleSection H t.game ball paddleY
    let res := blockSection H { t with game := res.1 } res.2
    if res.2.y > canvasHeight + BALL_RADIUS then (res.1, res.2, false)
    else (res.1, res.2, true)

/-- JavaScript `game.balls.filter(...)` of `updateGame`. -/
def filterBalls (H : Host α) (canvasWidth canvasHeight paddleY : α) :
    Tick α → List (Ball α) → Tick α × List (Ball α)
  | t, [] => (t, [])
  | t, ball :: rest =>
    let res := ballCallback H canvasWidth canvasHeight paddleY t ball
    let out := filterBalls H canvasWidth canvasHeight paddleY res.1 rest
    (out.1, if res.2.2 then res.2.1 :: out.2 else out.2)

/-- The check `if (game.balls.length === 0)` of `updateGame` and its body. -/
def ballLoss (paddleY : α) (t : Tick α) : Tick α :=
  if t.game.balls.length = 0 then
    { t with
      livesChange := -1
      game :=
        { t.game with
          balls :=
            [{ x := t.game.paddle.x + t.game.paddle.width / 2
               y := paddleY - BALL_RADIUS - 2
               dx := 0
               dy := 0
               attached := true }] } }
  else t

/-- JavaScript `game.items.filter(...)` of `updateGame`; `canvasHeight` is `canvas.height`. -/
def filterItems (H : Host α) (canvasHeight paddleY : α) :
    Game α → List (Item α) → Game α × List (Item α)
  | g, [] => (g, [])
  | g, item :: rest =>
    let item := { item with y := item.y + ITEM_SPEED }
    if item.y + ITEM_SIZE / 2 ≥ paddleY ∧ item.x ≥ g.paddle.x ∧
        item.x ≤ g.paddle.x + g.paddle.width then
      filterItems H canvasHeight paddleY (handleItemPickup H g item) rest
    else
      let out := filterItems H canvasHeight paddleY g rest
      (out.1, if item.y < canvasHeight + ITEM_SIZE then item :: out.2 else out.2)

/-- The particle filter of `updateGame`. -/
def updateParticles (particles : List (Particle α)) : List (Particle α) :=
  particles.filterMap fun p =>
    let p := { p with x := p.x + p.dx }
    let p := { p with y := p.y + p.dy }
    let p := { p with dy := p.dy + 0.1 }
    let p := { p with life := p.life - 1 }
    if p.life > 0 then some p else none

/-- The part of `updateGame` that works on `gameRef.current`: balls, ball loss, items and
particles.  It returns the variables `game`, `scoreIncrease`, `livesChange`. -/
def simulate (H : Host α) (a : App α) : Tick α :=
  let paddleY := a.canvasHeight - 35
  let t : Tick α := { game := a.game, scoreIncrease := 0, livesChange := 0 }
  let res := filterBalls H a.canvasWidth a.canvasHeight paddleY t t.game.balls
  let t : Tick α := { res.1 with game := { res.1.game with balls := res.2 } }
  let t := ballLoss paddleY t
  let out := filterItems H a.canvasHeight paddleY t.game t.game.items
  let t : Tick α := { t with game := { out.1 with items := out.2 } }
  { t with game := { t.game with particles := updateParticles t.game.particles } }

/-- The updater passed to `setLives` in `updateGame`, with the call of `setGameState` it
makes.  React runs the updater when it processes the queued updates, after `updateGame` has
returned. -/
def setLives (a : App α) (livesChange : Int) : App α :=
  let newLives := a.lives + livesChange
  let a : App α :=
    if newLives ≤ 0 then
      { a with gameState := GameState.gameover, outcomes := a.outcomes ++ [GameState.gameover] }
    else a
  { a with lives := max 0 newLives }

/-- The final check of `updateGame`, with the call `setGameState("levelup")` it makes while
`updateGame` runs. -/
def checkLevelComplete (a : App α) : App α :=
  let remainingBlocks := a.game.blocks.filter fun b => !b.destroyed && !b.isWall
  if remainingBlocks.length = 0 then
    { a with gameState := GameState.levelup, outcomes := a.outcomes ++ [GameState.levelup] }
  else a

/-- JavaScript `updateGame()`: one tick, up to the state that React commits.  While
`updateGame` runs it calls `setScore`, `setLives` and, in the final check,
`setGameState("levelup")`; these calls queue updates.  The function handed to `setLives` is
run by React afterwards, when it processes the queue, and only then makes its call
`setGameState("gameover")`.  So the update of the final check is applied before the updater
of `setLives`: when both calls of `setGameState` are made in one tick, `"levelup"` comes
first and `"gameover"` is the state committed. -/
def updateGame (H : Host α) (a : App α) : App α :=
  let t := simulate H a
  let a : App α := { a with game := t.game }
  let a : App α := if t.scoreIncrease > 0 then { a with score := a.score + t.scoreIncrease } else a
  let a : App α := checkLevelComplete a
  if t.livesChange ≠ 0 then setLives a t.livesChange else a

/-- One frame of the effect that drives the game: `tick` is scheduled only while
`gameState` is `"playing"`. -/
def tick (H : Host α) (a : App α) : App α :=
  if a.gameState = GameState.playing then updateGame H a else a

/-! ### Level layout and initialisation -/

/-- The blocks pushed by the two nested `for` loops of `initBlocks(lvl, canvasWidth)`. -/
def gridBlocks (canvasWidth : α) (rows : Int) : List (Block α) :=
  let cols := BLOCK_COLS
  let totalBlocksWidth := (cols : α) * BLOCK_WIDTH + ((cols : α) - 1) * BLOCK_PADDING
  let startX := (canvasWidth - totalBlocksWidth) / 2
  (List.range rows.toNat).flatMap fun (row : ℕ) =>
    (List.range cols).map fun (col : ℕ) =>
      { x := startX + ((col : ℕ) : α) * (BLOCK_WIDTH + BLOCK_PADDING)
        y := BLOCK_TOP_OFFSET + ((row : ℕ) : α) * (BLOCK_HEIGHT + BLOCK_PADDING)
        width := BLOCK_WIDTH
        height := BLOCK_HEIGHT
        color := COLORS.blocks.getD (row % COLORS.blocks.length) ""
        destroyed := false
        isWall := false
        hits := 1 }

/-- The three assignments that turn `blocks[blockIndex]` into a wall, under the guard
`blockIndex < blocks.length`.  The index is never negative: `row` and `col` are floors of
non-negative numbers plus `2` and `1`. -/
def markWall (blocks : List (Block α)) (blockIndex : Int) : List (Block α) :=
  if blockIndex < (blocks.length : Int) then
    blocks.modify (fun b => { b with isWall := true, color := COLORS.wall, hits := -1 })
      blockIndex.toNat
  else blocks

/-- The wall loop of `initBlocks` with `n` rounds left; `wallPositions` holds the positions
used so far.  It returns the blocks and the number of draws made. -/
def wallLoop (H : Host α) (rows : Int) :
    ℕ → ℕ → List (Int × Int) → List (Block α) → List (Block α) × ℕ
  | 0, rng, _, blocks => (blocks, rng)
  | n + 1, rng, wallPositions, blocks =>
    let cols : Int := (BLOCK_COLS : ℕ)
    let row : Int := ⌊H.random rng * ((min (rows - 2) 6 : Int) : α)⌋ + 2
    let col : Int := ⌊H.random (rng + 1) * ((cols - 2 : Int) : α)⌋ + 1
    let exists_ := wallPositions.any fun p => p.1 = row ∧ p.2 = col
    if !exists_ then
      wallLoop H rows n (rng + 2) (wallPositions ++ [(row, col)])
        (markWall blocks (row * cols + col))
    else wallLoop H rows n (rng + 2) wallPositions blocks

/-- JavaScript `initBlocks(lvl, canvasWidth)`: the blocks, and the number of draws made afterwards. -/
def initBlocks (H : Host α) (rng : ℕ) (lvl : ℕ) (canvasWidth : α) : List (Block α) × ℕ :=
  let rows : Int := min (BLOCK_ROWS + ((lvl / 2 : ℕ) : Int)) 12
  let blocks := gridBlocks canvasWidth rows
  let wallCount := min (3 + lvl) 8
  wallLoop H rows wallCount rng [] blocks

/-- JavaScript `initGame(lvl, keepScore)`. -/
def initGame (H : Host α) (a : App α) (lvl : ℕ) (keepScore : Bool) : App α :=
  let g := a.game
  let g : Game α := { g with canvasWidth := a.canvasWidth }
  let g : Game α := { g with canvasHeight := a.canvasHeight }
  let g : Game α := { g with paddle := { g.paddle with x := a.canvasWidth / 2 - PADDLE_WIDTH / 2 } }
  let g : Game α := { g with paddle := { g.paddle with width := PADDLE_WIDTH } }
  let g : Game α :=
    { g with
      balls := [{ x := a.canvasWidth / 2, y := a.canvasHeight - 50, dx := 0, dy := 0, attached := true }] }
  let made := initBlocks H g.rng lvl a.canvasWidth
  let g : Game α := { g with blocks := made.1, rng := made.2 }
  let g : Game α := { g with items := [] }
  let g : Game α := { g with particles := [] }
  let a : App α := { a with game := g }
  if !keepScore then { a with score := 0, lives := 3, level := 1 } else a

/-- JavaScript `startGame()`. -/
def startGame (H : Host α) (a : App α) : App α :=
  { initGame H a 1 false with gameState := GameState.playing }

/-- JavaScript `nextLevel()`. -/
def nextLevel (H : Host α) (a : App α) : App α :=
  let newLevel := a.level + 1
  let a : App α := { a with level := newLevel }
  { initGame H a newLevel true with gameState := GameState.playing }

/-- JavaScript `restart()`. -/
def restart (H : Host α) (a : App α) : App α :=
  { initGame H a 1 false with gameState := GameState.playing }

/-! ### Input -/

/-- JavaScript `handlePointerMove(e)`, with `x` the pointer position `e.clientX - rect.left`. -/
def handlePointerMove (a : App α) (x : α) : App α :=
  if a.gameState ≠ GameState.playing then a
  else
    { a with
      game :=
        { a.game with
          paddle :=
            { a.game.paddle with
              x := max 0 (min (a.canvasWidth - a.game.paddle.width)
                (x - a.game.paddle.width / 2)) } } }

/-- The three assignments of `handleClick` applied to the first attached ball of the list;
`u` is the draw. -/
def launchFirst (u : α) : List (Ball α) → List (Ball α)
  | [] => []
  | b :: rest =>
    if b.attached then
      { b with attached := false, dx := (u - 0.5) * 3, dy := -BALL_SPEED } :: rest
    else b :: launchFirst u rest

/-- JavaScript `handleClick()`. -/
def handleClick (H : Host α) (a : App α) : App α :=
  if a.gameState ≠ GameState.playing then a
  else if a.game.balls.any (fun b => b.attached) then
    { a with
      game :=
        { a.game with
          balls := launchFirst (H.random a.game.rng) a.game.balls
          rng := a.game.rng + 1 } }
  else a

/-- The function `resize` of the component, with `clientWidth` and `clientHeight` the size of
the container of the canvas; `initGame()` runs with its defaults `lvl = 1`,
`keepScore = false`. -/
def resize (H : Host α) (a : App α) (clientWidth clientHeight : α) : App α :=
  let a : App α := { a with canvasWidth := min 480 clientWidth }
  let a : App α := { a with canvasHeight := min 640 clientHeight }
  if a.gameState = GameState.menu then initGame H a 1 false else a

/-- The states of the component reachable from a freshly initialised game by frames, ticks,
pointer moves, clicks, item pickups, window resizes and the three buttons. -/
inductive Reachable (H : Host α) : App α → Prop where
  | init (a : App α) (lvl : ℕ) (keepScore : Bool) : Reachable H (initGame H a lvl keepScore)
  | tick {a : App α} : Reachable H a → Reachable H (tick H a)
  | update {a : App α} : Reachable H a → Reachable H (updateGame H a)
  | move {a : App α} (x : α) : Reachable H a → Reachable H (handlePointerMove a x)
  | click {a : App α} : Reachable H a → Reachable H (handleClick H a)
  | pickup {a : App α} (item : Item α) :
      Reachable H a → Reachable H { a with game := handleItemPickup H a.game item }
  | resize {a : App α} (clientWidth clientHeight : α) :
      Reachable H a → Reachable H (resize H a clientWidth clientHeight)
  | start {a : App α} : Reachable H a → Reachable H (startGame H a)
  | next {a : App α} : Reachable H a → Reachable H (nextLevel H a)
  | restart {a : App α} : Reachable H a → Reachable H (restart H a)

end Component

end Defs

/-! ## The host over the real numbers -/

/-- The host `H` with its `Math` functions replaced by the real ones: `Math.atan2(y, x)` is
the argument of `x + y i` (in `(-π, π]`, and `0` at the origin).  The draws and the value of
`ball.speed` are those of `H`. -/
noncomputable def realHost (H : Host ℝ) : Host ℝ :=
  { H with
    PI := Real.pi
    sqrt := Real.sqrt
    sin := Real.sin
    cos := Real.cos
    atan2 := fun y x => Complex.arg ⟨x, y⟩ }

/-- A host in which every draw of `Math.random()` is `0.5` (so no item drops) and
`ball.speed` reads as `0`. -/
noncomputable def halfHost : Host ℝ :=
  { PI := Real.pi
    sqrt := Real.sqrt
    sin := Real.sin
    cos := Real.cos
    atan2 := fun y x => Complex.arg ⟨x, y⟩
    random := fun _ => 0.5
    random_mem := fun _ => by norm_num
    speed := fun _ => 0 }

/-! ## Auxiliary predicates -/

/-- Every attached ball of the list has velocity `(0, 0)`. -/
def AttachedAtRest {α : Type} [LinearOrderedField α] (balls : List (Ball α)) : Prop :=
  ∀ b ∈ balls, b.attached = true → b.dx = 0 ∧ b.dy = 0

/-- Every attached ball of the list sits at the paddle-follow position
`(paddle.x + paddle.width / 2, paddleY - 6 - 2)`. -/
def AttachedOnPaddle {α : Type} [LinearOrderedField α] (paddle : Paddle α) (paddleY : α)
    (balls : List (Ball α)) : Prop :=
  ∀ b ∈ balls, b.attached = true →
    b.x = paddle.x + paddle.width / 2 ∧ b.y = paddleY - 6 - 2

/-- The fields of `game` that the handling of one ball never writes. -/
def GameJs.Untouched {α : Type} (g g' : GameJs.Game α) : Prop :=
  g'.state = g.state ∧ g'.lives = g.lives ∧ g'.level = g.level ∧ g'.paddle = g.paddle ∧
    g'.balls = g.balls ∧ g'.canvasWidth = g.canvasWidth ∧ g'.canvasHeight = g.canvasHeight ∧
    g'.outcomes = g.outcomes

/-- The fields of `gameRef.current` and the variable of the tick that the handling of one
ball never writes. -/
def Component.Untouched {α : Type} (t t' : Component.Tick α) : Prop :=
  t'.game.paddle = t.game.paddle ∧ t'.game.balls = t.game.balls ∧
    t'.game.canvasWidth = t.game.canvasWidth ∧ t'.game.canvasHeight = t.game.canvasHeight ∧
    t'.livesChange = t.livesChange

/-! ## The power-ups in the words of the specification -/

/-- The ball `b` detached from the paddle, at the same position, with its velocity rotated by
the angle `θ` (the rotation written out with `cos θ` and `sin θ`).  It states the `split`
power-up in the words of the specification, for comparison with `splitBall`. -/
noncomputable def rotatedBall (θ : ℝ) (b : Ball ℝ) : Ball ℝ :=
  { x := b.x
    y := b.y
    dx := b.dx * Real.cos θ - b.dy * Real.sin θ
    dy := b.dx * Real.sin θ + b.dy * Real.cos θ
    attached := false }

/-- The `split` power-up in the words of the specification: every free ball is replaced, in
place, by its two rotations by `-0.3` and `+0.3`; attached balls are kept. -/
noncomputable def splitSpec (balls : List (Ball ℝ)) : List (Ball ℝ) :=
  balls.flatMap fun b => if b.attached then [b] else [rotatedBall (-0.3) b, rotatedBall 0.3 b]

/-- The launch angle of the `i`-th ball of a `scatter` fan, in the words of the
specification: `-π/2 + (π/8)(i - 2)`. -/
noncomputable def scatterAngle (i : ℕ) : ℝ :=
  -Real.pi / 2 + Real.pi / 8 * ((i : ℝ) - 2)

/-- The `i`-th ball of a `scatter` fan in the words of the specification: free, at the
horizontal centre of the paddle and the height `y`, with velocity
`5 · (cos a_i, sin a_i)`. -/
noncomputable def scatterSpecBall (paddle : Paddle ℝ) (y : ℝ) (i : ℕ) : Ball ℝ :=
  { x := paddle.x + paddle.width / 2
    y := y
    dx := 5 * Real.cos (scatterAngle i)
    dy := 5 * Real.sin (scatterAngle i)
    attached := false }

/-! ## Concrete states used by the examples -/

/-- A playing state of `game.js` on a 480 by 640 canvas, the paddle centred, with no ball
and no block. -/
def Example.emptyGame {α : Type} [LinearOrderedField α] : GameJs.Game α :=
  { state := GameState.playing
    score := 0
    lives := 3
    level := 1
    paddle := { x := 190, width := 100 }
    balls := []
    blocks := []
    items := []
    particles := []
    canvasWidth := 480
    canvasHeight := 640
    outcomes := []
    rng := 0 }

/-- The object `gameRef.current` of the component on a 480 by 640 canvas, the paddle
centred, with no ball and no block. -/
def Example.emptyRef {α : Type} [LinearOrderedField α] : Component.Game α :=
  { paddle := { x := 190, width := 100 }
    balls := []
    blocks := []
    items := []
    particles := []
    canvasWidth := 480
    canvasHeight := 640
    rng := 0 }

/-- A playing state of the component around `Example.emptyRef`. -/
def Example.emptyApp {α : Type} [LinearOrderedField α] : Component.App α :=
  { gameState := GameState.playing
    score := 0
    lives := 3
    level := 1
    game := Example.emptyRef
    canvasWidth := 480
    canvasHeight := 640
    outcomes := [] }

/-- The first two blocks of the first row of a level on a canvas of width 480: they are
`36` wide, `3` apart, and start at `x = 7.5`. -/
def Example.twoBlocks {α : Type} [LinearOrderedField α] : List (Block α) :=
  [{ x := 7.5, y := 60, width := 36, height := 16, color := "#ff6b6b", destroyed := false,
     isWall := false, hits := 1 },
   { x := 46.5, y := 60, width := 36, height := 16, color := "#ff6b6b", destroyed := false,
     isWall := false, hits := 1 }]

/-- A playing state of `game.js` with the given lives, one ball and the two blocks. -/
def Example.playGame {α : Type} [LinearOrderedField α] (lives : Int) (ball : Ball α) :
    GameJs.Game α :=
  { state := GameState.playing
    score := 0
    lives := lives
    level := 1
    paddle := { x := 190, width := 100 }
    balls := [ball]
    blocks := Example.twoBlocks
    items := []
    particles := []
    canvasWidth := 480
    canvasHeight := 640
    outcomes := []
    rng := 0 }

/-- A playing state of the component with the given lives, one ball and the two blocks. -/
def Example.playApp {α : Type} [LinearOrderedField α] (lives : Int) (ball : Ball α) :
    Component.App α :=
  { gameState := GameState.playing
    score := 0
    lives := lives
    level := 1
    game :=
      { paddle := { x := 190, width := 100 }
        balls := [ball]
        blocks := Example.twoBlocks
        items := []
        particles := []
        canvasWidth := 480
        canvasHeight := 640
        rng := 0 }
    canvasWidth := 480
    canvasHeight := 640
    outcomes := [] }

/-- A free ball that moves up to `(45, 80)`, under the gap between the two blocks. -/
def Example.ballBelowGap {α : Type} [LinearOrderedField α] : Ball α :=
  { x := 45, y := 85, dx := 0, dy := -5, attached := false }

/-- A free ball that falls below a canvas of height 640 in one tick. -/
def Example.fallingBall {α : Type} [LinearOrderedField α] : Ball α :=
  { x := 100, y := 645, dx := 0, dy := 5, attached := false }

/-- A split item. -/
def Example.splitItem {α : Type} [LinearOrderedField α] : Item α :=
  { x := 240, y := 600, type := ItemType.split }

/-- A scatter item. -/
def Example.scatterItem {α : Type} [LinearOrderedField α] : Item α :=
  { x := 240, y := 600, type := ItemType.scatter }

/-- One free ball with velocity `(3, 4)` and one attached ball at rest. -/
def Example.freeAndAttached {α : Type} [LinearOrderedField α] : List (Ball α) :=
  [{ x := 100, y := 300, dx := 3, dy := 4, attached := false },
   { x := 240, y := 597, dx := 0, dy := 0, attached := true }]

/-- The state `Example.emptyGame` holding the balls `Example.freeAndAttached`. -/
def Example.splitGame {α : Type} [LinearOrderedField α] : GameJs.Game α :=
  { Example.emptyGame with balls := Example.freeAndAttached }

/-- The object `Example.emptyRef` holding the balls `Example.freeAndAttached`. -/
def Example.splitRef {α : Type} [LinearOrderedField α] : Component.Game α :=
  { Example.emptyRef with balls := Example.freeAndAttached }

/-- A block with its top left corner at the origin. -/
def Example.sideBlock {α : Type} [LinearOrderedField α] : Block α :=
  { x := 0, y := 0, width := 36, height := 16, color := "#ff6b6b", destroyed := false,
    isWall := false, hits := 1 }

/-- A ball with velocity `(3, 4)` that overlaps the right side of `Example.sideBlock` with
horizontal depth `2` and vertical depth `5`. -/
def Example.ballAtBlockSide {α : Type} [LinearOrderedField α] : Ball α :=
  { x := 40, y := -1, dx := 3, dy := 4, attached := false }

/-- A ball over the centre of the paddle of `Example.emptyGame`, moving down with velocity
`(3, 4)`. -/
def Example.ballOnPaddleCentre {α : Type} [LinearOrderedField α] : Ball α :=
  { x := 240, y := 600, dx := 3, dy := 4, attached := false }

/-- A ball moving down whose centre is one radius to the left of the paddle of
`Example.emptyGame`. -/
def Example.ballOnPaddleEdge {α : Type} [LinearOrderedField α] : Ball α :=
  { x := 184, y := 600, dx := 0, dy := 3, attached := false }

/-- The state `Example.emptyGame` after the canvas has shrunk to the width `300`. -/
def Example.narrowGame {α : Type} [LinearOrderedField α] : GameJs.Game α :=
  { Example.emptyGame with canvasWidth := 300 }

/-- A ball that, after moving, is at `x = 397` and moves to the left: it lies beyond the
right boundary of a canvas of width `300`. -/
def Example.ballPastRightEdge {α : Type} [LinearOrderedField α] : Ball α :=
  { x := 397, y := 300, dx := -3, dy := -5, attached := false }

/-- A ball that overlaps the left boundary while moving to the left. -/
def Example.ballEnteringLeftWall {α : Type} [LinearOrderedField α] : Ball α :=
  { x := 3, y := 300, dx := -2, dy := -5, attached := false }

/-! ## Further specification-side definitions and examples -/

/-- What a tick may do to one block, in the words of the specification: `b` is the block
before and `b'` the block after.  No field other than `destroyed` changes, a destroyed block
stays destroyed, and the `destroyed` flag of a wall does not change. -/
def BlockStep {α : Type} (b b' : Block α) : Prop :=
  b'.x = b.x ∧ b'.y = b.y ∧ b'.width = b.width ∧ b'.height = b.height ∧
    b'.color = b.color ∧ b'.isWall = b.isWall ∧ b'.hits = b.hits ∧
    (b.destroyed = true → b'.destroyed = true) ∧
    (b.isWall = true → b'.destroyed = b.destroyed)

/-- The number of blocks of the list with `destroyed = true`. -/
def destroyedCount {α : Type} (blocks : List (Block α)) : ℕ :=
  blocks.countP fun b => b.destroyed

/-- The number of positions at which the block of `blocks` is not destroyed and the block of
`blocks'` is: the blocks whose `destroyed` flag went from `false` to `true`. -/
def newlyDestroyed {α : Type} (blocks blocks' : List (Block α)) : ℕ :=
  (blocks.zip blocks').countP fun p => !p.1.destroyed && p.2.destroyed

/-- The blocks and the score before (`blocks`, `score`) and after (`blocks'`, `score'`) a
part of a tick: the blocks are related position by position by `BlockStep`, and the score
has grown by `10` for every block by which the count of destroyed blocks has grown. -/
def ScoreStep {α : Type} (blocks : List (Block α)) (score : ℕ) (blocks' : List (Block α))
    (score' : ℕ) : Prop :=
  List.Forall₂ BlockStep blocks blocks' ∧
    score' + 10 * destroyedCount blocks = score + 10 * destroyedCount blocks'

/-- Three blocks of the layout of level 1 for the canvas width 480: the one of row 0 and
column 0, destroyed; the one of row 2 and column 1, the only wall (the four draws of the
level gave the same position); and the one of the last row 5 and column 1, at
`y = 60 + 5 · 19 = 155`, the only block left to destroy.  The other 69 blocks of the layout,
all destroyed, are left out: a tick skips destroyed blocks. -/
def Example.lastBlocks {α : Type} [LinearOrderedField α] : List (Block α) :=
  [{ x := 7.5, y := 60, width := 36, height := 16, color := "#ff6b6b", destroyed := true,
     isWall := false, hits := 1 },
   { x := 46.5, y := 98, width := 36, height := 16, color := "#4a4a5e", destroyed := false,
     isWall := true, hits := -1 },
   { x := 46.5, y := 155, width := 36, height := 16, color := "#54a0ff", destroyed := false,
     isWall := false, hits := 1 }]

/-- A free ball that rises straight up, as a ball launched with the draw `0.5` from a paddle
centred at `x = 60` does (`597 - 84 · 5 = 177`).  At `(60, 177)` it touches no block; its
next position `(60, 172)` is within the radius `6` of the bottom edge `y = 171` of the last
block of `Example.lastBlocks`, and below the line `y = 166` under which a ball is lost on a
canvas of height `160`. -/
def Example.ballUnderLastBlock {α : Type} [LinearOrderedField α] : Ball α :=
  { x := 60, y := 177, dx := 0, dy := -5, attached := false }

/-- A playing state of `game.js` on a canvas of 120 by 160 with blocks laid out for the
width 480, the given lives, the blocks `Example.lastBlocks` and the ball
`Example.ballUnderLastBlock`.  It is not a state of `GameJs.ReachableInPlay`: there, on a
canvas narrower than 393, the first block is never destroyed. -/
def Example.lastBallGame {α : Type} [LinearOrderedField α] (lives : Int) : GameJs.Game α :=
  { state := GameState.playing
    score := 0
    lives := lives
    level := 1
    paddle := { x := 10, width := 100 }
    balls := [Example.ballUnderLastBlock]
    blocks := Example.lastBlocks
    items := []
    particles := []
    canvasWidth := 120
    canvasHeight := 160
    outcomes := []
    rng := 0 }

/-- A playing state of the component at level 1 on a canvas of 120 by 160: the game was
started on a canvas of 480 by 640 and the window was made narrower during play, between two
frames (`resize` sets `canvas.width` and `canvas.height` and, outside the menu, keeps the
paddle, the balls, the blocks and the sizes stored in `gameRef.current`).  It has the given
lives, the score `700` of the 70 blocks destroyed, the paddle at `x = 10` (centre `60`), the
blocks `Example.lastBlocks` and the ball `Example.ballUnderLastBlock`. -/
def Example.lastBallApp {α : Type} [LinearOrderedField α] (lives : Int) : Component.App α :=
  { gameState := GameState.playing
    score := 700
    lives := lives
    level := 1
    game :=
      { paddle := { x := 10, width := 100 }
        balls := [Example.ballUnderLastBlock]
        blocks := Example.lastBlocks
        items := []
        particles := []
        canvasWidth := 480
        canvasHeight := 640
        rng := 0 }
    canvasWidth := 120
    canvasHeight := 160
    outcomes := [] }

/-- The particle update in the words of the specification, applied to one particle: the
position is advanced by the velocity, `dy` grows by the gravity `0.1`, `life` drops by one;
`dx`, `color` and `maxLife` are kept. -/
def agedParticle {α : Type} [LinearOrderedField α] (p : Particle α) : Particle α :=
  { x := p.x + p.dx
    y := p.y + p.dy
    dx := p.dx
    dy := p.dy + 0.1
    life := p.life - 1
    maxLife := p.maxLife
    color := p.color }

/-- The particle update in the words of the specification: the particles whose life was
greater than `1`, in their order, each one aged. -/
def updateParticlesSpec {α : Type} [LinearOrderedField α] (particles : List (Particle α)) :
    List (Particle α) :=
  (particles.filter fun p => decide (p.life > 1)).map agedParticle

/-- A particle with velocity `(1, 1)` and thirty ticks to live. -/
def Example.movingParticle {α : Type} [LinearOrderedField α] : Particle α :=
  { x := 0, y := 0, dx := 1, dy := 1, life := 30, maxLife := 30, color := "#fbbf24" }

/-- A host in which every draw of `Math.random()` is `0.9`. -/
noncomputable def highHost : Host ℝ :=
  { halfHost with
    random := fun _ => 0.9
    random_mem := fun _ => by norm_num }

/-- The state `Example.emptyApp` holding the balls `Example.freeAndAttached`. -/
def Example.splitApp {α : Type} [LinearOrderedField α] : Component.App α :=
  { Example.emptyApp with game := Example.splitRef }

/-- The states of `game.js` reachable from `startGame()`, called on the game object as
`resizeCanvas()` left it for a container of width `clientWidth ≥ 0`, by frames of the game
loop (which tick only while playing), paddle moves, launches, `nextLevel()` (offered on the
level-up screen only) and `restartGame()`.  The relation also admits any replacement of the
ball list between two steps, so what is proved of these states does not depend on the
positions and velocities of the balls, in particular not on the velocity that
`calculateBounce` computes from the read of `ball.speed` (see `Host.speed`). -/
inductive GameJs.ReachableInPlay {α : Type} [LinearOrderedField α] [FloorRing α] (H : Host α) :
    GameJs.Game α → Prop where
  | start (g : GameJs.Game α) (clientWidth : α) (h : 0 ≤ clientWidth) :
      GameJs.ReachableInPlay H (GameJs.startGame H (GameJs.resizeCanvas g clientWidth))
  | loop {g : GameJs.Game α} :
      GameJs.ReachableInPlay H g → GameJs.ReachableInPlay H (GameJs.loop H g)
  | move {g : GameJs.Game α} (actualX : α) :
      GameJs.ReachableInPlay H g → GameJs.ReachableInPlay H (GameJs.handlePointerMove g actualX)
  | click {g : GameJs.Game α} :
      GameJs.ReachableInPlay H g → GameJs.ReachableInPlay H (GameJs.handleClick H g)
  | next {g : GameJs.Game α} :
      GameJs.ReachableInPlay H g → g.state = GameState.levelup →
        GameJs.ReachableInPlay H (GameJs.nextLevel H g)
  | restart {g : GameJs.Game α} :
      GameJs.ReachableInPlay H g → GameJs.ReachableInPlay H (GameJs.restartGame H g)
  | balls {g : GameJs.Game α} (balls : List (Ball α)) :
      GameJs.ReachableInPlay H g → GameJs.ReachableInPlay H { g with balls := balls }

/-- The states of the component reachable from `startGame()` by frames (which tick only
while playing), paddle moves, launches, `nextLevel()` (its button is rendered on the level-up
screen only) and `restart()`. -/
inductive Component.ReachableInPlay {α : Type} [LinearOrderedField α] [FloorRing α]
    (H : Host α) : Component.App α → Prop where
  | start (a : Component.App α) : Component.ReachableInPlay H (Component.startGame H a)
  | tick {a : Component.App α} :
      Component.ReachableInPlay H a → Component.ReachableInPlay H (Component.tick H a)
  | move {a : Component.App α} (x : α) :
      Component.ReachableInPlay H a → Component.ReachableInPlay H (Component.handlePointerMove a x)
  | click {a : Component.App α} :
      Component.ReachableInPlay H a → Component.ReachableInPlay H (Component.handleClick H a)
  | next {a : Component.App α} :
      Component.ReachableInPlay H a → a.gameState = GameState.levelup →
        Component.ReachableInPlay H (Component.nextLevel H a)
  | restart {a : Component.App α} :
      Component.ReachableInPlay H a → Component.ReachableInPlay H (Component.restart H a)

/-- The invariant of `game.js` in play.  The canvas is as `resizeCanvas()` sets it; `lives`
is between `0` and `3` and is `0` exactly in the state `gameover`; a playing state has a
block left to destroy; every block ends at `y = 285` or above; and on a canvas narrower than
`393` the first block is a normal block, not destroyed, that no ball can reach (its right
edge is `6` or more to the left of every position the wall collision allows). -/
def GameJs.PlayInvariant {α : Type} [LinearOrderedField α] (g : GameJs.Game α) : Prop :=
  0 ≤ g.canvasWidth ∧ g.canvasHeight = g.canvasWidth * (4 / 3) ∧
    0 ≤ g.lives ∧ g.lives ≤ 3 ∧ (g.lives = 0 ↔ g.state = GameState.gameover) ∧
    (g.state = GameState.playing →
      0 < (g.blocks.filter fun b => !b.destroyed && !b.isWall).length) ∧
    (∀ b ∈ g.blocks, 0 ≤ b.height ∧ b.y + b.height ≤ 285) ∧
    (g.canvasWidth < 393 →
      ∃ b0 rest, g.blocks = b0 :: rest ∧ b0.destroyed = false ∧ b0.isWall = false ∧
        0 ≤ b0.width ∧ b0.x + b0.width + 6 ≤ min 6 (g.canvasWidth - 6))

/-- The invariant of the component in play: `lives` is between `0` and `3`, and it is `0`
exactly in the state `gameover`. -/
def Component.PlayInvariant {α : Type} (a : Component.App α) : Prop :=
  0 ≤ a.lives ∧ a.lives ≤ 3 ∧ (a.lives = 0 ↔ a.gameState = GameState.gameover)

/-- A ball of radius `6` at `(-5, -5)`, up and to the left of the corner `(0, 0)` of
`Example.sideBlock`: its bounding box overlaps the block, the circle does not (the corner is
at distance `√50 > 6`). -/
def Example.ballNearCorner {α : Type} [LinearOrderedField α] : Ball α :=
  { x := -5, y := -5, dx := 3, dy := 4, attached := false }

/-- The position `(row, col)` drawn in round `i` of the wall loop of `createBlocks(level)` of
`game.js`, when the loop starts at draw number `rng`: every round makes two draws. -/
def GameJs.wallPosition {α : Type} [LinearOrderedField α] [FloorRing α] (H : Host α)
    (actualRows : Int) (rng i : ℕ) : Int × Int :=
  (GameJs.randomInt (H.random (rng + 2 * i)) 2 (min (actualRows - 2) 6),
    GameJs.randomInt (H.random (rng + 2 * i + 1)) 1
      (((GameJs.CONFIG.block.cols : ℕ) : Int) - 2))

/-- The position `(row, col)` drawn in round `i` of the wall loop of `initBlocks` of the
component, when the loop starts at draw number `rng`: every round makes two draws. -/
def Component.wallPosition {α : Type} [LinearOrderedField α] [FloorRing α] (H : Host α)
    (rows : Int) (rng i : ℕ) : Int × Int :=
  (⌊H.random (rng + 2 * i) * ((min (rows - 2) 6 : Int) : α)⌋ + 2,
    ⌊H.random (rng + 2 * i + 1) * (((((Component.BLOCK_COLS : ℕ) : Int) - 2 : Int)) : α)⌋ + 1)

/-- The walls of `blocks` are exactly the blocks at the indices `row · 12 + col` of the
positions `(row, col)` of `used`. -/
def WallsAt {α : Type} (used : List (Int × Int)) (blocks : List (Block α)) : Prop :=
  ∀ (k : ℕ) (b : Block α), blocks[k]? = some b →
    (b.isWall = true ↔ ∃ q ∈ used, (q.1 * 12 + q.2).toNat = k)

/-! # Theorems -/

/-! ## Facts about the real `Math` functions -/

/-- The identity `sqrt(x² + y²) · cos(atan2(y, x)) = x`. -/
theorem sqrt_mul_cos_atan2 (x y : ℝ) :
    Real.sqrt (x * x + y * y) * Real.cos (Complex.arg ⟨x, y⟩) = x := by
  have habs : Complex.abs ⟨x, y⟩ = Real.sqrt (x * x + y * y) := by
    rw [Complex.abs_apply, Complex.normSq_mk]
  rw [← habs]
  by_cases hz : (⟨x, y⟩ : ℂ) = 0
  · have hx : x = 0 := by simpa using congrArg Complex.re hz
    rw [hz]; simp [hx]
  · rw [Complex.cos_arg hz]
    have : Complex.abs ⟨x, y⟩ ≠ 0 := by simpa using hz
    field_simp

/-- The identity `sqrt(x² + y²) · sin(atan2(y, x)) = y`. -/
theorem sqrt_mul_sin_atan2 (x y : ℝ) :
    Real.sqrt (x * x + y * y) * Real.sin (Complex.arg ⟨x, y⟩) = y := by
  have habs : Complex.abs ⟨x, y⟩ = Real.sqrt (x * x + y * y) := by
    rw [Complex.abs_apply, Complex.normSq_mk]
  rw [← habs, Complex.sin_arg]
  by_cases hz : (⟨x, y⟩ : ℂ) = 0
  · have hy : y = 0 := by simpa using congrArg Complex.im hz
    rw [hz]; simp [hy]
  · have : Complex.abs ⟨x, y⟩ ≠ 0 := by simpa using hz
    field_simp

/-! ## Frame lemmas for `game.js` -/

/-- The relation `GameJs.Untouched` is reflexive. -/
theorem gameJs_untouched_refl {α : Type} (g : GameJs.Game α) : GameJs.Untouched g g :=
  ⟨rfl, rfl, rfl, rfl, rfl, rfl, rfl, rfl⟩

/-- The relation `GameJs.Untouched` is transitive. -/
theorem gameJs_untouched_trans {α : Type} {g₁ g₂ g₃ : GameJs.Game α}
    (h₁ : GameJs.Untouched g₁ g₂) (h₂ : GameJs.Untouched g₂ g₃) : GameJs.Untouched g₁ g₃ := by
  obtain ⟨a1, a2, a3, a4, a5, a6, a7, a8⟩ := h₁
  obtain ⟨b1, b2, b3, b4, b5, b6, b7, b8⟩ := h₂
  exact ⟨b1.trans a1, b2.trans a2, b3.trans a3, b4.trans a4, b5.trans a5, b6.trans a6,
    b7.trans a7, b8.trans a8⟩

/-- Pushing particles writes `particles` and `rng` only. -/
theorem gameJs_pushParticles_untouched {α : Type} [LinearOrderedField α] (H : Host α)
    (g : GameJs.Game α) (x y : α) (color : String) (count : ℕ) :
    GameJs.Untouched g (GameJs.pushParticles H g x y color count) :=
  ⟨rfl, rfl, rfl, rfl, rfl, rfl, rfl, rfl⟩

/-- The paddle collision of `game.js` writes none of the untouched fields. -/
theorem gameJs_handlePaddleCollision_untouched {α : Type} [LinearOrderedField α] (H : Host α)
    (g : GameJs.Game α) (ball : Ball α) (paddleY : α) :
    GameJs.Untouched g (GameJs.handlePaddleCollision H g ball paddleY).1 := by
  unfold GameJs.handlePaddleCollision
  split_ifs
  · exact gameJs_pushParticles_untouched _ _ _ _ _ _
  · exact gameJs_untouched_refl g

/-- The paddle collision of `game.js` keeps `attached`. -/
theorem gameJs_handlePaddleCollision_attached {α : Type} [LinearOrderedField α] (H : Host α)
    (g : GameJs.Game α) (ball : Ball α) (paddleY : α) :
    (GameJs.handlePaddleCollision H g ball paddleY).2.attached = ball.attached := by
  unfold GameJs.handlePaddleCollision
  split_ifs <;> rfl

/-- The wall collision of `game.js` keeps `attached`. -/
theorem gameJs_handleWallCollision_attached {α : Type} [LinearOrderedField α]
    (g : GameJs.Game α) (ball : Ball α) :
    (GameJs.handleWallCollision g ball).attached = ball.attached := by
  simp only [GameJs.handleWallCollision]
  split_ifs <;> rfl

/-- The block loop of `game.js` writes none of the untouched fields and keeps the position and
`attached` of the ball. -/
theorem gameJs_blockLoop_untouched {α : Type} [LinearOrderedField α] (H : Host α)
    (blocks : List (Block α)) (g : GameJs.Game α) (ball : Ball α) :
    GameJs.Untouched g (GameJs.blockLoop H blocks g ball).2.1 ∧
      (GameJs.blockLoop H blocks g ball).2.2.attached = ball.attached ∧
      (GameJs.blockLoop H blocks g ball).2.2.x = ball.x ∧
      (GameJs.blockLoop H blocks g ball).2.2.y = ball.y := by
  induction blocks with
  | nil => exact ⟨gameJs_untouched_refl g, rfl, rfl, rfl⟩
  | cons block rest ih =>
    unfold GameJs.blockLoop
    dsimp only
    split_ifs <;>
      first
        | exact ih
        | exact ⟨⟨rfl, rfl, rfl, rfl, rfl, rfl, rfl, rfl⟩, rfl, rfl, rfl⟩

/-- The block collision of `game.js` writes none of the untouched fields and keeps the position
and `attached` of the ball. -/
theorem gameJs_handleBlockCollision_untouched {α : Type} [LinearOrderedField α] (H : Host α)
    (g : GameJs.Game α) (ball : Ball α) :
    GameJs.Untouched g (GameJs.handleBlockCollision H g ball).1 ∧
      (GameJs.handleBlockCollision H g ball).2.attached = ball.attached ∧
      (GameJs.handleBlockCollision H g ball).2.x = ball.x ∧
      (GameJs.handleBlockCollision H g ball).2.y = ball.y := by
  obtain ⟨⟨a1, a2, a3, a4, a5, a6, a7, a8⟩, h2, h3, h4⟩ :=
    gameJs_blockLoop_untouched H g.blocks g ball
  exact ⟨⟨a1, a2, a3, a4, a5, a6, a7, a8⟩, h2, h3, h4⟩

/-- The callback of the ball filter of `game.js`: it writes none of the untouched fields,
keeps `attached`, and puts an attached ball on the paddle without touching its velocity. -/
theorem gameJs_ballCallback_spec {α : Type} [LinearOrderedField α] (H : Host α)
    (paddleY : α) (g : GameJs.Game α) (ball : Ball α) :
    GameJs.Untouched g (GameJs.ballCallback H paddleY g ball).1 ∧
      (GameJs.ballCallback H paddleY g ball).2.1.attached = ball.attached ∧
      (ball.attached = true →
        (GameJs.ballCallback H paddleY g ball).2.1 =
          { ball with x := g.paddle.x + g.paddle.width / 2, y := paddleY - 6 - 2 }) := by
  unfold GameJs.ballCallback
  by_cases hatt : ball.attached = true
  · rw [if_pos hatt]
    exact ⟨gameJs_untouched_refl g, rfl, fun _ => rfl⟩
  · rw [if_neg hatt]
    dsimp only
    have hp := gameJs_handlePaddleCollision_untouched H g
      (GameJs.handleWallCollision g
        { ball with x := ball.x + ball.dx, y := ball.y + ball.dy }) paddleY
    have hpa := gameJs_handlePaddleCollision_attached H g
      (GameJs.handleWallCollision g
        { ball with x := ball.x + ball.dx, y := ball.y + ball.dy }) paddleY
    have hwa := gameJs_handleWallCollision_attached g
      { ball with x := ball.x + ball.dx, y := ball.y + ball.dy }
    obtain ⟨hb, hba, -, -⟩ := gameJs_handleBlockCollision_untouched H
      (GameJs.handlePaddleCollision H g
        (GameJs.handleWallCollision g
          { ball with x := ball.x + ball.dx, y := ball.y + ball.dy }) paddleY).1
      (GameJs.handlePaddleCollision H g
        (GameJs.handleWallCollision g
          { ball with x := ball.x + ball.dx, y := ball.y + ball.dy }) paddleY).2
    have hatt' := hba.trans (hpa.trans hwa)
    split_ifs
    · exact ⟨gameJs_untouched_trans hp hb, hatt', fun h => absurd h hatt⟩
    · exact ⟨gameJs_untouched_trans hp hb, hatt', fun h => absurd h hatt⟩

/-- The ball filter of `game.js`: every attached ball it keeps is an attached ball of the
input, moved onto the paddle, with the velocity it had. -/
theorem gameJs_filterBalls_spec {α : Type} [LinearOrderedField α] (H : Host α) (paddleY : α)
    (balls : List (Ball α)) (g : GameJs.Game α) :
    GameJs.Untouched g (GameJs.filterBalls H paddleY g balls).1 ∧
      ∀ b' ∈ (GameJs.filterBalls H paddleY g balls).2, b'.attached = true →
        ∃ b ∈ balls, b.attached = true ∧
          b' = { b with x := g.paddle.x + g.paddle.width / 2, y := paddleY - 6 - 2 } := by
  induction balls generalizing g with
  | nil => exact ⟨gameJs_untouched_refl g, fun b' hb' => absurd hb' (List.not_mem_nil _)⟩
  | cons ball rest ih =>
    unfold GameJs.filterBalls
    dsimp only
    obtain ⟨hu, hatt, hpos⟩ := gameJs_ballCallback_spec H paddleY g ball
    obtain ⟨hu', hrest⟩ := ih (GameJs.ballCallback H paddleY g ball).1
    refine ⟨gameJs_untouched_trans hu hu', ?_⟩
    have hpad : (GameJs.ballCallback H paddleY g ball).1.paddle = g.paddle := hu.2.2.2.1
    have tail : ∀ b' ∈ (GameJs.filterBalls H paddleY (GameJs.ballCallback H paddleY g ball).1
        rest).2, b'.attached = true →
        ∃ b ∈ ball :: rest, b.attached = true ∧
          b' = { b with x := g.paddle.x + g.paddle.width / 2, y := paddleY - 6 - 2 } := by
      intro b' hb' ha
      obtain ⟨b, hb, hba, hbe⟩ := hrest b' hb' ha
      rw [hpad] at hbe
      exact ⟨b, List.mem_cons_of_mem _ hb, hba, hbe⟩
    intro b' hb' ha
    split_ifs at hb' with hkeep
    · rcases List.mem_cons.1 hb' with h | h
      · subst h
        have hball : ball.attached = true := hatt ▸ ha
        exact ⟨ball, List.mem_cons_self _ _, hball, hpos hball⟩
      · exact tail b' h ha
    · exact tail b' hb' ha

/-- JavaScript `updateBalls` of `game.js` keeps the paddle and the canvas, and leaves every attached
ball at rest on the paddle when the attached balls were at rest before. -/
theorem gameJs_updateBalls_attached {α : Type} [LinearOrderedField α] (H : Host α)
    (paddleY : α) (g : GameJs.Game α) (hrest : AttachedAtRest g.balls) :
    (GameJs.updateBalls H paddleY g).paddle = g.paddle ∧
      (GameJs.updateBalls H paddleY g).canvasWidth = g.canvasWidth ∧
      (GameJs.updateBalls H paddleY g).canvasHeight = g.canvasHeight ∧
      AttachedAtRest (GameJs.updateBalls H paddleY g).balls ∧
      AttachedOnPaddle g.paddle paddleY (GameJs.updateBalls H paddleY g).balls := by
  obtain ⟨⟨-, -, -, hpad, -, hcw, hch, -⟩, hkept⟩ := gameJs_filterBalls_spec H paddleY g.balls g
  have kept_rest : AttachedAtRest (GameJs.filterBalls H paddleY g g.balls).2 := by
    intro b' hb' ha
    obtain ⟨b, hb, hba, rfl⟩ := hkept b' hb' ha
    exact hrest b hb hba
  have kept_pos : AttachedOnPaddle g.paddle paddleY (GameJs.filterBalls H paddleY g g.balls).2 := by
    intro b' hb' ha
    obtain ⟨b, hb, hba, rfl⟩ := hkept b' hb' ha
    exact ⟨rfl, rfl⟩
  unfold GameJs.updateBalls
  dsimp only
  split_ifs with hlen hlives
  · have hnil : (GameJs.filterBalls H paddleY g g.balls).2 = [] := List.length_eq_zero.1 hlen
    refine ⟨hpad, hcw, hch, ?_, ?_⟩
    · intro b hb; simp only [GameJs.gameOver, hnil] at hb; exact absurd hb (List.not_mem_nil _)
    · intro b hb; simp only [GameJs.gameOver, hnil] at hb; exact absurd hb (List.not_mem_nil _)
  · refine ⟨hpad, hcw, hch, ?_, ?_⟩
    · intro b hb _
      rw [List.mem_singleton.1 hb]
      exact ⟨rfl, rfl⟩
    · intro b hb _
      rw [List.mem_singleton.1 hb]
      dsimp only
      rw [hpad]
      exact ⟨rfl, rfl⟩
  · exact ⟨hpad, hcw, hch, kept_rest, kept_pos⟩

/-- A ball produced by `splitBall` that is attached is the ball that was split. -/
theorem gameJs_splitBall_attached {α : Type} [LinearOrderedField α] (H : Host α)
    (ball b' : Ball α) (hb' : b' ∈ GameJs.splitBall H ball) (ha : b'.attached = true) :
    b' = ball := by
  unfold GameJs.splitBall at hb'
  split_ifs at hb' with h
  · simp only [List.mem_cons, List.mem_singleton, List.not_mem_nil, or_false] at hb'
    rcases hb' with rfl | rfl <;> exact absurd ha (by simp)
  · exact List.mem_singleton.1 hb'

/-- JavaScript `activatePowerUp` keeps the paddle and the canvas, and every attached ball after it was
an attached ball before it. -/
theorem gameJs_activatePowerUp_attached {α : Type} [LinearOrderedField α] (H : Host α)
    (g : GameJs.Game α) (item : Item α) :
    (GameJs.activatePowerUp H g item).paddle = g.paddle ∧
      (GameJs.activatePowerUp H g item).canvasWidth = g.canvasWidth ∧
      (GameJs.activatePowerUp H g item).canvasHeight = g.canvasHeight ∧
      ∀ b' ∈ (GameJs.activatePowerUp H g item).balls, b'.attached = true → b' ∈ g.balls := by
  unfold GameJs.activatePowerUp
  cases item.type
  · refine ⟨rfl, rfl, rfl, ?_⟩
    intro b' hb' ha
    simp only [GameJs.pushParticles, List.mem_flatMap] at hb'
    obtain ⟨b, hb, hbb⟩ := hb'
    rw [gameJs_splitBall_attached H b b' hbb ha]
    exact hb
  · refine ⟨rfl, rfl, rfl, ?_⟩
    intro b' hb' ha
    simp only [GameJs.pushParticles, List.mem_append, List.mem_map] at hb'
    rcases hb' with h | ⟨i, -, rfl⟩
    · exact h
    · exact absurd ha (by simp [GameJs.scatterBall])

/-- The item filter of `game.js` keeps the paddle and the canvas, and every attached ball
after it was an attached ball before it. -/
theorem gameJs_filterItems_attached {α : Type} [LinearOrderedField α] (H : Host α)
    (paddleY : α) (items : List (Item α)) (g : GameJs.Game α) :
    (GameJs.filterItems H paddleY g items).1.paddle = g.paddle ∧
      (GameJs.filterItems H paddleY g items).1.canvasWidth = g.canvasWidth ∧
      (GameJs.filterItems H paddleY g items).1.canvasHeight = g.canvasHeight ∧
      ∀ b' ∈ (GameJs.filterItems H paddleY g items).1.balls, b'.attached = true →
        b' ∈ g.balls := by
  induction items generalizing g with
  | nil => exact ⟨rfl, rfl, rfl, fun _ h _ => h⟩
  | cons item rest ih =>
    unfold GameJs.filterItems
    dsimp only
    split_ifs
    · obtain ⟨p1, w1, c1, b1⟩ := gameJs_activatePowerUp_attached H g
        { item with y := item.y + GameJs.CONFIG.item.speed }
      obtain ⟨p2, w2, c2, b2⟩ := ih (GameJs.activatePowerUp H g
        { item with y := item.y + GameJs.CONFIG.item.speed })
      exact ⟨p2.trans p1, w2.trans w1, c2.trans c1, fun b' hb' ha => b1 b' (b2 b' hb' ha) ha⟩
    · exact ih g
    · exact ih g

/-- One tick of `game.js` keeps the paddle and the canvas, and leaves every attached ball at
rest on the paddle when the attached balls were at rest before. -/
theorem gameJs_update_attached {α : Type} [LinearOrderedField α] (H : Host α)
    (g : GameJs.Game α) (hrest : AttachedAtRest g.balls) :
    (GameJs.update H g).paddle = g.paddle ∧
      (GameJs.update H g).canvasWidth = g.canvasWidth ∧
      (GameJs.update H g).canvasHeight = g.canvasHeight ∧
      AttachedAtRest (GameJs.update H g).balls ∧
      AttachedOnPaddle g.paddle (g.canvasHeight - 35) (GameJs.update H g).balls := by
  obtain ⟨p1, w1, c1, r1, o1⟩ := gameJs_updateBalls_attached H (g.canvasHeight - 35) g hrest
  obtain ⟨p2, w2, c2, b2⟩ := gameJs_filterItems_attached H (g.canvasHeight - 35)
    (GameJs.updateBalls H (g.canvasHeight - 35) g).items
    (GameJs.updateBalls H (g.canvasHeight - 35) g)
  have hballs : (GameJs.update H g).balls =
      (GameJs.filterItems H (g.canvasHeight - 35) (GameJs.updateBalls H (g.canvasHeight - 35) g)
        (GameJs.updateBalls H (g.canvasHeight - 35) g).items).1.balls := by
    simp only [GameJs.update, GameJs.updateItems, GameJs.checkLevelComplete,
      GameJs.levelComplete, GameJs.CONFIG.paddle.offsetBottom]
    split_ifs <;> rfl
  have hpad : (GameJs.update H g).paddle =
      (GameJs.filterItems H (g.canvasHeight - 35) (GameJs.updateBalls H (g.canvasHeight - 35) g)
        (GameJs.updateBalls H (g.canvasHeight - 35) g).items).1.paddle := by
    simp only [GameJs.update, GameJs.updateItems, GameJs.checkLevelComplete,
      GameJs.levelComplete, GameJs.CONFIG.paddle.offsetBottom]
    split_ifs <;> rfl
  have hcw : (GameJs.update H g).canvasWidth =
      (GameJs.filterItems H (g.canvasHeight - 35) (GameJs.updateBalls H (g.canvasHeight - 35) g)
        (GameJs.updateBalls H (g.canvasHeight - 35) g).items).1.canvasWidth := by
    simp only [GameJs.update, GameJs.updateItems, GameJs.checkLevelComplete,
      GameJs.levelComplete, GameJs.CONFIG.paddle.offsetBottom]
    split_ifs <;> rfl
  have hch : (GameJs.update H g).canvasHeight =
      (GameJs.filterItems H (g.canvasHeight - 35) (GameJs.updateBalls H (g.canvasHeight - 35) g)
        (GameJs.updateBalls H (g.canvasHeight - 35) g).items).1.canvasHeight := by
    simp only [GameJs.update, GameJs.updateItems, GameJs.checkLevelComplete,
      GameJs.levelComplete, GameJs.CONFIG.paddle.offsetBottom]
    split_ifs <;> rfl
  rw [hballs, hpad, hcw, hch]
  exact ⟨p2.trans p1, w2.trans w1, c2.trans c1,
    fun b hb ha => r1 b (b2 b hb ha) ha, fun b hb ha => o1 b (b2 b hb ha) ha⟩

/-- JavaScript `initGameData` leaves exactly one ball, attached and at rest. -/
theorem gameJs_initGameData_balls {α : Type} [LinearOrderedField α] [FloorRing α] (H : Host α)
    (g : GameJs.Game α) (keepScore : Bool) :
    (GameJs.initGameData H g keepScore).balls =
      [{ x := g.canvasWidth / 2, y := g.canvasHeight - 35 - 6 - 2, dx := 0, dy := 0,
         attached := true }] := by
  unfold GameJs.initGameData
  cases keepScore <;> rfl

/-- A ball of `launchFirst` that is still attached is a ball of the list. -/
theorem gameJs_launchFirst_attached {α : Type} [LinearOrderedField α] (u : α)
    (balls : List (Ball α)) :
    ∀ b' ∈ GameJs.launchFirst u balls, b'.attached = true → b' ∈ balls := by
  induction balls with
  | nil => intro b' hb' _; exact hb'
  | cons b rest ih =>
    intro b' hb' ha
    unfold GameJs.launchFirst at hb'
    split_ifs at hb' with h
    · rcases List.mem_cons.1 hb' with rfl | h'
      · exact absurd ha (by simp)
      · exact List.mem_cons_of_mem _ h'
    · rcases List.mem_cons.1 hb' with rfl | h'
      · exact List.mem_cons_self _ _
      · exact List.mem_cons_of_mem _ (ih b' h' ha)

/-- In every reachable state of `game.js` the attached balls are at rest. -/
theorem gameJs_reachable_attachedAtRest {α : Type} [LinearOrderedField α] [FloorRing α]
    (H : Host α) {g : GameJs.Game α} (hg : GameJs.Reachable H g) : AttachedAtRest g.balls := by
  have init_ok : ∀ (g₀ : GameJs.Game α) (keep : Bool),
      AttachedAtRest (GameJs.initGameData H g₀ keep).balls := by
    intro g₀ keep b hb _
    rw [gameJs_initGameData_balls, List.mem_singleton] at hb
    rw [hb]
    exact ⟨rfl, rfl⟩
  induction hg with
  | init g₀ keep => exact init_ok g₀ keep
  | loop _ ih =>
    unfold GameJs.loop
    split_ifs
    · exact (gameJs_update_attached H _ ih).2.2.2.1
    · exact ih
  | update _ ih => exact (gameJs_update_attached H _ ih).2.2.2.1
  | move actualX _ ih =>
    unfold GameJs.handlePointerMove
    split_ifs
    · exact ih
    · exact ih
  | click _ ih =>
    unfold GameJs.handleClick
    split_ifs
    · exact ih
    · intro b hb ha
      exact ih b (gameJs_launchFirst_attached _ _ b hb ha) ha
    · exact ih
  | powerUp item _ ih =>
    intro b hb ha
    exact ih b ((gameJs_activatePowerUp_attached H _ item).2.2.2 b hb ha) ha
  | resize clientWidth _ ih => exact ih
  | start _ _ => exact init_ok _ _
  | restart _ _ => exact init_ok _ _
  | next _ _ => exact init_ok _ _

/-! ## Frame lemmas for the component -/

/-- The relation `Component.Untouched` is reflexive. -/
theorem component_untouched_refl {α : Type} (t : Component.Tick α) : Component.Untouched t t :=
  ⟨rfl, rfl, rfl, rfl, rfl⟩

/-- The relation `Component.Untouched` is transitive. -/
theorem component_untouched_trans {α : Type} {t₁ t₂ t₃ : Component.Tick α}
    (h₁ : Component.Untouched t₁ t₂) (h₂ : Component.Untouched t₂ t₃) :
    Component.Untouched t₁ t₃ := by
  obtain ⟨a1, a2, a3, a4, a5⟩ := h₁
  obtain ⟨b1, b2, b3, b4, b5⟩ := h₂
  exact ⟨b1.trans a1, b2.trans a2, b3.trans a3, b4.trans a4, b5.trans a5⟩

/-- The paddle section of the component writes none of the untouched fields and keeps `attached`. -/
theorem component_paddleSection_untouched {α : Type} [LinearOrderedField α] (H : Host α)
    (t : Component.Tick α) (ball : Ball α) (paddleY : α) :
    Component.Untouched t { t with game := (Component.paddleSection H t.game ball paddleY).1 } ∧
      (Component.paddleSection H t.game ball paddleY).2.attached = ball.attached := by
  unfold Component.paddleSection
  split_ifs
  · exact ⟨⟨rfl, rfl, rfl, rfl, rfl⟩, rfl⟩
  · exact ⟨⟨rfl, rfl, rfl, rfl, rfl⟩, rfl⟩

/-- The wall section of the component keeps `attached`. -/
theorem component_wallSection_attached {α : Type} [LinearOrderedField α]
    (cw : α) (ball : Ball α) :
    (Component.wallSection cw ball).attached = ball.attached := by
  simp only [Component.wallSection]
  split_ifs <;> rfl

/-- The inline bounce rule keeps the position and `attached` of the ball. -/
theorem component_bounce_position {α : Type} [LinearOrderedField α]
    (ball : Ball α) (block : Block α) :
    (Component.bounce ball block).attached = ball.attached ∧
      (Component.bounce ball block).x = ball.x ∧ (Component.bounce ball block).y = ball.y := by
  simp only [Component.bounce]
  split_ifs <;> exact ⟨rfl, rfl, rfl⟩

/-- The block loop of the component writes none of the untouched fields and keeps the position
and `attached` of the ball. -/
theorem component_blockLoop_untouched {α : Type} [LinearOrderedField α] (H : Host α)
    (blocks : List (Block α)) (t : Component.Tick α) (ball : Ball α) :
    Component.Untouched t (Component.blockLoop H blocks t ball).2.1 ∧
      (Component.blockLoop H blocks t ball).2.2.attached = ball.attached ∧
      (Component.blockLoop H blocks t ball).2.2.x = ball.x ∧
      (Component.blockLoop H blocks t ball).2.2.y = ball.y := by
  induction blocks generalizing t ball with
  | nil => exact ⟨component_untouched_refl t, rfl, rfl, rfl⟩
  | cons block rest ih =>
    obtain ⟨ba, bx, bY⟩ := component_bounce_position ball block
    unfold Component.blockLoop
    dsimp only
    split_ifs <;>
      first
        | exact ih t ball
        | (obtain ⟨u, a, x, y⟩ := ih _ (Component.bounce ball block)
           exact ⟨component_untouched_trans ⟨rfl, rfl, rfl, rfl, rfl⟩ u, a.trans ba, x.trans bx,
             y.trans bY⟩)

/-- The block section of the component writes none of the untouched fields and keeps `attached`. -/
theorem component_blockSection_untouched {α : Type} [LinearOrderedField α] (H : Host α)
    (t : Component.Tick α) (ball : Ball α) :
    Component.Untouched t (Component.blockSection H t ball).1 ∧
      (Component.blockSection H t ball).2.attached = ball.attached := by
  obtain ⟨⟨a1, a2, a3, a4, a5⟩, h2, -, -⟩ := component_blockLoop_untouched H t.game.blocks t ball
  exact ⟨⟨a1, a2, a3, a4, a5⟩, h2⟩

/-- The callback of the ball filter of the component: it writes none of the untouched
fields, keeps `attached`, and puts an attached ball on the paddle without touching its
velocity. -/
theorem component_ballCallback_spec {α : Type} [LinearOrderedField α] (H : Host α)
    (cw ch paddleY : α) (t : Component.Tick α) (ball : Ball α) :
    Component.Untouched t (Component.ballCallback H cw ch paddleY t ball).1 ∧
      (Component.ballCallback H cw ch paddleY t ball).2.1.attached = ball.attached ∧
      (ball.attached = true →
        (Component.ballCallback H cw ch paddleY t ball).2.1 =
          { ball with x := t.game.paddle.x + t.game.paddle.width / 2, y := paddleY - 6 - 2 }) := by
  unfold Component.ballCallback
  by_cases hatt : ball.attached = true
  · rw [if_pos hatt]
    exact ⟨component_untouched_refl t, rfl, fun _ => rfl⟩
  · rw [if_neg hatt]
    dsimp only
    obtain ⟨hp, hpa⟩ := component_paddleSection_untouched H t
      (Component.wallSection cw { ball with x := ball.x + ball.dx, y := ball.y + ball.dy })
      paddleY
    have hwa := component_wallSection_attached cw
      { ball with x := ball.x + ball.dx, y := ball.y + ball.dy }
    obtain ⟨hb, hba⟩ := component_blockSection_untouched H
      { t with game := (Component.paddleSection H t.game
        (Component.wallSection cw { ball with x := ball.x + ball.dx, y := ball.y + ball.dy })
        paddleY).1 }
      (Component.paddleSection H t.game
        (Component.wallSection cw { ball with x := ball.x + ball.dx, y := ball.y + ball.dy })
        paddleY).2
    have hatt' := hba.trans (hpa.trans hwa)
    split_ifs
    · exact ⟨component_untouched_trans hp hb, hatt', fun h => absurd h hatt⟩
    · exact ⟨component_untouched_trans hp hb, hatt', fun h => absurd h hatt⟩

/-- The ball filter of the component: every attached ball it keeps is an attached ball of
the input, moved onto the paddle, with the velocity it had. -/
theorem component_filterBalls_spec {α : Type} [LinearOrderedField α] (H : Host α)
    (cw ch paddleY : α) (balls : List (Ball α)) (t : Component.Tick α) :
    Component.Untouched t (Component.filterBalls H cw ch paddleY t balls).1 ∧
      ∀ b' ∈ (Component.filterBalls H cw ch paddleY t balls).2, b'.attached = true →
        ∃ b ∈ balls, b.attached = true ∧
          b' = { b with x := t.game.paddle.x + t.game.paddle.width / 2, y := paddleY - 6 - 2 } := by
  induction balls generalizing t with
  | nil => exact ⟨component_untouched_refl t, fun b' hb' => absurd hb' (List.not_mem_nil _)⟩
  | cons ball rest ih =>
    unfold Component.filterBalls
    dsimp only
    obtain ⟨hu, hatt, hpos⟩ := component_ballCallback_spec H cw ch paddleY t ball
    obtain ⟨hu', hrest⟩ := ih (Component.ballCallback H cw ch paddleY t ball).1
    refine ⟨component_untouched_trans hu hu', ?_⟩
    have hpad : (Component.ballCallback H cw ch paddleY t ball).1.game.paddle = t.game.paddle :=
      hu.1
    have tail : ∀ b' ∈ (Component.filterBalls H cw ch paddleY
        (Component.ballCallback H cw ch paddleY t ball).1 rest).2, b'.attached = true →
        ∃ b ∈ ball :: rest, b.attached = true ∧
          b' = { b with x := t.game.paddle.x + t.game.paddle.width / 2, y := paddleY - 6 - 2 } := by
      intro b' hb' ha
      obtain ⟨b, hb, hba, hbe⟩ := hrest b' hb' ha
      rw [hpad] at hbe
      exact ⟨b, List.mem_cons_of_mem _ hb, hba, hbe⟩
    intro b' hb' ha
    split_ifs at hb' with hkeep
    · rcases List.mem_cons.1 hb' with h | h
      · subst h
        have hball : ball.attached = true := hatt ▸ ha
        exact ⟨ball, List.mem_cons_self _ _, hball, hpos hball⟩
      · exact tail b' h ha
    · exact tail b' hb' ha

/-- A ball produced by `splitBall` that is attached is the ball that was split. -/
theorem component_splitBall_attached {α : Type} [LinearOrderedField α] (H : Host α)
    (ball b' : Ball α) (hb' : b' ∈ Component.splitBall H ball) (ha : b'.attached = true) :
    b' = ball := by
  unfold Component.splitBall at hb'
  split_ifs at hb' with h
  · simp only [List.mem_cons, List.mem_singleton, List.not_mem_nil, or_false] at hb'
    rcases hb' with rfl | rfl <;> exact absurd ha (by simp)
  · exact List.mem_singleton.1 hb'

/-- JavaScript `handleItemPickup` keeps the paddle and the canvas size, and every attached ball after it
was an attached ball before it. -/
theorem component_handleItemPickup_attached {α : Type} [LinearOrderedField α] (H : Host α)
    (g : Component.Game α) (item : Item α) :
    (Component.handleItemPickup H g item).paddle = g.paddle ∧
      (Component.handleItemPickup H g item).canvasHeight = g.canvasHeight ∧
      ∀ b' ∈ (Component.handleItemPickup H g item).balls, b'.attached = true → b' ∈ g.balls := by
  unfold Component.handleItemPickup
  cases item.type
  · refine ⟨rfl, rfl, ?_⟩
    intro b' hb' ha
    simp only [Component.createParticles, List.mem_flatMap] at hb'
    obtain ⟨b, hb, hbb⟩ := hb'
    rw [component_splitBall_attached H b b' hbb ha]
    exact hb
  · refine ⟨rfl, rfl, ?_⟩
    intro b' hb' ha
    simp only [Component.createParticles, List.mem_append, List.mem_map] at hb'
    rcases hb' with h | ⟨i, -, rfl⟩
    · exact h
    · exact absurd ha (by simp [Component.scatterBall])

/-- The item filter of the component keeps the paddle, and every attached ball after it was
an attached ball before it. -/
theorem component_filterItems_attached {α : Type} [LinearOrderedField α] (H : Host α)
    (ch paddleY : α) (items : List (Item α)) (g : Component.Game α) :
    (Component.filterItems H ch paddleY g items).1.paddle = g.paddle ∧
      ∀ b' ∈ (Component.filterItems H ch paddleY g items).1.balls, b'.attached = true →
        b' ∈ g.balls := by
  induction items generalizing g with
  | nil => exact ⟨rfl, fun _ h _ => h⟩
  | cons item rest ih =>
    unfold Component.filterItems
    dsimp only
    split_ifs
    · obtain ⟨p1, -, b1⟩ := component_handleItemPickup_attached H g
        { item with y := item.y + Component.ITEM_SPEED }
      obtain ⟨p2, b2⟩ := ih (Component.handleItemPickup H g
        { item with y := item.y + Component.ITEM_SPEED })
      exact ⟨p2.trans p1, fun b' hb' ha => b1 b' (b2 b' hb' ha) ha⟩
    · exact ih g
    · exact ih g

/-- The setters and the final check of `updateGame` do not write `gameRef.current` nor the
canvas size. -/
theorem component_updateGame_game {α : Type} [LinearOrderedField α] (H : Host α)
    (a : Component.App α) :
    (Component.updateGame H a).game = (Component.simulate H a).game ∧
      (Component.updateGame H a).canvasWidth = a.canvasWidth ∧
      (Component.updateGame H a).canvasHeight = a.canvasHeight := by
  simp only [Component.updateGame, Component.checkLevelComplete, Component.setLives]
  split_ifs <;> exact ⟨rfl, rfl, rfl⟩

/-- The simulation part of one tick of the component keeps the paddle, and leaves every
attached ball at rest on the paddle when the attached balls were at rest before. -/
theorem component_simulate_attached {α : Type} [LinearOrderedField α] (H : Host α)
    (a : Component.App α) (hrest : AttachedAtRest a.game.balls) :
    (Component.simulate H a).game.paddle = a.game.paddle ∧
      AttachedAtRest (Component.simulate H a).game.balls ∧
      AttachedOnPaddle a.game.paddle (a.canvasHeight - 35) (Component.simulate H a).game.balls := by
  obtain ⟨⟨hpad, -, -, -, -⟩, hkept⟩ := component_filterBalls_spec H a.canvasWidth a.canvasHeight
    (a.canvasHeight - 35) a.game.balls { game := a.game, scoreIncrease := 0, livesChange := 0 }
  -- the balls after the filter and the ball-loss check
  have loss : ∀ t : Component.Tick α, t.game.paddle = a.game.paddle →
      AttachedAtRest t.game.balls → AttachedOnPaddle a.game.paddle (a.canvasHeight - 35) t.game.balls →
      (Component.ballLoss (a.canvasHeight - 35) t).game.paddle = a.game.paddle ∧
        AttachedAtRest (Component.ballLoss (a.canvasHeight - 35) t).game.balls ∧
        AttachedOnPaddle a.game.paddle (a.canvasHeight - 35)
          (Component.ballLoss (a.canvasHeight - 35) t).game.balls := by
    intro t hp hr ho
    unfold Component.ballLoss
    split_ifs
    · refine ⟨hp, ?_, ?_⟩
      · intro b hb _
        rw [List.mem_singleton.1 hb]
        exact ⟨rfl, rfl⟩
      · intro b hb _
        rw [List.mem_singleton.1 hb]
        dsimp only
        rw [hp]
        exact ⟨rfl, rfl⟩
    · exact ⟨hp, hr, ho⟩
  obtain ⟨lp, lr, lo⟩ := loss
    { (Component.filterBalls H a.canvasWidth a.canvasHeight (a.canvasHeight - 35)
        { game := a.game, scoreIncrease := 0, livesChange := 0 } a.game.balls).1 with
      game :=
        { (Component.filterBalls H a.canvasWidth a.canvasHeight (a.canvasHeight - 35)
            { game := a.game, scoreIncrease := 0, livesChange := 0 } a.game.balls).1.game with
          balls := (Component.filterBalls H a.canvasWidth a.canvasHeight (a.canvasHeight - 35)
            { game := a.game, scoreIncrease := 0, livesChange := 0 } a.game.balls).2 } }
    hpad
    (by
      intro b' hb' ha
      obtain ⟨b, hb, hba, rfl⟩ := hkept b' hb' ha
      exact hrest b hb hba)
    (by
      intro b' hb' ha
      obtain ⟨b, hb, hba, rfl⟩ := hkept b' hb' ha
      exact ⟨rfl, rfl⟩)
  obtain ⟨ip, ib⟩ := component_filterItems_attached H a.canvasHeight (a.canvasHeight - 35)
    (Component.ballLoss (a.canvasHeight - 35)
      { (Component.filterBalls H a.canvasWidth a.canvasHeight (a.canvasHeight - 35)
          { game := a.game, scoreIncrease := 0, livesChange := 0 } a.game.balls).1 with
        game :=
          { (Component.filterBalls H a.canvasWidth a.canvasHeight (a.canvasHeight - 35)
              { game := a.game, scoreIncrease := 0, livesChange := 0 } a.game.balls).1.game with
            balls := (Component.filterBalls H a.canvasWidth a.canvasHeight (a.canvasHeight - 35)
              { game := a.game, scoreIncrease := 0, livesChange := 0 } a.game.balls).2 } }).game.items
    (Component.ballLoss (a.canvasHeight - 35)
      { (Component.filterBalls H a.canvasWidth a.canvasHeight (a.canvasHeight - 35)
          { game := a.game, scoreIncrease := 0, livesChange := 0 } a.game.balls).1 with
        game :=
          { (Component.filterBalls H a.canvasWidth a.canvasHeight (a.canvasHeight - 35)
              { game := a.game, scoreIncrease := 0, livesChange := 0 } a.game.balls).1.game with
            balls := (Component.filterBalls H a.canvasWidth a.canvasHeight (a.canvasHeight - 35)
              { game := a.game, scoreIncrease := 0, livesChange := 0 } a.game.balls).2 } }).game
  exact ⟨ip.trans lp, fun b hb ha => lr b (ib b hb ha) ha, fun b hb ha => lo b (ib b hb ha) ha⟩

/-- JavaScript `initGame` leaves exactly one ball, attached and at rest. -/
theorem component_initGame_balls {α : Type} [LinearOrderedField α] [FloorRing α] (H : Host α)
    (a : Component.App α) (lvl : ℕ) (keepScore : Bool) :
    (Component.initGame H a lvl keepScore).game.balls =
      [{ x := a.canvasWidth / 2, y := a.canvasHeight - 50, dx := 0, dy := 0,
         attached := true }] := by
  unfold Component.initGame
  cases keepScore <;> rfl

/-- A ball of `launchFirst` that is still attached is a ball of the list. -/
theorem component_launchFirst_attached {α : Type} [LinearOrderedField α] (u : α)
    (balls : List (Ball α)) :
    ∀ b' ∈ Component.launchFirst u balls, b'.attached = true → b' ∈ balls := by
  induction balls with
  | nil => intro b' hb' _; exact hb'
  | cons b rest ih =>
    intro b' hb' ha
    unfold Component.launchFirst at hb'
    split_ifs at hb' with h
    · rcases List.mem_cons.1 hb' with rfl | h'
      · exact absurd ha (by simp)
      · exact List.mem_cons_of_mem _ h'
    · rcases List.mem_cons.1 hb' with rfl | h'
      · exact List.mem_cons_self _ _
      · exact List.mem_cons_of_mem _ (ih b' h' ha)

/-- In every reachable state of the component the attached balls are at rest. -/
theorem component_reachable_attachedAtRest {α : Type} [LinearOrderedField α] [FloorRing α]
    (H : Host α) {a : Component.App α} (ha : Component.Reachable H a) :
    AttachedAtRest a.game.balls := by
  have init_ok : ∀ (a₀ : Component.App α) (lvl : ℕ) (keep : Bool),
      AttachedAtRest (Component.initGame H a₀ lvl keep).game.balls := by
    intro a₀ lvl keep b hb _
    rw [component_initGame_balls, List.mem_singleton] at hb
    rw [hb]
    exact ⟨rfl, rfl⟩
  have update_ok : ∀ a₀ : Component.App α, AttachedAtRest a₀.game.balls →
      AttachedAtRest (Component.updateGame H a₀).game.balls := by
    intro a₀ h
    rw [(component_updateGame_game H a₀).1]
    exact (component_simulate_attached H a₀ h).2.1
  induction ha with
  | init a₀ lvl keep => exact init_ok a₀ lvl keep
  | tick _ ih =>
    unfold Component.tick
    split_ifs
    · exact update_ok _ ih
    · exact ih
  | update _ ih => exact update_ok _ ih
  | move x _ ih =>
    unfold Component.handlePointerMove
    split_ifs
    · exact ih
    · exact ih
  | click _ ih =>
    unfold Component.handleClick
    split_ifs
    · exact ih
    · intro b hb hatt
      exact ih b (component_launchFirst_attached _ _ b hb hatt) hatt
    · exact ih
  | pickup item _ ih =>
    intro b hb hatt
    exact ih b ((component_handleItemPickup_attached H _ item).2.2 b hb hatt) hatt
  | resize clientWidth clientHeight _ ih =>
    unfold Component.resize
    dsimp only
    split_ifs
    · exact init_ok _ _ _
    · exact ih
  | start _ _ => exact init_ok _ _ _
  | next _ _ => exact init_ok _ _ _
  | restart _ _ => exact init_ok _ _ _

/-! ## The block loop of `game.js` stops at the first match -/

/-- JavaScript `handleBlockCollision` of `game.js` resolves at most one block: either no non-destroyed
block overlaps the ball and nothing changes, or the blocks split as `pre ++ b :: post` with
`b` the first non-destroyed block that overlaps the ball; then only `b` may change (it is
destroyed unless it is a wall), the velocity is the bounce off `b`, and the score grows by
`10` unless `b` is a wall. -/
theorem gameJs_blockLoop_first_match {α : Type} [LinearOrderedField α] (H : Host α)
    (blocks : List (Block α)) (g : GameJs.Game α) (ball : Ball α) :
    ((∀ b ∈ blocks, b.destroyed = true ∨
          GameJs.circleRectCollision ball.x ball.y 6 b.x b.y b.width b.height = false) ∧
        GameJs.blockLoop H blocks g ball = (blocks, g, ball)) ∨
    ∃ pre b post, blocks = pre ++ b :: post ∧
      (∀ p ∈ pre, p.destroyed = true ∨
          GameJs.circleRectCollision ball.x ball.y 6 p.x p.y p.width p.height = false) ∧
      b.destroyed = false ∧
      GameJs.circleRectCollision ball.x ball.y 6 b.x b.y b.width b.height = true ∧
      (GameJs.blockLoop H blocks g ball).1 =
        pre ++ (if b.isWall then b else { b with destroyed := true }) :: post ∧
      (GameJs.blockLoop H blocks g ball).2.1.score = g.score + (if b.isWall then 0 else 10) ∧
      (GameJs.blockLoop H blocks g ball).2.2 =
        { ball with dx := (GameJs.calculateBounce H ball b 6).1,
                    dy := (GameJs.calculateBounce H ball b 6).2 } := by
  induction blocks with
  | nil => exact Or.inl ⟨fun b hb => absurd hb (List.not_mem_nil _), rfl⟩
  | cons block rest ih =>
    by_cases hd : block.destroyed = true
    · have step : GameJs.blockLoop H (block :: rest) g ball =
          (block :: (GameJs.blockLoop H rest g ball).1, (GameJs.blockLoop H rest g ball).2.1,
            (GameJs.blockLoop H rest g ball).2.2) := by
        rw [GameJs.blockLoop]; simp only [hd, if_true]
      rcases ih with ⟨hall, hres⟩ | ⟨pre, b, post, hsplit, hpre, hb, hc, h1, h2, h3⟩
      · left
        refine ⟨?_, ?_⟩
        · intro b hb
          rcases List.mem_cons.1 hb with rfl | h
          · exact Or.inl hd
          · exact hall b h
        · rw [step, hres]
      · right
        refine ⟨block :: pre, b, post, by rw [hsplit]; rfl, ?_, hb, hc, ?_, ?_, ?_⟩
        · intro p hp
          rcases List.mem_cons.1 hp with rfl | h
          · exact Or.inl hd
          · exact hpre p h
        · rw [step]; simp only [h1, List.cons_append]
        · rw [step]; exact h2
        · rw [step]; exact h3
    · by_cases hc : GameJs.circleRectCollision ball.x ball.y 6 block.x block.y block.width
        block.height = true
      · right
        have hd' : block.destroyed = false := by simpa using hd
        refine ⟨[], block, rest, rfl, fun p hp => absurd hp (List.not_mem_nil _), hd', hc, ?_, ?_, ?_⟩
        all_goals
          rw [GameJs.blockLoop]
          simp only [hd, GameJs.CONFIG.ball.radius, hc, if_true, if_false]
          cases hw : block.isWall
          · simp only [Bool.not_false, if_true, Bool.false_eq_true, if_false]
            split_ifs <;> simp [GameJs.pushParticles]
          · simp [GameJs.pushParticles]
      · have hc' : GameJs.circleRectCollision ball.x ball.y 6 block.x block.y block.width
            block.height = false := by simpa using hc
        have step : GameJs.blockLoop H (block :: rest) g ball =
            (block :: (GameJs.blockLoop H rest g ball).1, (GameJs.blockLoop H rest g ball).2.1,
              (GameJs.blockLoop H rest g ball).2.2) := by
          rw [GameJs.blockLoop]
          simp only [hd, GameJs.CONFIG.ball.radius, hc', if_false, Bool.false_eq_true]
        rcases ih with ⟨hall, hres⟩ | ⟨pre, b, post, hsplit, hpre, hb, hcb, h1, h2, h3⟩
        · left
          refine ⟨?_, ?_⟩
          · intro b hb
            rcases List.mem_cons.1 hb with rfl | h
            · exact Or.inr hc'
            · exact hall b h
          · rw [step, hres]
        · right
          refine ⟨block :: pre, b, post, by rw [hsplit]; rfl, ?_, hb, hcb, ?_, ?_, ?_⟩
          · intro p hp
            rcases List.mem_cons.1 hp with rfl | h
            · exact Or.inr hc'
            · exact hpre p h
          · rw [step]; simp only [h1, List.cons_append]
          · rw [step]; exact h2
          · rw [step]; exact h3

/-! ## Losing the last ball: the general behaviour -/

/-- JavaScript `updateBalls` of `game.js` when every ball is lost in the tick: `lives` drops by one; at
`lives ≤ 1` the collection stays empty and `gameover` is signalled; otherwise exactly one
attached ball at rest is respawned on the paddle and nothing is signalled. -/
theorem gameJs_updateBalls_all_lost {α : Type} [LinearOrderedField α] (H : Host α)
    (paddleY : α) (g : GameJs.Game α)
    (hlost : (GameJs.filterBalls H paddleY g g.balls).2 = []) :
    (GameJs.updateBalls H paddleY g).lives = g.lives - 1 ∧
    (g.lives ≤ 1 →
      (GameJs.updateBalls H paddleY g).balls = [] ∧
      (GameJs.updateBalls H paddleY g).state = GameState.gameover ∧
      (GameJs.updateBalls H paddleY g).outcomes = g.outcomes ++ [GameState.gameover]) ∧
    (1 < g.lives →
      (GameJs.updateBalls H paddleY g).balls =
        [{ x := g.paddle.x + g.paddle.width / 2, y := paddleY - 6 - 2, dx := 0, dy := 0,
           attached := true }] ∧
      (GameJs.updateBalls H paddleY g).state = g.state ∧
      (GameJs.updateBalls H paddleY g).outcomes = g.outcomes) := by
  obtain ⟨⟨hst, hl, -, hpad, -, -, -, hout⟩, -⟩ := gameJs_filterBalls_spec H paddleY g.balls g
  unfold GameJs.updateBalls
  dsimp only
  rw [hlost]
  simp only [List.length_nil, if_true, hl, GameJs.gameOver, hpad, hout, hst]
  refine ⟨?_, ?_, ?_⟩
  · split_ifs <;> rfl
  · intro h
    rw [if_pos (by omega)]
    exact ⟨rfl, rfl, rfl⟩
  · intro h
    rw [if_neg (by omega)]
    exact ⟨rfl, rfl, rfl⟩

/-- The ball-loss check of the component: on an empty collection it respawns the attached
ball whatever the number of lives, and asks for one life less. -/
theorem component_ballLoss_respawns {α : Type} [LinearOrderedField α] (paddleY : α)
    (t : Component.Tick α) (hlost : t.game.balls = []) :
    (Component.ballLoss paddleY t).livesChange = -1 ∧
    (Component.ballLoss paddleY t).game.balls =
      [{ x := t.game.paddle.x + t.game.paddle.width / 2, y := paddleY - 6 - 2, dx := 0, dy := 0,
         attached := true }] := by
  unfold Component.ballLoss
  rw [hlost]
  exact ⟨rfl, rfl⟩

/-! ## One block per ball and tick -/

set_option maxHeartbeats 1000000 in
/-- C1 (the code at the failing input): a ball of radius `6` moves to `(45, 80)`, under the
gap between two neighbouring blocks of the first row, and overlaps both (for the
circle-rectangle test of `game.js` and for the bounding-box test of the component).  One tick
of `game.js` destroys the first block only and adds `10` to the score.  One tick of the
component destroys both blocks, adds `20`, and negates `dy` twice, so the ball leaves the
tick with the velocity `(0, -5)` it had. -/
theorem C1_component_tick_resolves_two_blocks :
    GameJs.circleRectCollision (45 : ℝ) 80 6 7.5 60 36 16 = true ∧
    GameJs.circleRectCollision (45 : ℝ) 80 6 46.5 60 36 16 = true ∧
    ((GameJs.update halfHost (Example.playGame 3 Example.ballBelowGap)).blocks.map
      fun b => b.destroyed) = [true, false] ∧
    (GameJs.update halfHost (Example.playGame 3 Example.ballBelowGap)).score = 10 ∧
    ((Component.updateGame halfHost (Example.playApp 3 Example.ballBelowGap)).game.blocks.map
      fun b => b.destroyed) = [true, true] ∧
    (Component.updateGame halfHost (Example.playApp 3 Example.ballBelowGap)).score = 20 ∧
    (Component.updateGame halfHost (Example.playApp 3 Example.ballBelowGap)).game.balls =
      [{ x := 45, y := 80, dx := 0, dy := -5, attached := false }] := by
  norm_num [GameJs.update, GameJs.updateBalls, GameJs.filterBalls, GameJs.ballCallback,
    GameJs.handleWallCollision, GameJs.handlePaddleCollision, GameJs.paddleHit,
    GameJs.handleBlockCollision, GameJs.blockLoop, GameJs.circleRectCollision, GameJs.clamp,
    GameJs.calculateBounce, GameJs.pushParticles, GameJs.updateItems, GameJs.filterItems,
    GameJs.updateParticles, GameJs.checkLevelComplete, GameJs.levelComplete, GameJs.gameOver,
    Component.updateGame, Component.simulate, Component.filterBalls,
    Component.ballCallback, Component.wallSection, Component.paddleSection,
    Component.paddleHit, Component.blockSection, Component.blockLoop, Component.blockHit,
    Component.bounce, Component.createParticles, Component.ballLoss, Component.filterItems,
    Component.updateParticles, Component.checkLevelComplete, Component.setLives,
    Example.playGame, Example.playApp, Example.twoBlocks, Example.ballBelowGap,
    Example.fallingBall, halfHost,
    GameJs.CONFIG.ball.radius, GameJs.CONFIG.paddle.height, GameJs.CONFIG.paddle.offsetBottom,
    GameJs.CONFIG.item.dropChance, Component.BALL_RADIUS, Component.PADDLE_HEIGHT,
    Component.DROP_CHANCE]

/-! ## Losing the last ball -/

set_option maxHeartbeats 1000000 in
/-- C2 (the code at the failing input): with `lives = 1` the only ball falls below the
canvas.  One tick of `game.js` sets `lives` to `0`, signals `gameover` and leaves no ball.
One tick of the component also sets `lives` to `0` and signals `gameover`, but its ball
collection then holds a freshly respawned attached ball. -/
theorem C2_component_respawns_after_last_life :
    (GameJs.update halfHost (Example.playGame 1 Example.fallingBall)).lives = 0 ∧
    (GameJs.update halfHost (Example.playGame 1 Example.fallingBall)).outcomes =
      [GameState.gameover] ∧
    (GameJs.update halfHost (Example.playGame 1 Example.fallingBall)).balls = [] ∧
    (Component.updateGame halfHost (Example.playApp 1 Example.fallingBall)).lives = 0 ∧
    (Component.updateGame halfHost (Example.playApp 1 Example.fallingBall)).outcomes =
      [GameState.gameover] ∧
    (Component.updateGame halfHost (Example.playApp 1 Example.fallingBall)).game.balls =
      [{ x := 240, y := 597, dx := 0, dy := 0, attached := true }] := by
  norm_num [GameJs.update, GameJs.updateBalls, GameJs.filterBalls, GameJs.ballCallback,
    GameJs.handleWallCollision, GameJs.handlePaddleCollision, GameJs.paddleHit,
    GameJs.handleBlockCollision, GameJs.blockLoop, GameJs.circleRectCollision, GameJs.clamp,
    GameJs.calculateBounce, GameJs.pushParticles, GameJs.updateItems, GameJs.filterItems,
    GameJs.updateParticles, GameJs.checkLevelComplete, GameJs.levelComplete, GameJs.gameOver,
    Component.updateGame, Component.simulate, Component.filterBalls,
    Component.ballCallback, Component.wallSection, Component.paddleSection,
    Component.paddleHit, Component.blockSection, Component.blockLoop, Component.blockHit,
    Component.bounce, Component.createParticles, Component.ballLoss, Component.filterItems,
    Component.updateParticles, Component.checkLevelComplete, Component.setLives,
    Example.playGame, Example.playApp, Example.twoBlocks, Example.ballBelowGap,
    Example.fallingBall, halfHost,
    GameJs.CONFIG.ball.radius, GameJs.CONFIG.paddle.height, GameJs.CONFIG.paddle.offsetBottom,
    GameJs.CONFIG.item.dropChance, Component.BALL_RADIUS, Component.PADDLE_HEIGHT,
    Component.DROP_CHANCE]

/-! ## Level completion -/

/-- The blocks counted by the level-complete check, as a count. -/
theorem remaining_length_eq_countP {α : Type} (l : List (Block α)) :
    (l.filter fun b => !b.destroyed && !b.isWall).length =
      l.countP (fun b => b.destroyed = false ∧ b.isWall = false) := by
  rw [List.countP_eq_length_filter]
  congr 2
  funext b
  cases b.destroyed <;> cases b.isWall <;> simp

/-- No block is counted exactly when every non-destroyed block is a wall. -/
theorem remaining_countP_eq_zero {α : Type} (l : List (Block α)) :
    l.countP (fun b => b.destroyed = false ∧ b.isWall = false) = 0 ↔
      ∀ b ∈ l, b.destroyed = false → b.isWall = true := by
  rw [List.countP_eq_zero]
  constructor
  · intro h b hb hd
    have := h b hb
    cases hw : b.isWall <;> simp_all
  · intro h b hb
    have := h b hb
    cases hd : b.destroyed <;> simp_all

/-- JavaScript `checkLevelComplete` of `game.js` as a case distinction on the count. -/
theorem gameJs_checkLevelComplete_eq {α : Type} (g : GameJs.Game α) :
    GameJs.checkLevelComplete g =
      if g.blocks.countP (fun b => b.destroyed = false ∧ b.isWall = false) = 0 then
        GameJs.levelComplete g
      else g := by
  unfold GameJs.checkLevelComplete
  rw [← remaining_length_eq_countP]

/-- The final check of `updateGame` as a case distinction on the count. -/
theorem component_checkLevelComplete_eq {α : Type} (a : Component.App α) :
    Component.checkLevelComplete a =
      if a.game.blocks.countP (fun b => b.destroyed = false ∧ b.isWall = false) = 0 then
        { a with gameState := GameState.levelup, outcomes := a.outcomes ++ [GameState.levelup] }
      else a := by
  unfold Component.checkLevelComplete
  rw [← remaining_length_eq_countP]

/-- C3: the level-complete check signals `levelup` exactly when no block with
`destroyed = false` and `isWall = false` is left, in `checkLevelComplete` of `game.js` and in
the final check of `updateGame` of the component alike.  When it signals, the state becomes
`levelup`; when it does not, nothing changes.  In particular one remaining non-destroyed
non-wall block prevents the signal, and a collection whose non-destroyed blocks are all walls
gives it. -/
theorem C3_levelup_iff_no_block_remains {α : Type} (g : GameJs.Game α) (a : Component.App α) :
    ((GameJs.checkLevelComplete g).outcomes = g.outcomes ++ [GameState.levelup] ↔
        g.blocks.countP (fun b => b.destroyed = false ∧ b.isWall = false) = 0) ∧
    (g.blocks.countP (fun b => b.destroyed = false ∧ b.isWall = false) = 0 →
        (GameJs.checkLevelComplete g).state = GameState.levelup) ∧
    (g.blocks.countP (fun b => b.destroyed = false ∧ b.isWall = false) ≠ 0 →
        GameJs.checkLevelComplete g = g) ∧
    ((∃ b ∈ g.blocks, b.destroyed = false ∧ b.isWall = false) →
        GameJs.checkLevelComplete g = g) ∧
    ((∀ b ∈ g.blocks, b.destroyed = false → b.isWall = true) →
        (GameJs.checkLevelComplete g).outcomes = g.outcomes ++ [GameState.levelup]) ∧
    ((Component.checkLevelComplete a).outcomes = a.outcomes ++ [GameState.levelup] ↔
        a.game.blocks.countP (fun b => b.destroyed = false ∧ b.isWall = false) = 0) ∧
    (a.game.blocks.countP (fun b => b.destroyed = false ∧ b.isWall = false) = 0 →
        (Component.checkLevelComplete a).gameState = GameState.levelup) ∧
    (a.game.blocks.countP (fun b => b.destroyed = false ∧ b.isWall = false) ≠ 0 →
        Component.checkLevelComplete a = a) ∧
    ((∃ b ∈ a.game.blocks, b.destroyed = false ∧ b.isWall = false) →
        Component.checkLevelComplete a = a) ∧
    ((∀ b ∈ a.game.blocks, b.destroyed = false → b.isWall = true) →
        (Component.checkLevelComplete a).outcomes = a.outcomes ++ [GameState.levelup]) := by
  rw [gameJs_checkLevelComplete_eq, component_checkLevelComplete_eq]
  refine ⟨?_, ?_, ?_, ?_, ?_, ?_, ?_, ?_, ?_, ?_⟩
  · by_cases h : g.blocks.countP (fun b => b.destroyed = false ∧ b.isWall = false) = 0
    · rw [if_pos h]; exact iff_of_true rfl h
    · rw [if_neg h]; exact iff_of_false (by simp) h
  · intro h; rw [if_pos h]; rfl
  · intro h; rw [if_neg h]
  · rintro ⟨b, hb, hd, hw⟩
    rw [if_neg]
    intro h0
    have := (remaining_countP_eq_zero _).1 h0 b hb hd
    rw [hw] at this
    exact Bool.noConfusion this
  · intro h; rw [if_pos ((remaining_countP_eq_zero _).2 h)]; rfl
  · by_cases h : a.game.blocks.countP (fun b => b.destroyed = false ∧ b.isWall = false) = 0
    · rw [if_pos h]; exact iff_of_true rfl h
    · rw [if_neg h]; exact iff_of_false (by simp) h
  · intro h; rw [if_pos h]
  · intro h; rw [if_neg h]
  · rintro ⟨b, hb, hd, hw⟩
    rw [if_neg]
    intro h0
    have := (remaining_countP_eq_zero _).1 h0 b hb hd
    rw [hw] at this
    exact Bool.noConfusion this
  · intro h; rw [if_pos ((remaining_countP_eq_zero _).2 h)]

/-! ## The `split` power-up -/

/-- Polar form of a rotated velocity: `cos(atan2(dy, dx) + θ) · sqrt(dx² + dy²)` and the sine
analogue are the components of `(dx, dy)` rotated by `θ`. -/
theorem polar_rotation (dx dy θ : ℝ) :
    Real.cos (Complex.arg ⟨dx, dy⟩ + θ) * Real.sqrt (dx * dx + dy * dy) =
        dx * Real.cos θ - dy * Real.sin θ ∧
      Real.sin (Complex.arg ⟨dx, dy⟩ + θ) * Real.sqrt (dx * dx + dy * dy) =
        dx * Real.sin θ + dy * Real.cos θ := by
  have hc := sqrt_mul_cos_atan2 dx dy
  have hs := sqrt_mul_sin_atan2 dx dy
  rw [Real.cos_add, Real.sin_add]
  constructor
  · linear_combination Real.cos θ * hc - Real.sin θ * hs
  · linear_combination Real.cos θ * hs + Real.sin θ * hc

/-- A rotation keeps the speed. -/
theorem rotatedBall_speed (θ : ℝ) (b : Ball ℝ) :
    Real.sqrt ((rotatedBall θ b).dx * (rotatedBall θ b).dx +
        (rotatedBall θ b).dy * (rotatedBall θ b).dy) =
      Real.sqrt (b.dx * b.dx + b.dy * b.dy) := by
  congr 1
  simp only [rotatedBall]
  have := Real.sin_sq_add_cos_sq θ
  linear_combination (b.dx * b.dx + b.dy * b.dy) * this

/-- JavaScript `splitBall` of both implementations, over the reals, is the splitting of the
specification. -/
theorem splitBall_eq_rotations (H : Host ℝ) (b : Ball ℝ) :
    GameJs.splitBall (realHost H) b =
        (if b.attached then [b] else [rotatedBall (-0.3) b, rotatedBall 0.3 b]) ∧
      Component.splitBall (realHost H) b =
        (if b.attached then [b] else [rotatedBall (-0.3) b, rotatedBall 0.3 b]) := by
  obtain ⟨m1, m2⟩ := polar_rotation b.dx b.dy (-0.3)
  obtain ⟨p1, p2⟩ := polar_rotation b.dx b.dy 0.3
  have e : ∀ t : ℝ, t - 0.3 = t + -0.3 := fun t => by ring
  cases hb : b.attached
  · simp only [GameJs.splitBall, Component.splitBall, realHost, hb, rotatedBall, e, m1, m2, p1,
      p2, Bool.not_false, if_true, Bool.false_eq_true, if_false, and_self]
  · simp only [GameJs.splitBall, Component.splitBall, hb, Bool.not_true, if_true,
      Bool.false_eq_true, if_false, and_self]

/-- The free and the attached balls of a split collection. -/
theorem splitSpec_counts (balls : List (Ball ℝ)) :
    ((splitSpec balls).filter fun b => !b.attached).length =
        2 * (balls.filter fun b => !b.attached).length ∧
      ((splitSpec balls).filter fun b => b.attached) = balls.filter fun b => b.attached := by
  induction balls with
  | nil => exact ⟨rfl, rfl⟩
  | cons b rest ih =>
    obtain ⟨ih1, ih2⟩ := ih
    have hcons : splitSpec (b :: rest) =
        (if b.attached then [b] else [rotatedBall (-0.3) b, rotatedBall 0.3 b]) ++
          splitSpec rest := by
      simp [splitSpec, List.flatMap_cons]
    rw [hcons]
    cases hb : b.attached
    · simp only [Bool.false_eq_true, if_false, List.filter_append, List.length_append, ih1, ih2]
      simp [rotatedBall, hb]
      omega
    · simp only [if_true, List.filter_append, List.length_append, ih1, ih2]
      simp [hb]

/-- C4: activating a `split` item (`activatePowerUp` in `game.js`, `handleItemPickup` in the
component), over the reals, replaces every free ball in place by two free balls at its
position whose velocities are its velocity rotated by `-0.3` and by `+0.3` radians, and
keeps the attached balls: the free balls double, the attached balls are unchanged, and every
rotated ball has the speed `sqrt(dx² + dy²)` of the ball it came from. -/
theorem C4_split_doubles_free_balls_and_keeps_speed (H : Host ℝ) (g : GameJs.Game ℝ)
    (c : Component.Game ℝ) (item : Item ℝ) (hsplit : item.type = ItemType.split) :
    (GameJs.activatePowerUp (realHost H) g item).balls = splitSpec g.balls ∧
    (((GameJs.activatePowerUp (realHost H) g item).balls.filter fun b => !b.attached).length =
      2 * (g.balls.filter fun b => !b.attached).length) ∧
    (((GameJs.activatePowerUp (realHost H) g item).balls.filter fun b => b.attached) =
      g.balls.filter fun b => b.attached) ∧
    (Component.handleItemPickup (realHost H) c item).balls = splitSpec c.balls ∧
    (((Component.handleItemPickup (realHost H) c item).balls.filter fun b => !b.attached).length =
      2 * (c.balls.filter fun b => !b.attached).length) ∧
    (((Component.handleItemPickup (realHost H) c item).balls.filter fun b => b.attached) =
      c.balls.filter fun b => b.attached) ∧
    (∀ (θ : ℝ) (b : Ball ℝ),
      (rotatedBall θ b).x = b.x ∧ (rotatedBall θ b).y = b.y ∧
      (rotatedBall θ b).attached = false ∧
      Real.sqrt ((rotatedBall θ b).dx * (rotatedBall θ b).dx +
          (rotatedBall θ b).dy * (rotatedBall θ b).dy) =
        Real.sqrt (b.dx * b.dx + b.dy * b.dy)) := by
  have hg : (GameJs.activatePowerUp (realHost H) g item).balls = splitSpec g.balls := by
    simp only [GameJs.activatePowerUp, hsplit, GameJs.pushParticles, splitSpec]
    congr 1
    funext b
    exact (splitBall_eq_rotations H b).1
  have hc : (Component.handleItemPickup (realHost H) c item).balls = splitSpec c.balls := by
    simp only [Component.handleItemPickup, hsplit, Component.createParticles, splitSpec]
    congr 1
    funext b
    exact (splitBall_eq_rotations H b).2
  rw [hg, hc]
  exact ⟨rfl, (splitSpec_counts g.balls).1, (splitSpec_counts g.balls).2, rfl,
    (splitSpec_counts c.balls).1, (splitSpec_counts c.balls).2,
    fun θ b => ⟨rfl, rfl, rfl, rotatedBall_speed θ b⟩⟩

/-- C4 (witness): a `split` item activated on one free ball and one attached ball leaves two
free balls and the same attached ball, in both implementations. -/
theorem C4_split_one_free_one_attached_witness :
    (Example.splitItem : Item ℝ).type = ItemType.split ∧
    ((GameJs.activatePowerUp (realHost halfHost) Example.splitGame
      Example.splitItem).balls.filter fun b => !b.attached).length = 2 ∧
    ((GameJs.activatePowerUp (realHost halfHost) Example.splitGame
      Example.splitItem).balls.filter fun b => b.attached) =
        [{ x := 240, y := 597, dx := 0, dy := 0, attached := true }] ∧
    ((Component.handleItemPickup (realHost halfHost) Example.splitRef
      Example.splitItem).balls.filter fun b => !b.attached).length = 2 := by
  have h := C4_split_doubles_free_balls_and_keeps_speed halfHost Example.splitGame
    Example.splitRef Example.splitItem rfl
  refine ⟨rfl, ?_, ?_, ?_⟩
  · rw [h.2.1]; rfl
  · rw [h.2.2.1]; rfl
  · rw [h.2.2.2.2.1]; rfl

/-! ## The `scatter` power-up -/

/-- Every angle of the fan lies strictly between `-π` and `0`. -/
theorem scatterAngle_bounds (i : ℕ) (hi : i < 5) :
    -Real.pi < scatterAngle i ∧ scatterAngle i < 0 := by
  have hpi := Real.pi_pos
  have h0 : (0 : ℝ) ≤ (i : ℝ) := Nat.cast_nonneg i
  have h4 : (i : ℝ) ≤ 4 := by exact_mod_cast Nat.lt_succ_iff.1 hi
  unfold scatterAngle
  constructor <;> nlinarith

/-- Every ball of the fan has speed `5` and moves up. -/
theorem scatterSpecBall_speed (paddle : Paddle ℝ) (y : ℝ) (i : ℕ) (hi : i < 5) :
    Real.sqrt ((scatterSpecBall paddle y i).dx * (scatterSpecBall paddle y i).dx +
        (scatterSpecBall paddle y i).dy * (scatterSpecBall paddle y i).dy) = 5 ∧
      (scatterSpecBall paddle y i).dy < 0 := by
  obtain ⟨h1, h2⟩ := scatterAngle_bounds i hi
  have hs : Real.sin (scatterAngle i) < 0 := Real.sin_neg_of_neg_of_neg_pi_lt h2 h1
  simp only [scatterSpecBall]
  constructor
  · have : 5 * Real.cos (scatterAngle i) * (5 * Real.cos (scatterAngle i)) +
        5 * Real.sin (scatterAngle i) * (5 * Real.sin (scatterAngle i)) = 5 * 5 := by
      have := Real.sin_sq_add_cos_sq (scatterAngle i)
      linear_combination 25 * this
    rw [this]
    exact Real.sqrt_mul_self (by norm_num)
  · linarith

/-- The balls pushed by the `scatter` loops of both implementations, over the reals, are the
balls of the specification. -/
theorem scatterBall_eq_spec (H : Host ℝ) (g : GameJs.Game ℝ) (c : Component.Game ℝ) (i : ℕ) :
    GameJs.scatterBall (realHost H) g (g.canvasHeight - 35) i =
        scatterSpecBall g.paddle (g.canvasHeight - 35 - 6 - 2) i ∧
      Component.scatterBall (realHost H) c i =
        scatterSpecBall c.paddle (c.canvasHeight - 40) i := by
  simp only [GameJs.scatterBall, Component.scatterBall, realHost, scatterSpecBall, scatterAngle,
    GameJs.CONFIG.ball.radius, GameJs.CONFIG.ball.speed, Component.BALL_SPEED]
  constructor <;> simp only [mul_comm]

/-- C5: activating a `scatter` item (`activatePowerUp` in `game.js`, `handleItemPickup` in
the component), over the reals, appends exactly `5` balls to the collection, whatever it
holds, and leaves the existing balls and their order unchanged.  The new balls are free,
start at `x = paddle.x + paddle.width / 2`, and ball `i` has velocity
`5 · (cos a_i, sin a_i)` with `a_i = -π/2 + (π/8)(i - 2)`, hence speed `5` and `dy < 0`. -/
theorem C5_scatter_appends_five_upward_balls (H : Host ℝ) (g : GameJs.Game ℝ)
    (c : Component.Game ℝ) (item : Item ℝ) (hscatter : item.type = ItemType.scatter) :
    (GameJs.activatePowerUp (realHost H) g item).balls =
      g.balls ++ (List.range 5).map (scatterSpecBall g.paddle (g.canvasHeight - 35 - 6 - 2)) ∧
    (GameJs.activatePowerUp (realHost H) g item).balls.length = g.balls.length + 5 ∧
    (Component.handleItemPickup (realHost H) c item).balls =
      c.balls ++ (List.range 5).map (scatterSpecBall c.paddle (c.canvasHeight - 40)) ∧
    (Component.handleItemPickup (realHost H) c item).balls.length = c.balls.length + 5 ∧
    (∀ (paddle : Paddle ℝ) (y : ℝ) (i : ℕ), i < 5 →
      (scatterSpecBall paddle y i).attached = false ∧
      (scatterSpecBall paddle y i).x = paddle.x + paddle.width / 2 ∧
      (scatterSpecBall paddle y i).dx = 5 * Real.cos (-Real.pi / 2 + Real.pi / 8 * ((i : ℝ) - 2)) ∧
      (scatterSpecBall paddle y i).dy = 5 * Real.sin (-Real.pi / 2 + Real.pi / 8 * ((i : ℝ) - 2)) ∧
      Real.sqrt ((scatterSpecBall paddle y i).dx * (scatterSpecBall paddle y i).dx +
        (scatterSpecBall paddle y i).dy * (scatterSpecBall paddle y i).dy) = 5 ∧
      (scatterSpecBall paddle y i).dy < 0) := by
  have hg : (GameJs.activatePowerUp (realHost H) g item).balls =
      g.balls ++ (List.range 5).map (scatterSpecBall g.paddle (g.canvasHeight - 35 - 6 - 2)) := by
    simp only [GameJs.activatePowerUp, hscatter, GameJs.pushParticles,
      GameJs.CONFIG.paddle.offsetBottom]
    congr 2
    funext i
    exact (scatterBall_eq_spec H g c i).1
  have hc : (Component.handleItemPickup (realHost H) c item).balls =
      c.balls ++ (List.range 5).map (scatterSpecBall c.paddle (c.canvasHeight - 40)) := by
    simp only [Component.handleItemPickup, hscatter, Component.createParticles]
    congr 2
    funext i
    exact (scatterBall_eq_spec H g c i).2
  rw [hg, hc]
  refine ⟨rfl, by simp, rfl, by simp, fun paddle y i hi => ?_⟩
  obtain ⟨s1, s2⟩ := scatterSpecBall_speed paddle y i hi
  exact ⟨rfl, rfl, rfl, rfl, s1, s2⟩

/-- C5 (witness): a `scatter` item activated on an empty ball collection leaves exactly five
balls. -/
theorem C5_scatter_on_empty_collection_witness :
    (Example.scatterItem : Item ℝ).type = ItemType.scatter ∧
    (GameJs.activatePowerUp (realHost halfHost) Example.emptyGame Example.scatterItem).balls.length
      = 5 ∧
    (Component.handleItemPickup (realHost halfHost) Example.emptyRef
      Example.scatterItem).balls.length = 5 := by
  have h := C5_scatter_appends_five_upward_balls halfHost Example.emptyGame Example.emptyRef
    Example.scatterItem rfl
  refine ⟨rfl, ?_, ?_⟩
  · rw [h.2.1]; rfl
  · rw [h.2.2.2.1]; rfl

/-! ## The block bounce -/

/-- The bounce rule of `utils.js` and the inline rule of the component: the component of
minimum penetration depth is negated, the vertical one on a tie. -/
theorem bounce_rule_utils_component {α : Type} [LinearOrderedField α]
    (ball : Ball α) (block : Block α) :
    (min (ball.x + 6 - block.x) (block.x + block.width - (ball.x - 6)) <
        min (ball.y + 6 - block.y) (block.y + block.height - (ball.y - 6)) →
      Utils.calculateBounce ball block 6 = (-ball.dx, ball.dy) ∧
      Component.bounce ball block = { ball with dx := -ball.dx }) ∧
    (min (ball.y + 6 - block.y) (block.y + block.height - (ball.y - 6)) ≤
        min (ball.x + 6 - block.x) (block.x + block.width - (ball.x - 6)) →
      Utils.calculateBounce ball block 6 = (ball.dx, -ball.dy) ∧
      Component.bounce ball block = { ball with dy := -ball.dy }) := by
  simp only [Utils.calculateBounce, Component.bounce, Component.BALL_RADIUS]
  constructor
  · intro h; rw [if_pos h, if_pos h]; exact ⟨rfl, rfl⟩
  · intro h; rw [if_neg (not_lt.2 h), if_neg (not_lt.2 h)]; exact ⟨rfl, rfl⟩

/-- C6 (the code at the failing input): a ball with velocity `(3, 4)` overlaps the right
side of a block with horizontal depth `2` and vertical depth `5`, and collides with it.
`calculateBounce` of `utils.js` and the inline rule of the component give `(-3, 4)`; the
`calculateBounce` of `game.js` gives `(cos a · s, sin a · s)` with `a` the direction from the
centre of the block to the ball and `s` the value read from `ball.speed`, which is `(-3, 4)`
for no value of `s`. -/
theorem C6_gameJs_calculateBounce_is_not_axis_flip :
    min ((Example.ballAtBlockSide : Ball ℝ).x + 6 - (Example.sideBlock : Block ℝ).x)
        ((Example.sideBlock : Block ℝ).x + (Example.sideBlock : Block ℝ).width -
          ((Example.ballAtBlockSide : Ball ℝ).x - 6)) = 2 ∧
    min ((Example.ballAtBlockSide : Ball ℝ).y + 6 - (Example.sideBlock : Block ℝ).y)
        ((Example.sideBlock : Block ℝ).y + (Example.sideBlock : Block ℝ).height -
          ((Example.ballAtBlockSide : Ball ℝ).y - 6)) = 5 ∧
    GameJs.circleRectCollision (Example.ballAtBlockSide : Ball ℝ).x
        (Example.ballAtBlockSide : Ball ℝ).y 6 (Example.sideBlock : Block ℝ).x
        (Example.sideBlock : Block ℝ).y (Example.sideBlock : Block ℝ).width
        (Example.sideBlock : Block ℝ).height = true ∧
    Utils.calculateBounce (Example.ballAtBlockSide : Ball ℝ) Example.sideBlock 6 = (-3, 4) ∧
    (Component.bounce (Example.ballAtBlockSide : Ball ℝ) Example.sideBlock).dx = -3 ∧
    (Component.bounce (Example.ballAtBlockSide : Ball ℝ) Example.sideBlock).dy = 4 ∧
    ¬ ∃ H : Host ℝ,
        GameJs.calculateBounce (realHost H) (Example.ballAtBlockSide : Ball ℝ)
          Example.sideBlock 6 = (-3, 4) := by
  refine ⟨?_, ?_, ?_, ?_, ?_, ?_, ?_⟩
  · norm_num [Example.ballAtBlockSide, Example.sideBlock]
  · norm_num [Example.ballAtBlockSide, Example.sideBlock]
  · norm_num [GameJs.circleRectCollision, GameJs.clamp, Example.ballAtBlockSide,
      Example.sideBlock]
  · norm_num [Utils.calculateBounce, Example.ballAtBlockSide, Example.sideBlock]
  · norm_num [Component.bounce, Component.BALL_RADIUS, Example.ballAtBlockSide,
      Example.sideBlock]
  · norm_num [Component.bounce, Component.BALL_RADIUS, Example.ballAtBlockSide,
      Example.sideBlock]
  · rintro ⟨H, h⟩
    simp only [GameJs.calculateBounce, realHost, Example.ballAtBlockSide, Example.sideBlock,
      Prod.mk.injEq] at h
    obtain ⟨h1, h2⟩ := h
    have hx : (40 : ℝ) - (0 + 36 / 2) = 22 := by norm_num
    have hy : (-1 : ℝ) - (0 + 16 / 2) = -9 := by norm_num
    rw [hx, hy] at h1 h2
    have hc := sqrt_mul_cos_atan2 22 (-9)
    have hs := sqrt_mul_sin_atan2 22 (-9)
    have hpos : 0 < Real.sqrt (22 * 22 + -9 * -9) := Real.sqrt_pos.2 (by norm_num)
    generalize Real.sqrt (22 * 22 + -9 * -9) = m at hc hs hpos
    generalize Real.cos (Complex.arg ⟨22, -9⟩) = c at hc h1
    generalize Real.sin (Complex.arg ⟨22, -9⟩) = d at hs h2
    generalize H.speed _ = s at h1 h2
    have e1 : 22 * s = -3 * m := by
      have : m * c * s = m * (c * s) := by ring
      rw [hc, h1] at this; linarith
    have e2 : -9 * s = 4 * m := by
      have : m * d * s = m * (d * s) := by ring
      rw [hs, h2] at this; linarith
    linarith

/-! ## The paddle width -/

/-- In every reachable state of `game.js` the paddle is `100` wide. -/
theorem gameJs_reachable_paddle_width {α : Type} [LinearOrderedField α] [FloorRing α]
    (H : Host α) {g : GameJs.Game α} (hg : GameJs.Reachable H g) : g.paddle.width = 100 := by
  have init_ok : ∀ (g₀ : GameJs.Game α) (keep : Bool),
      (GameJs.initGameData H g₀ keep).paddle.width = 100 := by
    intro g₀ keep
    unfold GameJs.initGameData
    cases keep <;> rfl
  induction hg with
  | init g₀ keep => exact init_ok g₀ keep
  | @loop g₁ h₁ ih =>
    unfold GameJs.loop
    split_ifs
    · rw [(gameJs_update_attached H g₁ (gameJs_reachable_attachedAtRest H h₁)).1]; exact ih
    · exact ih
  | @update g₁ h₁ ih =>
    rw [(gameJs_update_attached H g₁ (gameJs_reachable_attachedAtRest H h₁)).1]; exact ih
  | move actualX _ ih =>
    unfold GameJs.handlePointerMove
    split_ifs
    · exact ih
    · exact ih
  | click _ ih =>
    unfold GameJs.handleClick
    split_ifs
    · exact ih
    · exact ih
    · exact ih
  | powerUp item _ ih =>
    rw [(gameJs_activatePowerUp_attached H _ item).1]; exact ih
  | resize clientWidth _ ih => exact ih
  | start _ _ => exact init_ok _ _
  | restart _ _ => exact init_ok _ _
  | next _ _ => exact init_ok _ _

/-- In every reachable state of the component the paddle is `100` wide. -/
theorem component_reachable_paddle_width {α : Type} [LinearOrderedField α] [FloorRing α]
    (H : Host α) {a : Component.App α} (ha : Component.Reachable H a) :
    a.game.paddle.width = 100 := by
  have init_ok : ∀ (a₀ : Component.App α) (lvl : ℕ) (keep : Bool),
      (Component.initGame H a₀ lvl keep).game.paddle.width = 100 := by
    intro a₀ lvl keep
    unfold Component.initGame
    cases keep <;> rfl
  have update_ok : ∀ a₀ : Component.App α, Component.Reachable H a₀ →
      a₀.game.paddle.width = 100 → (Component.updateGame H a₀).game.paddle.width = 100 := by
    intro a₀ h₀ hw
    rw [(component_updateGame_game H a₀).1,
      (component_simulate_attached H a₀ (component_reachable_attachedAtRest H h₀)).1]
    exact hw
  induction ha with
  | init a₀ lvl keep => exact init_ok a₀ lvl keep
  | @tick a₁ h₁ ih =>
    unfold Component.tick
    split_ifs
    · exact update_ok a₁ h₁ ih
    · exact ih
  | @update a₁ h₁ ih => exact update_ok a₁ h₁ ih
  | move x _ ih =>
    unfold Component.handlePointerMove
    split_ifs
    · exact ih
    · exact ih
  | click _ ih =>
    unfold Component.handleClick
    split_ifs
    · exact ih
    · exact ih
    · exact ih
  | pickup item _ ih =>
    show (Component.handleItemPickup H _ item).paddle.width = 100
    rw [(component_handleItemPickup_attached H _ item).1]; exact ih
  | resize clientWidth clientHeight _ ih =>
    unfold Component.resize
    dsimp only
    split_ifs
    · exact init_ok _ _ _
    · exact ih
  | start _ _ => exact init_ok _ _ _
  | next _ _ => exact init_ok _ _ _
  | restart _ _ => exact init_ok _ _ _

/-- The paddle test of `game.js`, spelled out. -/
theorem gameJs_paddleHit_iff {α : Type} [LinearOrderedField α] (g : GameJs.Game α)
    (ball : Ball α) (paddleY : α) :
    GameJs.paddleHit g ball paddleY = true ↔
      ball.y + 6 ≥ paddleY ∧ ball.y - 6 ≤ paddleY + 14 ∧ ball.x ≥ g.paddle.x - 6 ∧
        ball.x ≤ g.paddle.x + g.paddle.width + 6 ∧ ball.dy > 0 := by
  simp only [GameJs.paddleHit, GameJs.CONFIG.ball.radius, GameJs.CONFIG.paddle.height,
    Bool.and_eq_true, decide_eq_true_eq, and_assoc]

/-- The paddle test of the component, spelled out. -/
theorem component_paddleHit_iff {α : Type} [LinearOrderedField α] (c : Component.Game α)
    (ball : Ball α) (paddleY : α) :
    Component.paddleHit c ball paddleY = true ↔
      ball.y + 6 ≥ paddleY ∧ ball.y - 6 ≤ paddleY + 14 ∧ ball.x ≥ c.paddle.x - 6 ∧
        ball.x ≤ c.paddle.x + c.paddle.width + 6 ∧ ball.dy > 0 := by
  simp only [Component.paddleHit, Component.BALL_RADIUS, Component.PADDLE_HEIGHT,
    Bool.and_eq_true, decide_eq_true_eq, and_assoc]

/-! ## The paddle bounce over the reals -/

/-- The bounce angle stays strictly inside `(-π/2, π/2)` when the ball is within one radius
of a paddle wider than `28`. -/
theorem paddle_angle_bounds (x p w : ℝ) (hw : 28 < w) (h1 : x ≥ p - 6) (h2 : x ≤ p + w + 6) :
    -(Real.pi / 2) < ((x - p) / w - 0.5) * Real.pi * 0.7 ∧
      ((x - p) / w - 0.5) * Real.pi * 0.7 < Real.pi / 2 := by
  have hw0 : 0 < w := by linarith
  have hpi := Real.pi_pos
  have lo : -(5 / 7 : ℝ) < (x - p) / w - 0.5 := by
    have : (x - p) / w - 0.5 - -(5 / 7 : ℝ) = (x - p + 3 / 14 * w) / w := by
      field_simp; ring
    have hpos : 0 < (x - p + 3 / 14 * w) / w := div_pos (by linarith) hw0
    linarith
  have hi : (x - p) / w - 0.5 < 5 / 7 := by
    have : (5 / 7 : ℝ) - ((x - p) / w - 0.5) = (p + 17 / 14 * w - x) / w := by
      field_simp; ring
    have hpos : 0 < (p + 17 / 14 * w - x) / w := div_pos (by linarith) hw0
    linarith
  constructor
  · have : -(Real.pi / 2) = -(5 / 7 : ℝ) * Real.pi * 0.7 := by ring
    rw [this]
    have := mul_lt_mul_of_pos_right lo hpi
    linarith
  · have : Real.pi / 2 = (5 / 7 : ℝ) * Real.pi * 0.7 := by ring
    rw [this]
    have := mul_lt_mul_of_pos_right hi hpi
    linarith

/-- The velocity `(sin a · s, -|cos a · s|)` written by the paddle bounce, for an angle `a`
inside `(-π/2, π/2)` and the speed `s` of a ball that moves down. -/
theorem paddle_bounce_velocity (a dx dy : ℝ) (ha1 : -(Real.pi / 2) < a) (ha2 : a < Real.pi / 2)
    (hdy : dy > 0) :
    -|Real.cos a * Real.sqrt (dx * dx + dy * dy)| =
        -(Real.sqrt (dx * dx + dy * dy) * Real.cos a) ∧
      -|Real.cos a * Real.sqrt (dx * dx + dy * dy)| < 0 ∧
      Real.sqrt
          (Real.sin a * Real.sqrt (dx * dx + dy * dy) *
              (Real.sin a * Real.sqrt (dx * dx + dy * dy)) +
            -|Real.cos a * Real.sqrt (dx * dx + dy * dy)| *
              -|Real.cos a * Real.sqrt (dx * dx + dy * dy)|) =
        Real.sqrt (dx * dx + dy * dy) := by
  have hs : 0 < Real.sqrt (dx * dx + dy * dy) := Real.sqrt_pos.2 (by nlinarith)
  have hc : 0 < Real.cos a := Real.cos_pos_of_mem_Ioo ⟨ha1, ha2⟩
  have hpos : 0 < Real.cos a * Real.sqrt (dx * dx + dy * dy) := mul_pos hc hs
  rw [abs_of_pos hpos]
  refine ⟨by ring, by linarith, ?_⟩
  have : Real.sin a * Real.sqrt (dx * dx + dy * dy) *
        (Real.sin a * Real.sqrt (dx * dx + dy * dy)) +
      -(Real.cos a * Real.sqrt (dx * dx + dy * dy)) *
        -(Real.cos a * Real.sqrt (dx * dx + dy * dy)) =
      Real.sqrt (dx * dx + dy * dy) * Real.sqrt (dx * dx + dy * dy) := by
    have := Real.sin_sq_add_cos_sq a
    linear_combination (Real.sqrt (dx * dx + dy * dy)) ^ 2 * this
  rw [this]
  exact Real.sqrt_mul_self hs.le

/-- C7: when the paddle test fires (the ball overlaps the paddle band and `dy > 0`), with
`h` the hit offset, `a = (h - 0.5) · π · 0.7` and `s = sqrt(dx² + dy²)`, the paddle bounce of
`game.js` and of the component writes the velocity `(sin a · s, -(s · cos a))`, whose
magnitude is `s` and whose `dy` is negative, puts the ball at `y = paddleY - 6` (its radius)
and leaves `x`.  The paddle is assumed wider than `28`, so that the angle stays inside
`(-π/2, π/2)`; it is `100` wide in every reachable state (`gameJs_reachable_paddle_width`,
`component_reachable_paddle_width`). -/
theorem C7_paddle_bounce_keeps_speed_and_points_up (H : Host ℝ) (g : GameJs.Game ℝ)
    (c : Component.Game ℝ) (ball : Ball ℝ) (paddleY : ℝ)
    (hg : 28 < g.paddle.width) (hc : 28 < c.paddle.width) :
    (GameJs.paddleHit g ball paddleY = true →
      (GameJs.handlePaddleCollision (realHost H) g ball paddleY).2.dx =
        Real.sin ((GameJs.hitPos g ball - 0.5) * Real.pi * 0.7) *
          Real.sqrt (ball.dx * ball.dx + ball.dy * ball.dy) ∧
      (GameJs.handlePaddleCollision (realHost H) g ball paddleY).2.dy =
        -(Real.sqrt (ball.dx * ball.dx + ball.dy * ball.dy) *
          Real.cos ((GameJs.hitPos g ball - 0.5) * Real.pi * 0.7)) ∧
      (GameJs.handlePaddleCollision (realHost H) g ball paddleY).2.dy < 0 ∧
      Real.sqrt
          ((GameJs.handlePaddleCollision (realHost H) g ball paddleY).2.dx *
              (GameJs.handlePaddleCollision (realHost H) g ball paddleY).2.dx +
            (GameJs.handlePaddleCollision (realHost H) g ball paddleY).2.dy *
              (GameJs.handlePaddleCollision (realHost H) g ball paddleY).2.dy) =
        Real.sqrt (ball.dx * ball.dx + ball.dy * ball.dy) ∧
      (GameJs.handlePaddleCollision (realHost H) g ball paddleY).2.y = paddleY - 6 ∧
      (GameJs.handlePaddleCollision (realHost H) g ball paddleY).2.x = ball.x) ∧
    (Component.paddleHit c ball paddleY = true →
      (Component.paddleSection (realHost H) c ball paddleY).2.dx =
        Real.sin ((Component.hitPos c ball - 0.5) * Real.pi * 0.7) *
          Real.sqrt (ball.dx * ball.dx + ball.dy * ball.dy) ∧
      (Component.paddleSection (realHost H) c ball paddleY).2.dy =
        -(Real.sqrt (ball.dx * ball.dx + ball.dy * ball.dy) *
          Real.cos ((Component.hitPos c ball - 0.5) * Real.pi * 0.7)) ∧
      (Component.paddleSection (realHost H) c ball paddleY).2.dy < 0 ∧
      Real.sqrt
          ((Component.paddleSection (realHost H) c ball paddleY).2.dx *
              (Component.paddleSection (realHost H) c ball paddleY).2.dx +
            (Component.paddleSection (realHost H) c ball paddleY).2.dy *
              (Component.paddleSection (realHost H) c ball paddleY).2.dy) =
        Real.sqrt (ball.dx * ball.dx + ball.dy * ball.dy) ∧
      (Component.paddleSection (realHost H) c ball paddleY).2.y = paddleY - 6 ∧
      (Component.paddleSection (realHost H) c ball paddleY).2.x = ball.x) := by
  constructor
  · intro hit
    obtain ⟨-, -, h1, h2, hdy⟩ := (gameJs_paddleHit_iff g ball paddleY).1 hit
    obtain ⟨a1, a2⟩ := paddle_angle_bounds ball.x g.paddle.x g.paddle.width hg h1 h2
    obtain ⟨e1, e2, e3⟩ := paddle_bounce_velocity _ ball.dx ball.dy a1 a2 hdy
    simp only [GameJs.handlePaddleCollision, hit, if_true, realHost, GameJs.hitPos,
      GameJs.CONFIG.ball.radius]
    exact ⟨trivial, e1, e2, e3, trivial, trivial⟩
  · intro hit
    obtain ⟨-, -, h1, h2, hdy⟩ := (component_paddleHit_iff c ball paddleY).1 hit
    obtain ⟨a1, a2⟩ := paddle_angle_bounds ball.x c.paddle.x c.paddle.width hc h1 h2
    obtain ⟨e1, e2, e3⟩ := paddle_bounce_velocity _ ball.dx ball.dy a1 a2 hdy
    simp only [Component.paddleSection, hit, if_true, realHost, Component.hitPos,
      Component.BALL_RADIUS]
    exact ⟨trivial, e1, e2, e3, trivial, trivial⟩

/-- C7 (witness): the paddle at `x = 190` with width `100` and a ball at `x = 240` with
velocity `(3, 4)`: the hit offset is `0.5`, the angle `0`, and the new velocity is exactly
`(0, -5)`, that is `(0, -s)`. -/
theorem C7_paddle_bounce_dead_centre_witness :
    ((28 : ℝ) < (Example.emptyGame : GameJs.Game ℝ).paddle.width ∧
      (28 : ℝ) < (Example.emptyRef : Component.Game ℝ).paddle.width ∧
      GameJs.paddleHit Example.emptyGame (Example.ballOnPaddleCentre : Ball ℝ) 605 = true ∧
      Component.paddleHit Example.emptyRef (Example.ballOnPaddleCentre : Ball ℝ) 605 = true) ∧
    GameJs.hitPos Example.emptyGame (Example.ballOnPaddleCentre : Ball ℝ) = 0.5 ∧
    Real.sqrt ((Example.ballOnPaddleCentre : Ball ℝ).dx * (Example.ballOnPaddleCentre : Ball ℝ).dx +
      (Example.ballOnPaddleCentre : Ball ℝ).dy * (Example.ballOnPaddleCentre : Ball ℝ).dy) = 5 ∧
    (GameJs.handlePaddleCollision (realHost halfHost) Example.emptyGame
      Example.ballOnPaddleCentre 605).2.dx = 0 ∧
    (GameJs.handlePaddleCollision (realHost halfHost) Example.emptyGame
      Example.ballOnPaddleCentre 605).2.dy = -5 ∧
    (Component.paddleSection (realHost halfHost) Example.emptyRef
      Example.ballOnPaddleCentre 605).2.dx = 0 ∧
    (Component.paddleSection (realHost halfHost) Example.emptyRef
      Example.ballOnPaddleCentre 605).2.dy = -5 := by
  have hg : (28 : ℝ) < (Example.emptyGame : GameJs.Game ℝ).paddle.width := by
    norm_num [Example.emptyGame]
  have hc : (28 : ℝ) < (Example.emptyRef : Component.Game ℝ).paddle.width := by
    norm_num [Example.emptyRef]
  have hit1 : GameJs.paddleHit Example.emptyGame (Example.ballOnPaddleCentre : Ball ℝ) 605 = true := by
    rw [gameJs_paddleHit_iff]
    norm_num [Example.emptyGame, Example.ballOnPaddleCentre]
  have hit2 : Component.paddleHit Example.emptyRef (Example.ballOnPaddleCentre : Ball ℝ) 605 = true := by
    rw [component_paddleHit_iff]
    norm_num [Example.emptyRef, Example.ballOnPaddleCentre]
  have hpos1 : GameJs.hitPos Example.emptyGame (Example.ballOnPaddleCentre : Ball ℝ) = 0.5 := by
    norm_num [GameJs.hitPos, Example.emptyGame, Example.ballOnPaddleCentre]
  have hpos2 : Component.hitPos Example.emptyRef (Example.ballOnPaddleCentre : Ball ℝ) = 0.5 := by
    norm_num [Component.hitPos, Example.emptyRef, Example.ballOnPaddleCentre]
  have hs : Real.sqrt ((Example.ballOnPaddleCentre : Ball ℝ).dx *
      (Example.ballOnPaddleCentre : Ball ℝ).dx +
      (Example.ballOnPaddleCentre : Ball ℝ).dy * (Example.ballOnPaddleCentre : Ball ℝ).dy) = 5 := by
    have : (Example.ballOnPaddleCentre : Ball ℝ).dx * (Example.ballOnPaddleCentre : Ball ℝ).dx +
      (Example.ballOnPaddleCentre : Ball ℝ).dy * (Example.ballOnPaddleCentre : Ball ℝ).dy
        = 5 * 5 := by norm_num [Example.ballOnPaddleCentre]
    rw [this]
    exact Real.sqrt_mul_self (by norm_num)
  have h := C7_paddle_bounce_keeps_speed_and_points_up halfHost Example.emptyGame
    Example.emptyRef Example.ballOnPaddleCentre 605 hg hc
  obtain ⟨g1, g2, -⟩ := h.1 hit1
  obtain ⟨c1, c2, -⟩ := h.2 hit2
  rw [hpos1, hs] at g1 g2
  rw [hpos2, hs] at c1 c2
  refine ⟨⟨hg, hc, hit1, hit2⟩, hpos1, hs, ?_, ?_, ?_, ?_⟩
  · rw [g1]; norm_num
  · rw [g2]; norm_num
  · rw [c1]; norm_num
  · rw [c2]; norm_num

/-! ## The paddle -/

/-- Bounds on a normalised offset `(x - p) / w` from bounds on `x`. -/
theorem offset_bounds {α : Type} [LinearOrderedField α] (x p w : α) (hw : 0 < w)
    (h1 : x ≥ p - 6) (h2 : x ≤ p + w + 6) :
    -(6 / w) ≤ (x - p) / w ∧ (x - p) / w ≤ 1 + 6 / w := by
  constructor
  · have : (x - p) / w - -(6 / w) = (x - p + 6) / w := by ring
    have h : 0 ≤ (x - p + 6) / w := div_nonneg (by linarith) hw.le
    linarith
  · have : 1 + 6 / w - (x - p) / w = (p + w + 6 - x) / w := by field_simp; ring
    have h : 0 ≤ (p + w + 6 - x) / w := div_nonneg (by linarith) hw.le
    linarith

/-- The ball on the edge of the paddle passes the paddle test of both implementations. -/
theorem ballOnPaddleEdge_hits :
    GameJs.paddleHit Example.emptyGame (Example.ballOnPaddleEdge : Ball ℚ) 605 = true ∧
    Component.paddleHit Example.emptyRef (Example.ballOnPaddleEdge : Ball ℚ) 605 = true := by
  rw [gameJs_paddleHit_iff, component_paddleHit_iff]
  norm_num [Example.emptyGame, Example.emptyRef, Example.ballOnPaddleEdge]

/-- C8 (counterexample): with the paddle at `x = 190` (width `100`, top at `605`), a ball of
radius `6` centred at `x = 184`, `y = 600` and moving down passes the paddle test of both
implementations, and its hit offset is `-0.06`, outside `[0, 1]`. -/
theorem C8_counterexample_hit_offset_negative :
    GameJs.paddleHit Example.emptyGame (Example.ballOnPaddleEdge : Ball ℚ) 605 = true ∧
    GameJs.hitPos Example.emptyGame (Example.ballOnPaddleEdge : Ball ℚ) = -(3 / 50) ∧
    ¬ (0 ≤ GameJs.hitPos Example.emptyGame (Example.ballOnPaddleEdge : Ball ℚ) ∧
        GameJs.hitPos Example.emptyGame (Example.ballOnPaddleEdge : Ball ℚ) ≤ 1) ∧
    Component.paddleHit Example.emptyRef (Example.ballOnPaddleEdge : Ball ℚ) 605 = true ∧
    ¬ (0 ≤ Component.hitPos Example.emptyRef (Example.ballOnPaddleEdge : Ball ℚ) ∧
        Component.hitPos Example.emptyRef (Example.ballOnPaddleEdge : Ball ℚ) ≤ 1) := by
  refine ⟨ballOnPaddleEdge_hits.1, ?_, ?_, ballOnPaddleEdge_hits.2, ?_⟩ <;>
    norm_num [GameJs.hitPos, Component.hitPos, Example.emptyGame, Example.emptyRef,
      Example.ballOnPaddleEdge]

/-- C8 (amended): whenever the paddle test of `handlePaddleCollision` (`game.js`) or of
`updateGame` (component) fires and the paddle width `w` is positive, the hit offset
`h = (ball.x - paddle.x) / w` lies in `[-r / w, 1 + r / w]` with `r = 6` the ball radius; it
lies in `[0, 1]` when moreover the centre of the ball is over the paddle. -/
theorem C8_hit_offset_bounds {α : Type} [LinearOrderedField α] (g : GameJs.Game α)
    (c : Component.Game α) (ball : Ball α) (paddleY : α)
    (hg : 0 < g.paddle.width) (hc : 0 < c.paddle.width) :
    (GameJs.paddleHit g ball paddleY = true →
      (-(6 / g.paddle.width) ≤ GameJs.hitPos g ball ∧
        GameJs.hitPos g ball ≤ 1 + 6 / g.paddle.width) ∧
      (g.paddle.x ≤ ball.x → ball.x ≤ g.paddle.x + g.paddle.width →
        0 ≤ GameJs.hitPos g ball ∧ GameJs.hitPos g ball ≤ 1)) ∧
    (Component.paddleHit c ball paddleY = true →
      (-(6 / c.paddle.width) ≤ Component.hitPos c ball ∧
        Component.hitPos c ball ≤ 1 + 6 / c.paddle.width) ∧
      (c.paddle.x ≤ ball.x → ball.x ≤ c.paddle.x + c.paddle.width →
        0 ≤ Component.hitPos c ball ∧ Component.hitPos c ball ≤ 1)) := by
  rw [gameJs_paddleHit_iff, component_paddleHit_iff]
  refine ⟨fun h => ⟨offset_bounds _ _ _ hg h.2.2.1 h.2.2.2.1, fun h1 h2 => ?_⟩,
    fun h => ⟨offset_bounds _ _ _ hc h.2.2.1 h.2.2.2.1, fun h1 h2 => ?_⟩⟩
  · exact ⟨div_nonneg (by linarith) hg.le, (div_le_one hg).2 (by linarith)⟩
  · exact ⟨div_nonneg (by linarith) hc.le, (div_le_one hc).2 (by linarith)⟩

/-- C8 (witness): the ball on the edge of the paddle, whose offset `-0.06` meets the lower
bound `-r / w`. -/
theorem C8_hit_offset_bounds_witness :
    ((0 : ℚ) < (Example.emptyGame : GameJs.Game ℚ).paddle.width ∧
      (0 : ℚ) < (Example.emptyRef : Component.Game ℚ).paddle.width ∧
      GameJs.paddleHit Example.emptyGame (Example.ballOnPaddleEdge : Ball ℚ) 605 = true) ∧
    -(6 / (Example.emptyGame : GameJs.Game ℚ).paddle.width) ≤
      GameJs.hitPos Example.emptyGame (Example.ballOnPaddleEdge : Ball ℚ) ∧
    GameJs.hitPos Example.emptyGame (Example.ballOnPaddleEdge : Ball ℚ) ≤
      1 + 6 / (Example.emptyGame : GameJs.Game ℚ).paddle.width := by
  have hg : (0 : ℚ) < (Example.emptyGame : GameJs.Game ℚ).paddle.width := by
    norm_num [Example.emptyGame]
  have hc : (0 : ℚ) < (Example.emptyRef : Component.Game ℚ).paddle.width := by
    norm_num [Example.emptyRef]
  have hit : GameJs.paddleHit Example.emptyGame (Example.ballOnPaddleEdge : Ball ℚ) 605 = true :=
    ballOnPaddleEdge_hits.1
  exact ⟨⟨hg, hc, hit⟩,
    ((C8_hit_offset_bounds Example.emptyGame Example.emptyRef Example.ballOnPaddleEdge 605 hg hc).1
      hit).1⟩

/-! ## Attached balls -/

/-- C9: in every state reachable from a freshly initialised game (`initGameData` in
`game.js`, `initGame` in the component) by frames, ticks, paddle moves, launches, power-up
activations, window resizes and the start, restart and next-level buttons, after one more tick
every ball with `attached = true` has velocity `(0, 0)` and sits at
`(paddle.x + paddle.width / 2, paddleY - radius - 2)` with `paddleY = canvasHeight - 35` and
`radius = 6`. -/
theorem C9_attached_ball_rests_on_paddle {α : Type} [LinearOrderedField α] [FloorRing α]
    (H : Host α) (g : GameJs.Game α) (a : Component.App α)
    (hg : GameJs.Reachable H g) (ha : Component.Reachable H a) :
    (∀ b ∈ (GameJs.update H g).balls, b.attached = true →
      b.dx = 0 ∧ b.dy = 0 ∧
      b.x = (GameJs.update H g).paddle.x + (GameJs.update H g).paddle.width / 2 ∧
      b.y = (GameJs.update H g).canvasHeight - 35 - 6 - 2) ∧
    (∀ b ∈ (Component.updateGame H a).game.balls, b.attached = true →
      b.dx = 0 ∧ b.dy = 0 ∧
      b.x = (Component.updateGame H a).game.paddle.x +
        (Component.updateGame H a).game.paddle.width / 2 ∧
      b.y = (Component.updateGame H a).canvasHeight - 35 - 6 - 2) := by
  constructor
  · obtain ⟨hp, -, hc, hr, ho⟩ :=
      gameJs_update_attached H g (gameJs_reachable_attachedAtRest H hg)
    intro b hb hatt
    rw [hp, hc]
    exact ⟨(hr b hb hatt).1, (hr b hb hatt).2, (ho b hb hatt).1, (ho b hb hatt).2⟩
  · obtain ⟨hgame, -, hc⟩ := component_updateGame_game H a
    obtain ⟨hp, hr, ho⟩ :=
      component_simulate_attached H a (component_reachable_attachedAtRest H ha)
    intro b hb hatt
    rw [hgame] at hb
    rw [hgame, hp, hc]
    exact ⟨(hr b hb hatt).1, (hr b hb hatt).2, (ho b hb hatt).1, (ho b hb hatt).2⟩

/-- After the tick that follows `initGameData` on a 480 by 640 canvas the only ball is the
attached one. -/
theorem gameJs_tick_after_init_balls :
    (GameJs.update halfHost (GameJs.initGameData halfHost Example.emptyGame false)).balls =
      [{ x := 240, y := 597, dx := 0, dy := 0, attached := true }] := by
  have h : (GameJs.update halfHost
      (GameJs.initGameData halfHost Example.emptyGame false)).balls =
      (GameJs.updateItems halfHost (640 - 35)
        (GameJs.updateBalls halfHost (640 - 35)
          (GameJs.initGameData halfHost Example.emptyGame false))).balls := by
    simp only [GameJs.update, GameJs.checkLevelComplete, GameJs.levelComplete,
      GameJs.CONFIG.paddle.offsetBottom]
    split_ifs <;> simp [GameJs.initGameData, Example.emptyGame]
  rw [h]
  norm_num [GameJs.updateItems, GameJs.filterItems, GameJs.updateBalls, GameJs.filterBalls,
    GameJs.ballCallback, GameJs.initGameData, Example.emptyGame, GameJs.CONFIG.ball.radius,
    GameJs.CONFIG.paddle.width, GameJs.CONFIG.paddle.offsetBottom]

/-- C9 (witness): the state after `initGameData` on a 480 by 640 canvas is reachable, the
tick that follows keeps the attached ball, and that ball is at rest at `(240, 597)`, the
paddle-follow position. -/
theorem C9_attached_ball_witness :
    (GameJs.Reachable halfHost (GameJs.initGameData halfHost Example.emptyGame false) ∧
      Component.Reachable halfHost (Component.initGame halfHost Example.emptyApp 1 false) ∧
      ({ x := 240, y := 597, dx := 0, dy := 0, attached := true } : Ball ℝ) ∈
        (GameJs.update halfHost (GameJs.initGameData halfHost Example.emptyGame false)).balls) ∧
    (240 : ℝ) =
      (GameJs.update halfHost (GameJs.initGameData halfHost Example.emptyGame false)).paddle.x +
        (GameJs.update halfHost
          (GameJs.initGameData halfHost Example.emptyGame false)).paddle.width / 2 ∧
    (597 : ℝ) =
      (GameJs.update halfHost
        (GameJs.initGameData halfHost Example.emptyGame false)).canvasHeight - 35 - 6 - 2 := by
  have hg : GameJs.Reachable halfHost (GameJs.initGameData halfHost Example.emptyGame false) :=
    GameJs.Reachable.init _ _
  have ha : Component.Reachable halfHost (Component.initGame halfHost Example.emptyApp 1 false) :=
    Component.Reachable.init _ _ _
  have hmem : ({ x := 240, y := 597, dx := 0, dy := 0, attached := true } : Ball ℝ) ∈
      (GameJs.update halfHost (GameJs.initGameData halfHost Example.emptyGame false)).balls := by
    rw [gameJs_tick_after_init_balls]
    exact List.mem_singleton.2 rfl
  have h := (C9_attached_ball_rests_on_paddle halfHost _ _ hg ha).1 _ hmem rfl
  exact ⟨⟨hg, ha, hmem⟩, h.2.2.1, h.2.2.2⟩

/-! ## Wall collisions -/

/-- JavaScript `handleWallCollision` of `game.js` and the wall section of the component are the same
function of the canvas width and the ball. -/
theorem handleWallCollision_eq_wallSection {α : Type} [LinearOrderedField α]
    (g : GameJs.Game α) (ball : Ball α) :
    GameJs.handleWallCollision g ball = Component.wallSection g.canvasWidth ball := rfl

/-- The horizontal part of the wall section, by cases. -/
theorem wallSection_horizontal {α : Type} [LinearOrderedField α] (cw : α) (ball : Ball α) :
    ((Component.wallSection cw ball).x =
        if ball.x - 6 ≤ 0 then (if 6 + 6 ≥ cw then cw - 6 else 6)
        else if ball.x + 6 ≥ cw then cw - 6 else ball.x) ∧
    ((Component.wallSection cw ball).dx =
        if ball.x - 6 ≤ 0 then (if 6 + 6 ≥ cw then -|ball.dx| else |ball.dx|)
        else if ball.x + 6 ≥ cw then -|ball.dx| else ball.dx) := by
  simp only [Component.wallSection, Component.BALL_RADIUS]
  split_ifs <;> simp_all

/-- C10 (counterexample): on a canvas of width `300` a ball at `x = 397` (radius `6`) that
moves to the left, `dx = -3`, touches the right boundary; wall resolution leaves `dx = -3`,
so the sign of `dx` is not flipped, in `game.js` and in the component. -/
theorem C10_counterexample_sign_not_flipped :
    (Example.ballPastRightEdge : Ball ℚ).x + 6 ≥ (Example.narrowGame : GameJs.Game ℚ).canvasWidth ∧
    (GameJs.handleWallCollision Example.narrowGame (Example.ballPastRightEdge : Ball ℚ)).dx = -3 ∧
    (Component.wallSection 300 (Example.ballPastRightEdge : Ball ℚ)).dx = -3 ∧
    ¬ (GameJs.handleWallCollision Example.narrowGame (Example.ballPastRightEdge : Ball ℚ)).dx =
        -(Example.ballPastRightEdge : Ball ℚ).dx ∧
    ¬ (Component.wallSection 300 (Example.ballPastRightEdge : Ball ℚ)).dx =
        -(Example.ballPastRightEdge : Ball ℚ).dx := by
  rw [handleWallCollision_eq_wallSection, (wallSection_horizontal _ _).2,
    (wallSection_horizontal _ _).2]
  norm_num [Example.ballPastRightEdge, Example.narrowGame, Example.emptyGame]

/-- C10 (amended): with `r = 6` the ball radius and `canvasWidth ≥ 2 r`, wall resolution
leaves `x` in `[r, canvasWidth - r]` and keeps the magnitude of `dx`.  When
`canvasWidth > 2 r`, a ball that touches the left boundary (`x - r ≤ 0`) gets `x = r` and
`dx = |dx|`, hence `-dx` if it was moving left; a ball that touches the right boundary
(`x + r ≥ canvasWidth`) gets `x = canvasWidth - r` and `dx = -|dx|`, hence `-dx` if it was
moving right.  The wall section of the
component computes the same ball as `handleWallCollision` of `game.js`. -/
theorem C10_wall_touch_turns_inward_and_clamps {α : Type} [LinearOrderedField α]
    (g : GameJs.Game α) (ball : Ball α) (hcw : 2 * 6 ≤ g.canvasWidth) :
    6 ≤ (GameJs.handleWallCollision g ball).x ∧
    (GameJs.handleWallCollision g ball).x ≤ g.canvasWidth - 6 ∧
    |(GameJs.handleWallCollision g ball).dx| = |ball.dx| ∧
    (2 * 6 < g.canvasWidth → ball.x - 6 ≤ 0 →
      (GameJs.handleWallCollision g ball).x = 6 ∧
      (GameJs.handleWallCollision g ball).dx = |ball.dx| ∧
      (ball.dx < 0 → (GameJs.handleWallCollision g ball).dx = -ball.dx)) ∧
    (2 * 6 < g.canvasWidth → ball.x + 6 ≥ g.canvasWidth →
      (GameJs.handleWallCollision g ball).x = g.canvasWidth - 6 ∧
      (GameJs.handleWallCollision g ball).dx = -|ball.dx| ∧
      (ball.dx > 0 → (GameJs.handleWallCollision g ball).dx = -ball.dx)) ∧
    Component.wallSection g.canvasWidth ball = GameJs.handleWallCollision g ball := by
  rw [handleWallCollision_eq_wallSection]
  obtain ⟨hx, hdx⟩ := wallSection_horizontal g.canvasWidth ball
  rw [hx, hdx]
  refine ⟨?_, ?_, ?_, ?_, ?_, rfl⟩
  · split_ifs <;> linarith
  · split_ifs <;> linarith
  · split_ifs <;> simp
  · intro h1 h2
    have h3 : ¬ (6 + 6 ≥ g.canvasWidth) := by linarith
    rw [if_pos h2, if_neg h3, if_pos h2, if_neg h3]
    exact ⟨rfl, rfl, fun h => abs_of_neg h⟩
  · intro h1 h2
    have h3 : ¬ (ball.x - 6 ≤ 0) := by linarith
    rw [if_neg h3, if_pos h2, if_neg h3, if_pos h2]
    exact ⟨rfl, rfl, fun h => by rw [abs_of_pos h]⟩

/-- C10 (witness): a ball entering the left boundary of a canvas of width `480`. -/
theorem C10_wall_touch_witness :
    ((2 : ℚ) * 6 ≤ (Example.emptyGame : GameJs.Game ℚ).canvasWidth ∧
      (Example.ballEnteringLeftWall : Ball ℚ).x - 6 ≤ 0) ∧
    (GameJs.handleWallCollision Example.emptyGame (Example.ballEnteringLeftWall : Ball ℚ)).x = 6 ∧
    (GameJs.handleWallCollision Example.emptyGame (Example.ballEnteringLeftWall : Ball ℚ)).dx = 2 := by
  have hcw : (2 : ℚ) * 6 ≤ (Example.emptyGame : GameJs.Game ℚ).canvasWidth := by
    norm_num [Example.emptyGame]
  have hlt : (2 : ℚ) * 6 < (Example.emptyGame : GameJs.Game ℚ).canvasWidth := by
    norm_num [Example.emptyGame]
  have hleft : (Example.ballEnteringLeftWall : Ball ℚ).x - 6 ≤ 0 := by
    norm_num [Example.ballEnteringLeftWall]
  have h := C10_wall_touch_turns_inward_and_clamps Example.emptyGame
    (Example.ballEnteringLeftWall : Ball ℚ) hcw
  obtain ⟨hx, hdx, _⟩ := h.2.2.2.1 hlt hleft
  refine ⟨⟨hcw, hleft⟩, hx, ?_⟩
  rw [hdx]
  norm_num [Example.ballEnteringLeftWall]

/-! ## Wall resolution applied twice -/

/-- Two balls with the same five fields are equal. -/
theorem ball_eq_of_fields {α : Type} (a b : Ball α) (hx : a.x = b.x) (hy : a.y = b.y)
    (hdx : a.dx = b.dx) (hdy : a.dy = b.dy) (hatt : a.attached = b.attached) : a = b := by
  cases a
  cases b
  simp only [Ball.mk.injEq]
  exact ⟨hx, hy, hdx, hdy, hatt⟩

/-- The vertical part of the wall section, by cases, and the `attached` flag. -/
theorem wallSection_vertical {α : Type} [LinearOrderedField α] (cw : α) (ball : Ball α) :
    ((Component.wallSection cw ball).y = if ball.y - 6 ≤ 45 then 45 + 6 else ball.y) ∧
    ((Component.wallSection cw ball).dy = if ball.y - 6 ≤ 45 then |ball.dy| else ball.dy) ∧
    (Component.wallSection cw ball).attached = ball.attached := by
  simp only [Component.wallSection, Component.BALL_RADIUS]
  split_ifs <;> simp_all

/-- C11: wall-collision resolution is idempotent, for every ball and every canvas width:
applying `handleWallCollision` of `game.js` (or the wall section of `updateGame` of the
component) to its own result gives that result again, position and velocity included; this
covers the left, the right and the top boundary (`y - r ≤ 45`) together. -/
theorem C11_wall_resolution_idempotent {α : Type} [LinearOrderedField α]
    (g : GameJs.Game α) (canvasWidth : α) (ball : Ball α) :
    GameJs.handleWallCollision g (GameJs.handleWallCollision g ball) =
        GameJs.handleWallCollision g ball ∧
      Component.wallSection canvasWidth (Component.wallSection canvasWidth ball) =
        Component.wallSection canvasWidth ball := by
  have key : ∀ cw : α, Component.wallSection cw (Component.wallSection cw ball) =
      Component.wallSection cw ball := by
    intro cw
    obtain ⟨hx, hdx⟩ := wallSection_horizontal cw ball
    obtain ⟨hy, hdy, hatt⟩ := wallSection_vertical cw ball
    obtain ⟨hx2, hdx2⟩ := wallSection_horizontal cw (Component.wallSection cw ball)
    obtain ⟨hy2, hdy2, hatt2⟩ := wallSection_vertical cw (Component.wallSection cw ball)
    apply ball_eq_of_fields
    · rw [hx2, hx]; split_ifs <;> first | rfl | linarith
    · rw [hy2, hy]; split_ifs <;> rfl
    · rw [hdx2, hx, hdx]; split_ifs <;> first | linarith | simp
    · rw [hdy2, hy, hdy]; split_ifs <;> first | linarith | simp
    · rw [hatt2]
  exact ⟨by rw [handleWallCollision_eq_wallSection]; exact key g.canvasWidth, key canvasWidth⟩

/-! ## Blocks and score over one tick -/

/-- The relation `BlockStep` is reflexive. -/
theorem blockStep_refl {α : Type} (b : Block α) : BlockStep b b :=
  ⟨rfl, rfl, rfl, rfl, rfl, rfl, rfl, fun h => h, fun _ => rfl⟩

/-- Destroying a block that is not a wall is a `BlockStep`. -/
theorem blockStep_destroy {α : Type} (b : Block α) (hw : b.isWall = false) :
    BlockStep b { b with destroyed := true } :=
  ⟨rfl, rfl, rfl, rfl, rfl, rfl, rfl, fun _ => rfl, fun h => by rw [hw] at h; cases h⟩

/-- The relation `BlockStep` is transitive. -/
theorem blockStep_trans {α : Type} {a b c : Block α} (h₁ : BlockStep a b)
    (h₂ : BlockStep b c) : BlockStep a c := by
  obtain ⟨a1, a2, a3, a4, a5, a6, a7, a8, a9⟩ := h₁
  obtain ⟨b1, b2, b3, b4, b5, b6, b7, b8, b9⟩ := h₂
  exact ⟨b1.trans a1, b2.trans a2, b3.trans a3, b4.trans a4, b5.trans a5, b6.trans a6,
    b7.trans a7, fun h => b8 (a8 h), fun h => (b9 (a6.trans h)).trans (a9 h)⟩

/-- Every list of blocks is related to itself. -/
theorem forall₂_blockStep_refl {α : Type} (l : List (Block α)) :
    List.Forall₂ BlockStep l l := by
  induction l with
  | nil => exact List.Forall₂.nil
  | cons b rest ih => exact List.Forall₂.cons (blockStep_refl b) ih

/-- The position-wise relation is transitive. -/
theorem forall₂_blockStep_trans {α : Type} {l₁ l₂ l₃ : List (Block α)}
    (h₁ : List.Forall₂ BlockStep l₁ l₂) (h₂ : List.Forall₂ BlockStep l₂ l₃) :
    List.Forall₂ BlockStep l₁ l₃ := by
  induction h₁ generalizing l₃ with
  | nil => cases h₂; exact List.Forall₂.nil
  | cons hab _ ih =>
    cases h₂ with
    | cons hbc hrest => exact List.Forall₂.cons (blockStep_trans hab hbc) (ih hrest)

/-- Under `BlockStep` the count of destroyed blocks grows by the number of blocks whose flag
went from `false` to `true`. -/
theorem destroyedCount_eq_add_newlyDestroyed {α : Type} {l l' : List (Block α)}
    (h : List.Forall₂ BlockStep l l') :
    destroyedCount l' = destroyedCount l + newlyDestroyed l l' := by
  induction h with
  | nil => rfl
  | @cons b b' rest rest' hb _ ih =>
    unfold destroyedCount newlyDestroyed at *
    rw [List.zip_cons_cons, List.countP_cons, List.countP_cons, List.countP_cons, ih]
    have h8 := hb.2.2.2.2.2.2.2.1
    cases hd : b.destroyed <;> cases hd' : b'.destroyed <;> simp_all <;> omega

/-- The relation `ScoreStep` is reflexive. -/
theorem scoreStep_refl {α : Type} (l : List (Block α)) (s : ℕ) : ScoreStep l s l s :=
  ⟨forall₂_blockStep_refl l, rfl⟩

/-- The relation `ScoreStep` is transitive. -/
theorem scoreStep_trans {α : Type} {l₁ l₂ l₃ : List (Block α)} {s₁ s₂ s₃ : ℕ}
    (h₁ : ScoreStep l₁ s₁ l₂ s₂) (h₂ : ScoreStep l₂ s₂ l₃ s₃) : ScoreStep l₁ s₁ l₃ s₃ := by
  obtain ⟨f1, e1⟩ := h₁
  obtain ⟨f2, e2⟩ := h₂
  exact ⟨forall₂_blockStep_trans f1 f2, by omega⟩

/-- A `ScoreStep` adds to the score ten times the number of newly destroyed blocks. -/
theorem scoreStep_score {α : Type} {l l' : List (Block α)} {s s' : ℕ}
    (h : ScoreStep l s l' s') : s' = s + 10 * newlyDestroyed l l' := by
  obtain ⟨f, e⟩ := h
  have := destroyedCount_eq_add_newlyDestroyed f
  omega

/-! ### `game.js` -/

/-- The block loop of `game.js`: the visited blocks and the score make a `ScoreStep`, and the
field `blocks` of the game is not written. -/
theorem gameJs_blockLoop_scoreStep {α : Type} [LinearOrderedField α] (H : Host α)
    (blocks : List (Block α)) (g : GameJs.Game α) (ball : Ball α) :
    ScoreStep blocks g.score (GameJs.blockLoop H blocks g ball).1
        (GameJs.blockLoop H blocks g ball).2.1.score ∧
      (GameJs.blockLoop H blocks g ball).2.1.blocks = g.blocks := by
  induction blocks with
  | nil => exact ⟨scoreStep_refl _ _, rfl⟩
  | cons block rest ih =>
    obtain ⟨⟨f, e⟩, hb⟩ := ih
    unfold GameJs.blockLoop
    dsimp only
    by_cases hd : block.destroyed = true
    · rw [if_pos hd]
      refine ⟨⟨List.Forall₂.cons (blockStep_refl _) f, ?_⟩, hb⟩
      simp only [destroyedCount, List.countP_cons] at e ⊢
      omega
    · rw [if_neg hd]
      split_ifs with hhit hw hdrop <;>
        first
          | exact ⟨scoreStep_refl _ _, rfl⟩
          | (refine ⟨⟨List.Forall₂.cons (blockStep_refl _) f, ?_⟩, hb⟩
             simp only [destroyedCount, List.countP_cons] at e ⊢
             omega)
          | (refine ⟨⟨List.Forall₂.cons (blockStep_destroy _ (by simpa using hw))
               (forall₂_blockStep_refl _), ?_⟩, rfl⟩
             simp only [destroyedCount, List.countP_cons, GameJs.pushParticles]
             simp [hd]
             omega)


/-- The paddle collision of `game.js` writes neither `blocks` nor `score`. -/
theorem gameJs_handlePaddleCollision_blocks {α : Type} [LinearOrderedField α] (H : Host α)
    (g : GameJs.Game α) (ball : Ball α) (paddleY : α) :
    (GameJs.handlePaddleCollision H g ball paddleY).1.blocks = g.blocks ∧
      (GameJs.handlePaddleCollision H g ball paddleY).1.score = g.score := by
  unfold GameJs.handlePaddleCollision
  split_ifs <;> exact ⟨rfl, rfl⟩

/-- The block collision of `game.js` makes a `ScoreStep`. -/
theorem gameJs_handleBlockCollision_scoreStep {α : Type} [LinearOrderedField α] (H : Host α)
    (g : GameJs.Game α) (ball : Ball α) :
    ScoreStep g.blocks g.score (GameJs.handleBlockCollision H g ball).1.blocks
      (GameJs.handleBlockCollision H g ball).1.score :=
  (gameJs_blockLoop_scoreStep H g.blocks g ball).1

/-- The callback of the ball filter of `game.js` makes a `ScoreStep`. -/
theorem gameJs_ballCallback_scoreStep {α : Type} [LinearOrderedField α] (H : Host α)
    (paddleY : α) (g : GameJs.Game α) (ball : Ball α) :
    ScoreStep g.blocks g.score (GameJs.ballCallback H paddleY g ball).1.blocks
      (GameJs.ballCallback H paddleY g ball).1.score := by
  unfold GameJs.ballCallback
  by_cases hatt : ball.attached = true
  · rw [if_pos hatt]
    exact scoreStep_refl _ _
  · rw [if_neg hatt]
    dsimp only
    obtain ⟨hb, hs⟩ := gameJs_handlePaddleCollision_blocks H g
      (GameJs.handleWallCollision g
        { ball with x := ball.x + ball.dx, y := ball.y + ball.dy }) paddleY
    have h := gameJs_handleBlockCollision_scoreStep H
      (GameJs.handlePaddleCollision H g
        (GameJs.handleWallCollision g
          { ball with x := ball.x + ball.dx, y := ball.y + ball.dy }) paddleY).1
      (GameJs.handlePaddleCollision H g
        (GameJs.handleWallCollision g
          { ball with x := ball.x + ball.dx, y := ball.y + ball.dy }) paddleY).2
    rw [hb, hs] at h
    split_ifs <;> exact h

/-- The ball filter of `game.js` makes a `ScoreStep`. -/
theorem gameJs_filterBalls_scoreStep {α : Type} [LinearOrderedField α] (H : Host α)
    (paddleY : α) (balls : List (Ball α)) (g : GameJs.Game α) :
    ScoreStep g.blocks g.score (GameJs.filterBalls H paddleY g balls).1.blocks
      (GameJs.filterBalls H paddleY g balls).1.score := by
  induction balls generalizing g with
  | nil => exact scoreStep_refl _ _
  | cons ball rest ih =>
    unfold GameJs.filterBalls
    dsimp only
    exact scoreStep_trans (gameJs_ballCallback_scoreStep H paddleY g ball)
      (ih (GameJs.ballCallback H paddleY g ball).1)

/-- JavaScript `updateBalls` of `game.js` makes a `ScoreStep`. -/
theorem gameJs_updateBalls_scoreStep {α : Type} [LinearOrderedField α] (H : Host α)
    (paddleY : α) (g : GameJs.Game α) :
    ScoreStep g.blocks g.score (GameJs.updateBalls H paddleY g).blocks
      (GameJs.updateBalls H paddleY g).score := by
  have h := gameJs_filterBalls_scoreStep H paddleY g.balls g
  unfold GameJs.updateBalls
  dsimp only
  split_ifs <;> exact h

/-- JavaScript `activatePowerUp` writes neither `blocks` nor `score`. -/
theorem gameJs_activatePowerUp_blocks {α : Type} [LinearOrderedField α] (H : Host α)
    (g : GameJs.Game α) (item : Item α) :
    (GameJs.activatePowerUp H g item).blocks = g.blocks ∧
      (GameJs.activatePowerUp H g item).score = g.score := by
  unfold GameJs.activatePowerUp
  cases item.type <;> exact ⟨rfl, rfl⟩

/-- The item filter of `game.js` writes neither `blocks` nor `score`. -/
theorem gameJs_filterItems_blocks {α : Type} [LinearOrderedField α] (H : Host α)
    (paddleY : α) (items : List (Item α)) (g : GameJs.Game α) :
    (GameJs.filterItems H paddleY g items).1.blocks = g.blocks ∧
      (GameJs.filterItems H paddleY g items).1.score = g.score := by
  induction items generalizing g with
  | nil => exact ⟨rfl, rfl⟩
  | cons item rest ih =>
    unfold GameJs.filterItems
    dsimp only
    split_ifs
    · obtain ⟨b1, s1⟩ := gameJs_activatePowerUp_blocks H g
        { item with y := item.y + GameJs.CONFIG.item.speed }
      obtain ⟨b2, s2⟩ := ih (GameJs.activatePowerUp H g
        { item with y := item.y + GameJs.CONFIG.item.speed })
      exact ⟨b2.trans b1, s2.trans s1⟩
    · exact ih g
    · exact ih g

/-- One tick of `game.js` makes a `ScoreStep`. -/
theorem gameJs_update_scoreStep {α : Type} [LinearOrderedField α] (H : Host α)
    (g : GameJs.Game α) :
    ScoreStep g.blocks g.score (GameJs.update H g).blocks (GameJs.update H g).score := by
  have h1 := gameJs_updateBalls_scoreStep H (g.canvasHeight - 35) g
  obtain ⟨b2, s2⟩ := gameJs_filterItems_blocks H (g.canvasHeight - 35)
    (GameJs.updateBalls H (g.canvasHeight - 35) g).items
    (GameJs.updateBalls H (g.canvasHeight - 35) g)
  have hb : (GameJs.update H g).blocks =
      (GameJs.filterItems H (g.canvasHeight - 35) (GameJs.updateBalls H (g.canvasHeight - 35) g)
        (GameJs.updateBalls H (g.canvasHeight - 35) g).items).1.blocks := by
    simp only [GameJs.update, GameJs.updateItems, GameJs.checkLevelComplete,
      GameJs.levelComplete, GameJs.CONFIG.paddle.offsetBottom]
    split_ifs <;> rfl
  have hs : (GameJs.update H g).score =
      (GameJs.filterItems H (g.canvasHeight - 35) (GameJs.updateBalls H (g.canvasHeight - 35) g)
        (GameJs.updateBalls H (g.canvasHeight - 35) g).items).1.score := by
    simp only [GameJs.update, GameJs.updateItems, GameJs.checkLevelComplete,
      GameJs.levelComplete, GameJs.CONFIG.paddle.offsetBottom]
    split_ifs <;> rfl
  rw [hb, hs, b2, s2]
  exact h1

/-- The block loop of `game.js` skips destroyed blocks: the game and the ball it returns are
those it returns on the list without the destroyed blocks. -/
theorem gameJs_blockLoop_skips_destroyed {α : Type} [LinearOrderedField α] (H : Host α)
    (blocks : List (Block α)) (g : GameJs.Game α) (ball : Ball α) :
    (GameJs.blockLoop H blocks g ball).2 =
      (GameJs.blockLoop H (blocks.filter fun b => !b.destroyed) g ball).2 := by
  induction blocks with
  | nil => rfl
  | cons block rest ih =>
    by_cases hd : block.destroyed = true
    · have hf : ((block :: rest).filter fun b => !b.destroyed) =
          rest.filter fun b => !b.destroyed := by
        rw [List.filter_cons]
        simp [hd]
      rw [hf, ← ih, GameJs.blockLoop]
      dsimp only
      rw [if_pos hd]
    · have hf : ((block :: rest).filter fun b => !b.destroyed) =
          block :: rest.filter fun b => !b.destroyed := by
        rw [List.filter_cons]
        simp [hd]
      rw [hf, GameJs.blockLoop, GameJs.blockLoop]
      dsimp only
      rw [if_neg hd, if_neg hd]
      split_ifs <;> first | rfl | exact ih


/-! ### The component -/

/-- A block that is kept as it is in front of a `ScoreStep`. -/
theorem scoreStep_cons_same {α : Type} (b : Block α) {l l' : List (Block α)} {s s' : ℕ}
    (h : ScoreStep l s l' s') : ScoreStep (b :: l) s (b :: l') s' := by
  obtain ⟨f, e⟩ := h
  refine ⟨List.Forall₂.cons (blockStep_refl _) f, ?_⟩
  simp only [destroyedCount, List.countP_cons] at e ⊢
  omega

/-- A block that is destroyed, for ten points, in front of a `ScoreStep`. -/
theorem scoreStep_cons_destroy {α : Type} (b : Block α) (hd : ¬ b.destroyed = true)
    (hw : b.isWall = false) {l l' : List (Block α)} {s s' : ℕ}
    (h : ScoreStep l (s + 10) l' s') :
    ScoreStep (b :: l) s ({ b with destroyed := true } :: l') s' := by
  obtain ⟨f, e⟩ := h
  refine ⟨List.Forall₂.cons (blockStep_destroy _ hw) f, ?_⟩
  simp only [destroyedCount, List.countP_cons] at e ⊢
  simp [hd] at e ⊢
  omega

/-- The block loop of the component: the visited blocks and `scoreIncrease` make a
`ScoreStep`, and the field `blocks` of the game is not written. -/
theorem component_blockLoop_scoreStep {α : Type} [LinearOrderedField α] (H : Host α)
    (blocks : List (Block α)) (t : Component.Tick α) (ball : Ball α) :
    ScoreStep blocks t.scoreIncrease (Component.blockLoop H blocks t ball).1
        (Component.blockLoop H blocks t ball).2.1.scoreIncrease ∧
      (Component.blockLoop H blocks t ball).2.1.game.blocks = t.game.blocks := by
  induction blocks generalizing t ball with
  | nil => exact ⟨scoreStep_refl _ _, rfl⟩
  | cons block rest ih =>
    unfold Component.blockLoop
    dsimp only
    by_cases hd : block.destroyed = true
    · rw [if_pos hd]
      exact ⟨scoreStep_cons_same _ (ih _ _).1, (ih _ _).2⟩
    · rw [if_neg hd]
      split_ifs with hhit hw hdrop
      all_goals
        first
          | exact ⟨scoreStep_cons_same _ (ih _ _).1, (ih _ _).2⟩
          | exact ⟨scoreStep_cons_destroy _ hd (by simpa using hw) (ih _ _).1, (ih _ _).2⟩

/-- The block section of the component makes a `ScoreStep`. -/
theorem component_blockSection_scoreStep {α : Type} [LinearOrderedField α] (H : Host α)
    (t : Component.Tick α) (ball : Ball α) :
    ScoreStep t.game.blocks t.scoreIncrease (Component.blockSection H t ball).1.game.blocks
      (Component.blockSection H t ball).1.scoreIncrease :=
  (component_blockLoop_scoreStep H t.game.blocks t ball).1

/-- The paddle section of the component does not write `blocks`. -/
theorem component_paddleSection_blocks {α : Type} [LinearOrderedField α] (H : Host α)
    (g : Component.Game α) (ball : Ball α) (paddleY : α) :
    (Component.paddleSection H g ball paddleY).1.blocks = g.blocks := by
  unfold Component.paddleSection
  split_ifs <;> rfl

/-- The callback of the ball filter of the component makes a `ScoreStep`. -/
theorem component_ballCallback_scoreStep {α : Type} [LinearOrderedField α] (H : Host α)
    (canvasWidth canvasHeight paddleY : α) (t : Component.Tick α) (ball : Ball α) :
    ScoreStep t.game.blocks t.scoreIncrease
      (Component.ballCallback H canvasWidth canvasHeight paddleY t ball).1.game.blocks
      (Component.ballCallback H canvasWidth canvasHeight paddleY t ball).1.scoreIncrease := by
  unfold Component.ballCallback
  by_cases hatt : ball.attached = true
  · rw [if_pos hatt]
    exact scoreStep_refl _ _
  · rw [if_neg hatt]
    dsimp only
    have hb := component_paddleSection_blocks H t.game
      (Component.wallSection canvasWidth
        { ball with x := ball.x + ball.dx, y := ball.y + ball.dy }) paddleY
    have h := component_blockSection_scoreStep H
      { t with game := (Component.paddleSection H t.game
        (Component.wallSection canvasWidth
          { ball with x := ball.x + ball.dx, y := ball.y + ball.dy }) paddleY).1 }
      (Component.paddleSection H t.game
        (Component.wallSection canvasWidth
          { ball with x := ball.x + ball.dx, y := ball.y + ball.dy }) paddleY).2
    dsimp only at h
    rw [hb] at h
    split_ifs <;> exact h

/-- The ball filter of the component makes a `ScoreStep`. -/
theorem component_filterBalls_scoreStep {α : Type} [LinearOrderedField α] (H : Host α)
    (canvasWidth canvasHeight paddleY : α) (balls : List (Ball α)) (t : Component.Tick α) :
    ScoreStep t.game.blocks t.scoreIncrease
      (Component.filterBalls H canvasWidth canvasHeight paddleY t balls).1.game.blocks
      (Component.filterBalls H canvasWidth canvasHeight paddleY t balls).1.scoreIncrease := by
  induction balls generalizing t with
  | nil => exact scoreStep_refl _ _
  | cons ball rest ih =>
    unfold Component.filterBalls
    dsimp only
    exact scoreStep_trans (component_ballCallback_scoreStep H canvasWidth canvasHeight paddleY
      t ball) (ih (Component.ballCallback H canvasWidth canvasHeight paddleY t ball).1)

/-- JavaScript `handleItemPickup` does not write `blocks`. -/
theorem component_handleItemPickup_blocks {α : Type} [LinearOrderedField α] (H : Host α)
    (g : Component.Game α) (item : Item α) :
    (Component.handleItemPickup H g item).blocks = g.blocks := by
  unfold Component.handleItemPickup
  cases item.type <;> rfl

/-- The item filter of the component does not write `blocks`. -/
theorem component_filterItems_blocks {α : Type} [LinearOrderedField α] (H : Host α)
    (canvasHeight paddleY : α) (items : List (Item α)) (g : Component.Game α) :
    (Component.filterItems H canvasHeight paddleY g items).1.blocks = g.blocks := by
  induction items generalizing g with
  | nil => rfl
  | cons item rest ih =>
    unfold Component.filterItems
    dsimp only
    split_ifs
    · exact (ih _).trans (component_handleItemPickup_blocks H g _)
    · exact ih g
    · exact ih g

/-- The simulation part of one tick of the component makes a `ScoreStep` from the score
increase `0`. -/
theorem component_simulate_scoreStep {α : Type} [LinearOrderedField α] (H : Host α)
    (a : Component.App α) :
    ScoreStep a.game.blocks 0 (Component.simulate H a).game.blocks
      (Component.simulate H a).scoreIncrease := by
  have h := component_filterBalls_scoreStep H a.canvasWidth a.canvasHeight (a.canvasHeight - 35)
    a.game.balls { game := a.game, scoreIncrease := 0, livesChange := 0 }
  unfold Component.simulate
  dsimp only
  rw [component_filterItems_blocks]
  unfold Component.ballLoss
  dsimp only
  split_ifs <;> exact h

/-- One tick of the component adds `scoreIncrease` to the score. -/
theorem component_updateGame_score {α : Type} [LinearOrderedField α] (H : Host α)
    (a : Component.App α) :
    (Component.updateGame H a).score = a.score + (Component.simulate H a).scoreIncrease := by
  simp only [Component.updateGame, Component.checkLevelComplete, Component.setLives]
  split_ifs <;> first | rfl | (dsimp only; omega)

/-- One tick of the component makes a `ScoreStep`. -/
theorem component_updateGame_scoreStep {α : Type} [LinearOrderedField α] (H : Host α)
    (a : Component.App α) :
    ScoreStep a.game.blocks a.score (Component.updateGame H a).game.blocks
      (Component.updateGame H a).score := by
  obtain ⟨f, e⟩ := component_simulate_scoreStep H a
  rw [component_updateGame_score, (component_updateGame_game H a).1]
  exact ⟨f, by omega⟩

/-- The block loop of the component skips destroyed blocks: the variables of the tick and the
ball it returns are those it returns on the list without the destroyed blocks. -/
theorem component_blockLoop_skips_destroyed {α : Type} [LinearOrderedField α] (H : Host α)
    (blocks : List (Block α)) (t : Component.Tick α) (ball : Ball α) :
    (Component.blockLoop H blocks t ball).2 =
      (Component.blockLoop H (blocks.filter fun b => !b.destroyed) t ball).2 := by
  induction blocks generalizing t ball with
  | nil => rfl
  | cons block rest ih =>
    by_cases hd : block.destroyed = true
    · have hf : ((block :: rest).filter fun b => !b.destroyed) =
          rest.filter fun b => !b.destroyed := by
        rw [List.filter_cons]
        simp [hd]
      rw [hf, ← ih, Component.blockLoop]
      dsimp only
      rw [if_pos hd]
    · have hf : ((block :: rest).filter fun b => !b.destroyed) =
          block :: rest.filter fun b => !b.destroyed := by
        rw [List.filter_cons]
        simp [hd]
      rw [hf, Component.blockLoop, Component.blockLoop]
      dsimp only
      rw [if_neg hd, if_neg hd]
      split_ifs <;> exact ih _ _

/-- No block is newly destroyed when every block is a wall or already destroyed. -/
theorem newlyDestroyed_eq_zero {α : Type} {l l' : List (Block α)}
    (h : List.Forall₂ BlockStep l l')
    (hw : ∀ b ∈ l, b.isWall = true ∨ b.destroyed = true) : newlyDestroyed l l' = 0 := by
  induction h with
  | nil => rfl
  | @cons b b' rest rest' hb _ ih =>
    unfold newlyDestroyed at *
    rw [List.zip_cons_cons, List.countP_cons,
      ih (fun c hc => hw c (List.mem_cons_of_mem _ hc))]
    have h9 := hb.2.2.2.2.2.2.2.2
    rcases hw b (List.mem_cons_self _ _) with h | h
    · have := h9 h
      cases hd : b.destroyed <;> simp_all
    · simp [h]

/-- C12: over one tick (`update` of `game.js`, `updateGame` of the component), from every
state, the number of blocks is unchanged and every block is related to the block at the same
position afterwards by `BlockStep`: its `x`, `y`, `width`, `height`, `color`, `isWall` and
`hits` are unchanged, it is still destroyed if it was, and its `destroyed` flag is unchanged
if it is a wall.  A destroyed block is skipped by the block collision: the game (score
included) and the ball after the block loop are those of the loop run on the list without
the destroyed blocks. -/
theorem C12_blocks_change_only_by_destruction {α : Type} [LinearOrderedField α]
    (H : Host α) (g : GameJs.Game α) (a : Component.App α) :
    ((GameJs.update H g).blocks.length = g.blocks.length ∧
        List.Forall₂ BlockStep g.blocks (GameJs.update H g).blocks) ∧
      ((Component.updateGame H a).game.blocks.length = a.game.blocks.length ∧
        List.Forall₂ BlockStep a.game.blocks (Component.updateGame H a).game.blocks) ∧
      (∀ (blocks : List (Block α)) (g' : GameJs.Game α) (ball : Ball α),
        (GameJs.blockLoop H blocks g' ball).2 =
          (GameJs.blockLoop H (blocks.filter fun b => !b.destroyed) g' ball).2) ∧
      ∀ (blocks : List (Block α)) (t : Component.Tick α) (ball : Ball α),
        (Component.blockLoop H blocks t ball).2 =
          (Component.blockLoop H (blocks.filter fun b => !b.destroyed) t ball).2 :=
  ⟨⟨(gameJs_update_scoreStep H g).1.length_eq.symm, (gameJs_update_scoreStep H g).1⟩,
    ⟨(component_updateGame_scoreStep H a).1.length_eq.symm,
      (component_updateGame_scoreStep H a).1⟩,
    gameJs_blockLoop_skips_destroyed H, component_blockLoop_skips_destroyed H⟩

/-- C13: one tick (`update` of `game.js`, `updateGame` of the component), from every state,
adds to the score exactly `10` times the number of blocks whose `destroyed` flag went from
`false` to `true`; the score does not decrease; when every block is a wall or already
destroyed the score is unchanged; and a score that is a multiple of `10` (such as `0`) is a
multiple of `10` after any number of ticks. -/
theorem C13_score_grows_by_ten_per_destroyed_block {α : Type} [LinearOrderedField α]
    (H : Host α) (g : GameJs.Game α) (a : Component.App α) :
    (GameJs.update H g).score =
        g.score + 10 * newlyDestroyed g.blocks (GameJs.update H g).blocks ∧
      (Component.updateGame H a).score =
        a.score + 10 * newlyDestroyed a.game.blocks (Component.updateGame H a).game.blocks ∧
      g.score ≤ (GameJs.update H g).score ∧
      a.score ≤ (Component.updateGame H a).score ∧
      ((∀ b ∈ g.blocks, b.isWall = true ∨ b.destroyed = true) →
        (GameJs.update H g).score = g.score) ∧
      ((∀ b ∈ a.game.blocks, b.isWall = true ∨ b.destroyed = true) →
        (Component.updateGame H a).score = a.score) ∧
      (∀ n : ℕ, 10 ∣ g.score → 10 ∣ ((GameJs.update H)^[n] g).score) ∧
      ∀ n : ℕ, 10 ∣ a.score → 10 ∣ ((Component.updateGame H)^[n] a).score := by
  have hg : ∀ g : GameJs.Game α, (GameJs.update H g).score =
      g.score + 10 * newlyDestroyed g.blocks (GameJs.update H g).blocks :=
    fun g => scoreStep_score (gameJs_update_scoreStep H g)
  have ha : ∀ a : Component.App α, (Component.updateGame H a).score =
      a.score + 10 * newlyDestroyed a.game.blocks (Component.updateGame H a).game.blocks :=
    fun a => scoreStep_score (component_updateGame_scoreStep H a)
  refine ⟨hg g, ha a, by rw [hg g]; omega, by rw [ha a]; omega, ?_, ?_, ?_, ?_⟩
  · intro hw
    rw [hg g, newlyDestroyed_eq_zero (gameJs_update_scoreStep H g).1 hw]
    rfl
  · intro hw
    rw [ha a, newlyDestroyed_eq_zero (component_updateGame_scoreStep H a).1 hw]
    rfl
  · intro n h
    induction n with
    | zero => exact h
    | succ n ih =>
      rw [Function.iterate_succ_apply', hg]
      exact dvd_add ih (dvd_mul_right _ _)
  · intro n h
    induction n with
    | zero => exact h
    | succ n ih =>
      rw [Function.iterate_succ_apply', ha]
      exact dvd_add ih (dvd_mul_right _ _)

/-! ## The level layout -/

/-- Two nested loops over `n` rows and `m` columns push their elements in row-major order:
element `k` is the one of row `k / m` and column `k % m`. -/
theorem flatMap_range_map {β : Type} (f : ℕ → ℕ → β) (n m : ℕ) (hm : 0 < m) :
    ((List.range n).flatMap fun r => (List.range m).map (f r)) =
      (List.range (n * m)).map fun k => f (k / m) (k % m) := by
  induction n with
  | zero => simp
  | succ n ih =>
    rw [List.range_succ, List.flatMap_append, ih, List.flatMap_singleton, Nat.succ_mul,
      List.range_add, List.map_append, List.map_map]
    congr 1
    apply List.map_congr_left
    intro j hj
    rw [List.mem_range] at hj
    have h1 : (n * m + j) / m = n := by
      rw [Nat.mul_comm, Nat.mul_add_div hm, Nat.div_eq_of_lt hj]
      rfl
    have h2 : (n * m + j) % m = j := by
      rw [Nat.mul_comm, Nat.mul_add_mod, Nat.mod_eq_of_lt hj]
    simp only [Function.comp, h1, h2]

/-- Modifying one element by a function that keeps `key` keeps the keys of the list. -/
theorem map_modify_of_key {β γ : Type} (f : β → β) (key : β → γ) (h : ∀ b, key (f b) = key b)
    (n : ℕ) (l : List β) : (List.modify f n l).map key = l.map key := by
  induction l generalizing n with
  | nil => simp
  | cons b rest ih =>
    cases n with
    | zero => simp [h]
    | succ n => simp [ih]

/-- Modifying one element raises a count by at most one. -/
theorem countP_modify_le {β : Type} (p : β → Bool) (f : β → β) (n : ℕ) (l : List β) :
    (List.modify f n l).countP p ≤ l.countP p + 1 := by
  induction l generalizing n with
  | nil => simp
  | cons b rest ih =>
    cases n with
    | zero =>
      rw [List.modify_zero_cons, List.countP_cons, List.countP_cons]
      split_ifs <;> omega
    | succ n =>
      rw [List.modify_succ_cons, List.countP_cons, List.countP_cons]
      have := ih n
      omega

/-- The row count of a level, as a natural number. -/
theorem rows_toNat (level : ℕ) :
    (min ((10 : Int) + ((level / 2 : ℕ) : Int)) 12).toNat = min (10 + level / 2) 12 := by
  omega

/-- The grid of `game.js` in row-major form. -/
theorem gameJs_gridBlocks_eq {α : Type} [LinearOrderedField α] (canvasWidth : α)
    (actualRows : Int) :
    GameJs.gridBlocks canvasWidth actualRows =
      (List.range (actualRows.toNat * 12)).map fun (k : ℕ) =>
        { x := (canvasWidth - ((12 : ℕ) * 36 + (((12 : ℕ) : α) - 1) * 3)) / 2 +
            (((k % 12 : ℕ) : ℕ) : α) * (36 + 3)
          y := 60 + (((k / 12 : ℕ) : ℕ) : α) * (16 + 3)
          width := 36
          height := 16
          color := GameJs.CONFIG.colors.blocks.getD (k / 12 % GameJs.CONFIG.colors.blocks.length) ""
          destroyed := false
          isWall := false
          hits := 1 } := by
  unfold GameJs.gridBlocks
  exact flatMap_range_map _ _ 12 (by decide)

/-- The grid of the component in row-major form. -/
theorem component_gridBlocks_eq {α : Type} [LinearOrderedField α] (canvasWidth : α)
    (rows : Int) :
    Component.gridBlocks canvasWidth rows =
      (List.range (rows.toNat * 12)).map fun (k : ℕ) =>
        { x := (canvasWidth - ((12 : ℕ) * 36 + (((12 : ℕ) : α) - 1) * 3)) / 2 +
            (((k % 12 : ℕ) : ℕ) : α) * (36 + 3)
          y := 60 + (((k / 12 : ℕ) : ℕ) : α) * (16 + 3)
          width := 36
          height := 16
          color := Component.COLORS.blocks.getD (k / 12 % Component.COLORS.blocks.length) ""
          destroyed := false
          isWall := false
          hits := 1 } := by
  unfold Component.gridBlocks
  exact flatMap_range_map _ _ 12 (by decide)


/-- JavaScript `markWall` of `game.js` keeps the number of blocks and their position, size and
`destroyed` flag, and adds at most one wall. -/
theorem gameJs_markWall_spec {α : Type} [LinearOrderedField α] (blocks : List (Block α))
    (blockIndex : Int) :
    (GameJs.markWall blocks blockIndex).length = blocks.length ∧
      ((GameJs.markWall blocks blockIndex).map fun b =>
          (b.x, b.y, b.width, b.height, b.destroyed)) =
        (blocks.map fun b => (b.x, b.y, b.width, b.height, b.destroyed)) ∧
      (GameJs.markWall blocks blockIndex).countP (fun b => b.isWall) ≤
        blocks.countP (fun b => b.isWall) + 1 := by
  unfold GameJs.markWall
  split_ifs
  · refine ⟨List.length_modify _ _ _, ?_, countP_modify_le _ _ _ _⟩
    apply map_modify_of_key
    intro b
    rfl
  · exact ⟨rfl, rfl, Nat.le_succ _⟩

/-- The wall loop of `game.js` with `n` rounds keeps the number of blocks and their position,
size and `destroyed` flag, and adds at most `n` walls. -/
theorem gameJs_wallLoop_spec {α : Type} [LinearOrderedField α] [FloorRing α] (H : Host α)
    (actualRows : Int) (n rng : ℕ) (used : List (Int × Int)) (blocks : List (Block α)) :
    (GameJs.wallLoop H actualRows n rng used blocks).1.length = blocks.length ∧
      ((GameJs.wallLoop H actualRows n rng used blocks).1.map fun b =>
          (b.x, b.y, b.width, b.height, b.destroyed)) =
        (blocks.map fun b => (b.x, b.y, b.width, b.height, b.destroyed)) ∧
      (GameJs.wallLoop H actualRows n rng used blocks).1.countP (fun b => b.isWall) ≤
        blocks.countP (fun b => b.isWall) + n := by
  induction n generalizing rng used blocks with
  | zero => exact ⟨rfl, rfl, Nat.le_refl _⟩
  | succ n ih =>
    unfold GameJs.wallLoop
    dsimp only
    split_ifs
    · obtain ⟨h1, h2, h3⟩ := ih (rng + 2) used blocks
      exact ⟨h1, h2, by omega⟩
    · obtain ⟨h1, h2, h3⟩ := ih (rng + 2) _ (GameJs.markWall blocks _)
      obtain ⟨m1, m2, m3⟩ := gameJs_markWall_spec blocks
        (GameJs.randomInt (H.random rng) 2 (min (actualRows - 2) 6) *
          ((GameJs.CONFIG.block.cols : ℕ) : Int) +
          GameJs.randomInt (H.random (rng + 1)) 1 (((GameJs.CONFIG.block.cols : ℕ) : Int) - 2))
      exact ⟨h1.trans m1, h2.trans m2, by omega⟩

/-- JavaScript `markWall` of the component keeps the number of blocks and their position, size and
`destroyed` flag, and adds at most one wall. -/
theorem component_markWall_spec {α : Type} [LinearOrderedField α] (blocks : List (Block α))
    (blockIndex : Int) :
    (Component.markWall blocks blockIndex).length = blocks.length ∧
      ((Component.markWall blocks blockIndex).map fun b =>
          (b.x, b.y, b.width, b.height, b.destroyed)) =
        (blocks.map fun b => (b.x, b.y, b.width, b.height, b.destroyed)) ∧
      (Component.markWall blocks blockIndex).countP (fun b => b.isWall) ≤
        blocks.countP (fun b => b.isWall) + 1 := by
  unfold Component.markWall
  split_ifs
  · refine ⟨List.length_modify _ _ _, ?_, countP_modify_le _ _ _ _⟩
    apply map_modify_of_key
    intro b
    rfl
  · exact ⟨rfl, rfl, Nat.le_succ _⟩

/-- The wall loop of the component with `n` rounds keeps the number of blocks and their
position, size and `destroyed` flag, and adds at most `n` walls. -/
theorem component_wallLoop_spec {α : Type} [LinearOrderedField α] [FloorRing α] (H : Host α)
    (rows : Int) (n rng : ℕ) (used : List (Int × Int)) (blocks : List (Block α)) :
    (Component.wallLoop H rows n rng used blocks).1.length = blocks.length ∧
      ((Component.wallLoop H rows n rng used blocks).1.map fun b =>
          (b.x, b.y, b.width, b.height, b.destroyed)) =
        (blocks.map fun b => (b.x, b.y, b.width, b.height, b.destroyed)) ∧
      (Component.wallLoop H rows n rng used blocks).1.countP (fun b => b.isWall) ≤
        blocks.countP (fun b => b.isWall) + n := by
  induction n generalizing rng used blocks with
  | zero => exact ⟨rfl, rfl, Nat.le_refl _⟩
  | succ n ih =>
    unfold Component.wallLoop
    dsimp only
    split_ifs
    · obtain ⟨h1, h2, h3⟩ := ih (rng + 2) _ (Component.markWall blocks _)
      obtain ⟨m1, m2, m3⟩ := component_markWall_spec blocks
        ((⌊H.random rng * ((min (rows - 2) 6 : Int) : α)⌋ + 2) *
          ((Component.BLOCK_COLS : ℕ) : Int) +
          (⌊H.random (rng + 1) * ((((Component.BLOCK_COLS : ℕ) : Int) - 2 : Int) : α)⌋ + 1))
      exact ⟨h1.trans m1, h2.trans m2, by omega⟩
    · obtain ⟨h1, h2, h3⟩ := ih (rng + 2) used blocks
      exact ⟨h1, h2, by omega⟩

/-- The grid has no wall, in both implementations. -/
theorem gridBlocks_countP_isWall {α : Type} [LinearOrderedField α] (canvasWidth : α)
    (rows : Int) :
    (GameJs.gridBlocks canvasWidth rows).countP (fun b => b.isWall) = 0 ∧
      (Component.gridBlocks canvasWidth rows).countP (fun b => b.isWall) = 0 := by
  rw [gameJs_gridBlocks_eq, component_gridBlocks_eq]
  constructor <;>
  · rw [List.countP_eq_zero]
    intro b hb
    obtain ⟨k, -, rfl⟩ := List.mem_map.1 hb
    simp

/-- The position, size and `destroyed` flag of block `k` of the grid, in both
implementations. -/
theorem gridBlocks_getElem? {α : Type} [LinearOrderedField α] (canvasWidth : α) (rows : Int)
    (k : ℕ) (hk : k < rows.toNat * 12) :
    (((GameJs.gridBlocks canvasWidth rows).map fun b =>
        (b.x, b.y, b.width, b.height, b.destroyed))[k]? =
      some ((canvasWidth - 465) / 2 + (((k % 12 : ℕ) : ℕ) : α) * 39,
        60 + (((k / 12 : ℕ) : ℕ) : α) * 19, 36, 16, false)) ∧
      (((Component.gridBlocks canvasWidth rows).map fun b =>
        (b.x, b.y, b.width, b.height, b.destroyed))[k]? =
      some ((canvasWidth - 465) / 2 + (((k % 12 : ℕ) : ℕ) : α) * 39,
        60 + (((k / 12 : ℕ) : ℕ) : α) * 19, 36, 16, false)) := by
  rw [gameJs_gridBlocks_eq, component_gridBlocks_eq]
  constructor <;>
  · rw [List.getElem?_map, List.getElem?_map, List.getElem?_range hk]
    simp only [Option.map_some']
    norm_num

/-- C14: for every level, canvas width and sequence of draws, the layout generator
(`createBlocks` of `game.js`, `initBlocks` of the component) returns exactly
`12 · min(10 + ⌊level / 2⌋, 12)` blocks; block `k` is the one of row `k / 12` and column
`k % 12` (row-major order): it is at `((canvasWidth - 465) / 2 + 39 (k % 12),
60 + 19 (k / 12))`, has size `36 × 16` and `destroyed = false`; and at most
`min(3 + level, 8)` blocks are walls.  For level `1` that is `120` blocks and at most `4`
walls. -/
theorem C14_layout_size_order_and_wall_count {α : Type} [LinearOrderedField α] [FloorRing α]
    (H : Host α) (g : GameJs.Game α) (rng : ℕ) (canvasWidth : α) (level : ℕ) :
    ((GameJs.createBlocks H g level).1.length = 12 * min (10 + level / 2) 12 ∧
      (∀ k < 12 * min (10 + level / 2) 12,
        ((GameJs.createBlocks H g level).1.map fun b =>
            (b.x, b.y, b.width, b.height, b.destroyed))[k]? =
          some ((g.canvasWidth - 465) / 2 + (((k % 12 : ℕ) : ℕ) : α) * 39,
            60 + (((k / 12 : ℕ) : ℕ) : α) * 19, 36, 16, false)) ∧
      (GameJs.createBlocks H g level).1.countP (fun b => b.isWall) ≤ min (3 + level) 8) ∧
    ((Component.initBlocks H rng level canvasWidth).1.length = 12 * min (10 + level / 2) 12 ∧
      (∀ k < 12 * min (10 + level / 2) 12,
        ((Component.initBlocks H rng level canvasWidth).1.map fun b =>
            (b.x, b.y, b.width, b.height, b.destroyed))[k]? =
          some ((canvasWidth - 465) / 2 + (((k % 12 : ℕ) : ℕ) : α) * 39,
            60 + (((k / 12 : ℕ) : ℕ) : α) * 19, 36, 16, false)) ∧
      (Component.initBlocks H rng level canvasWidth).1.countP (fun b => b.isWall) ≤
        min (3 + level) 8) ∧
    (level = 1 →
      (GameJs.createBlocks H g level).1.length = 120 ∧
        (GameJs.createBlocks H g level).1.countP (fun b => b.isWall) ≤ 4 ∧
        (Component.initBlocks H rng level canvasWidth).1.length = 120 ∧
        (Component.initBlocks H rng level canvasWidth).1.countP (fun b => b.isWall) ≤ 4) := by
  have hrows := rows_toNat level
  obtain ⟨g1, g2, g3⟩ := gameJs_wallLoop_spec H
    (min (GameJs.CONFIG.block.rows + ((level / 2 : ℕ) : Int)) 12) (min (3 + level) 8) g.rng []
    (GameJs.gridBlocks g.canvasWidth (min (GameJs.CONFIG.block.rows + ((level / 2 : ℕ) : Int)) 12))
  obtain ⟨c1, c2, c3⟩ := component_wallLoop_spec H
    (min (Component.BLOCK_ROWS + ((level / 2 : ℕ) : Int)) 12) (min (3 + level) 8) rng []
    (Component.gridBlocks canvasWidth (min (Component.BLOCK_ROWS + ((level / 2 : ℕ) : Int)) 12))
  have hlenG : (GameJs.gridBlocks g.canvasWidth
      (min (GameJs.CONFIG.block.rows + ((level / 2 : ℕ) : Int)) 12)).length =
      12 * min (10 + level / 2) 12 := by
    rw [gameJs_gridBlocks_eq, List.length_map, List.length_range]
    unfold GameJs.CONFIG.block.rows
    rw [hrows, Nat.mul_comm]
  have hlenC : (Component.gridBlocks canvasWidth
      (min (Component.BLOCK_ROWS + ((level / 2 : ℕ) : Int)) 12)).length =
      12 * min (10 + level / 2) 12 := by
    rw [component_gridBlocks_eq, List.length_map, List.length_range]
    unfold Component.BLOCK_ROWS
    rw [hrows, Nat.mul_comm]
  have hwG := (gridBlocks_countP_isWall g.canvasWidth
    (min (GameJs.CONFIG.block.rows + ((level / 2 : ℕ) : Int)) 12)).1
  have hwC := (gridBlocks_countP_isWall canvasWidth
    (min (Component.BLOCK_ROWS + ((level / 2 : ℕ) : Int)) 12)).2
  rw [hwG, Nat.zero_add] at g3
  rw [hwC, Nat.zero_add] at c3
  have G1 : (GameJs.createBlocks H g level).1.length = 12 * min (10 + level / 2) 12 :=
    g1.trans hlenG
  have C1 : (Component.initBlocks H rng level canvasWidth).1.length =
      12 * min (10 + level / 2) 12 := c1.trans hlenC
  have G3 : (GameJs.createBlocks H g level).1.countP (fun b => b.isWall) ≤ min (3 + level) 8 :=
    g3
  have C3 : (Component.initBlocks H rng level canvasWidth).1.countP (fun b => b.isWall) ≤
      min (3 + level) 8 := c3
  refine ⟨⟨G1, ?_, G3⟩, ⟨C1, ?_, C3⟩, ?_⟩
  · intro k hk
    have hk' : k < (min (GameJs.CONFIG.block.rows + ((level / 2 : ℕ) : Int)) 12).toNat * 12 := by
      unfold GameJs.CONFIG.block.rows
      rw [hrows]
      omega
    have := (gridBlocks_getElem? g.canvasWidth _ k hk').1
    rw [← g2] at this
    exact this
  · intro k hk
    have hk' : k < (min (Component.BLOCK_ROWS + ((level / 2 : ℕ) : Int)) 12).toNat * 12 := by
      unfold Component.BLOCK_ROWS
      rw [hrows]
      omega
    have := (gridBlocks_getElem? canvasWidth _ k hk').2
    rw [← c2] at this
    exact this
  · intro hl
    subst hl
    have e1 : 12 * min (10 + 1 / 2) 12 = 120 := by decide
    have e2 : min (3 + 1) 8 = 4 := by decide
    exact ⟨G1.trans e1, e2 ▸ G3, C1.trans e1, e2 ▸ C3⟩

/-! ## Where the walls are placed -/

/-- JavaScript `randomInt(lo, hi)` of `game.js` returns an integer in `lo..hi` for a draw in `[0, 1)`. -/
theorem gameJs_randomInt_bounds {α : Type} [LinearOrderedField α] [FloorRing α] (u : α)
    (h0 : 0 ≤ u) (h1 : u < 1) (lo hi : Int) (h : lo ≤ hi) :
    lo ≤ GameJs.randomInt u lo hi ∧ GameJs.randomInt u lo hi ≤ hi := by
  unfold GameJs.randomInt
  have hpos : (0 : α) < ((hi - lo + 1 : Int) : α) := by
    have : (0 : Int) < hi - lo + 1 := by omega
    exact_mod_cast this
  have hnn : 0 ≤ ⌊u * ((hi - lo + 1 : Int) : α)⌋ :=
    Int.floor_nonneg.2 (mul_nonneg h0 hpos.le)
  have hlt : ⌊u * ((hi - lo + 1 : Int) : α)⌋ < hi - lo + 1 := by
    rw [Int.floor_lt]
    calc u * ((hi - lo + 1 : Int) : α) < 1 * ((hi - lo + 1 : Int) : α) :=
          mul_lt_mul_of_pos_right h1 hpos
      _ = ((hi - lo + 1 : Int) : α) := one_mul _
  constructor <;> omega

/-- A wall of the list after `markWall` of `game.js` was a wall before, or is the block at
`blockIndex`. -/
theorem gameJs_markWall_walls {α : Type} [LinearOrderedField α] (blocks : List (Block α))
    (blockIndex : Int) (k : ℕ) (b : Block α)
    (hk : (GameJs.markWall blocks blockIndex)[k]? = some b) (hw : b.isWall = true) :
    (∃ b0, blocks[k]? = some b0 ∧ b0.isWall = true) ∨ k = blockIndex.toNat := by
  unfold GameJs.markWall at hk
  split_ifs at hk
  · rw [List.getElem?_modify] at hk
    cases hb : blocks[k]? with
    | none => rw [hb] at hk; cases hk
    | some b0 =>
      rw [hb] at hk
      by_cases hi : blockIndex.toNat = k
      · exact Or.inr hi.symm
      · simp only [Option.map_eq_map, Option.map_some', if_neg hi, Option.some.injEq] at hk
        exact Or.inl ⟨b0, rfl, hk ▸ hw⟩
  · exact Or.inl ⟨b, hk, hw⟩

/-- A wall of the list after the wall loop of `game.js` was a wall before, or lies in a row
`2..min(actualRows - 2, 6)` and a column `1..10`. -/
theorem gameJs_wallLoop_walls {α : Type} [LinearOrderedField α] [FloorRing α] (H : Host α)
    (actualRows : Int) (hrows : 4 ≤ actualRows) (n rng : ℕ) (used : List (Int × Int))
    (blocks : List (Block α)) (k : ℕ) (b : Block α)
    (hk : (GameJs.wallLoop H actualRows n rng used blocks).1[k]? = some b)
    (hw : b.isWall = true) :
    (∃ b0, blocks[k]? = some b0 ∧ b0.isWall = true) ∨
      (2 ≤ k / 12 ∧ ((k / 12 : ℕ) : Int) ≤ min (actualRows - 2) 6 ∧ 1 ≤ k % 12 ∧
        k % 12 ≤ 10) := by
  induction n generalizing rng used blocks with
  | zero => exact Or.inl ⟨b, hk, hw⟩
  | succ n ih =>
    unfold GameJs.wallLoop at hk
    dsimp only at hk
    obtain ⟨r1, r2⟩ := gameJs_randomInt_bounds (H.random rng) (H.random_mem rng).1
      (H.random_mem rng).2 2 (min (actualRows - 2) 6) (by omega)
    obtain ⟨c1, c2⟩ := gameJs_randomInt_bounds (H.random (rng + 1)) (H.random_mem (rng + 1)).1
      (H.random_mem (rng + 1)).2 1 (((GameJs.CONFIG.block.cols : ℕ) : Int) - 2)
      (by unfold GameJs.CONFIG.block.cols; omega)
    split_ifs at hk
    · exact ih _ _ _ hk
    · rcases ih _ _ _ hk with ⟨b1, hb1, hw1⟩ | h
      · rcases gameJs_markWall_walls _ _ k b1 hb1 hw1 with h0 | h0
        · exact Or.inl h0
        · right
          unfold GameJs.CONFIG.block.cols at h0 c1 c2
          generalize GameJs.randomInt (H.random rng) 2 (min (actualRows - 2) 6) = row at *
          generalize GameJs.randomInt (H.random (rng + 1)) 1 (((12 : ℕ) : Int) - 2) = col at *
          omega
      · exact Or.inr h

/-- Every wall placed by `createBlocks` of `game.js`, for every level and every sequence of
draws, lies in a row `2..6` (`min(rows - 2, 6) = 6` since `rows ≥ 10`) and a column
`1..10`. -/
theorem gameJs_createBlocks_wall_positions {α : Type} [LinearOrderedField α] [FloorRing α]
    (H : Host α) (g : GameJs.Game α) (level k : ℕ) (b : Block α)
    (hk : (GameJs.createBlocks H g level).1[k]? = some b) (hw : b.isWall = true) :
    2 ≤ k / 12 ∧ k / 12 ≤ 6 ∧ 1 ≤ k % 12 ∧ k % 12 ≤ 10 := by
  unfold GameJs.createBlocks at hk
  dsimp only at hk
  have hrows : (4 : Int) ≤ min (GameJs.CONFIG.block.rows + ((level / 2 : ℕ) : Int)) 12 := by
    unfold GameJs.CONFIG.block.rows
    omega
  rcases gameJs_wallLoop_walls H _ hrows _ _ _ _ k b hk hw with ⟨b0, hb0, hw0⟩ | h
  · exfalso
    rw [gameJs_gridBlocks_eq, List.getElem?_map] at hb0
    cases hr : (List.range
      ((min (GameJs.CONFIG.block.rows + ((level / 2 : ℕ) : Int)) 12).toNat * 12))[k]? with
    | none => rw [hr] at hb0; cases hb0
    | some j =>
      rw [hr] at hb0
      simp only [Option.map_some', Option.some.injEq] at hb0
      rw [← hb0] at hw0
      cases hw0
  · obtain ⟨h1, h2, h3, h4⟩ := h
    refine ⟨h1, ?_, h3, h4⟩
    omega


/-- With every draw `0.9`, the wall loop of the component for ten rows marks the block of
index `7 · 12 + 10 = 94` in its first round and finds that position taken in the others. -/
theorem component_wallLoop_high (blocks : List (Block ℝ)) :
    (Component.wallLoop highHost 10 4 0 [] blocks).1 = Component.markWall blocks 94 := by
  have hrow : ⌊(0.9 : ℝ) * (((min (10 - 2) 6 : Int) : Int) : ℝ)⌋ = 5 := by
    norm_num [Int.floor_eq_iff]
  have hcol : ⌊(0.9 : ℝ) * ((((((12 : ℕ) : Int)) - 2 : Int) : Int) : ℝ)⌋ = 9 := by
    norm_num [Int.floor_eq_iff]
  simp only [Component.wallLoop, highHost, Component.BLOCK_COLS, hrow, hcol]
  simp

/-- With every draw `0.9`, the wall loop of `game.js` for ten rows marks the block of index
`6 · 12 + 10 = 82` in its first round and finds that position taken in the others. -/
theorem gameJs_wallLoop_high (blocks : List (Block ℝ)) :
    (GameJs.wallLoop highHost 10 4 0 [] blocks).1 = GameJs.markWall blocks 82 := by
  have hrow : GameJs.randomInt (0.9 : ℝ) 2 (min (10 - 2) 6) = 6 := by
    norm_num [GameJs.randomInt, Int.floor_eq_iff]
  have hcol : GameJs.randomInt (0.9 : ℝ) 1 (((12 : ℕ) : Int) - 2) = 10 := by
    norm_num [GameJs.randomInt, Int.floor_eq_iff]
  simp only [GameJs.wallLoop, highHost, GameJs.CONFIG.block.cols, hrow, hcol]
  simp


/-- C15 (the code at the failing input): for level `1` on a canvas of width `480`, with every
draw `0.9`, `initBlocks` of the component makes a wall of the block of index `94`, which is in
row `94 / 12 = 7` (at `y = 60 + 7 · 19 = 193`) and column `10`, outside the rows
`2..min(rows - 2, 6) = 2..6`; with the same draws `createBlocks` of `game.js` leaves that block
a normal one and makes a wall of the block of index `82`, in row `6`. -/
theorem C15_component_places_wall_in_row_seven :
    ((Component.initBlocks highHost 0 1 480).1.map fun b => (b.y, b.isWall))[94]? =
        some (193, true) ∧
      94 / 12 = 7 ∧ 94 % 12 = 10 ∧ min ((10 : Int) - 2) 6 = 6 ∧
      ((GameJs.createBlocks highHost (Example.emptyGame : GameJs.Game ℝ) 1).1.map fun b =>
          (b.y, b.isWall))[94]? = some (193, false) ∧
      ((GameJs.createBlocks highHost (Example.emptyGame : GameJs.Game ℝ) 1).1.map fun b =>
          (b.y, b.isWall))[82]? = some (174, true) := by
  have hrows : min (Component.BLOCK_ROWS + (((1 / 2 : ℕ) : ℕ) : Int)) 12 = 10 := by decide
  have hrows' : min (GameJs.CONFIG.block.rows + (((1 / 2 : ℕ) : ℕ) : Int)) 12 = 10 := by decide
  have hcount : min (3 + 1) 8 = 4 := by decide
  have hC : (Component.initBlocks highHost 0 1 480).1 =
      Component.markWall (Component.gridBlocks 480 10) 94 := by
    unfold Component.initBlocks
    dsimp only
    rw [hrows, hcount, component_wallLoop_high]
  have hG : (GameJs.createBlocks highHost (Example.emptyGame : GameJs.Game ℝ) 1).1 =
      GameJs.markWall (GameJs.gridBlocks 480 10) 82 := by
    unfold GameJs.createBlocks
    dsimp only
    rw [hrows', hcount]
    exact gameJs_wallLoop_high _
  have hlenC : (Component.gridBlocks (480 : ℝ) 10).length = 120 := by
    rw [component_gridBlocks_eq, List.length_map, List.length_range]
    rfl
  have hlenG : (GameJs.gridBlocks (480 : ℝ) 10).length = 120 := by
    rw [gameJs_gridBlocks_eq, List.length_map, List.length_range]
    rfl
  have r94 : (List.range ((10 : Int).toNat * 12))[94]? = some 94 :=
    List.getElem?_range (by decide)
  have r82 : (List.range ((10 : Int).toNat * 12))[82]? = some 82 :=
    List.getElem?_range (by decide)
  have t94 : Int.toNat 94 = 94 := rfl
  have t82 : Int.toNat 82 = 82 := rfl
  refine ⟨?_, by decide, by decide, by decide, ?_, ?_⟩
  · rw [hC, Component.markWall, if_pos (by rw [hlenC]; decide), List.getElem?_map,
      List.getElem?_modify, component_gridBlocks_eq, List.getElem?_map, r94]
    norm_num [t94, t82]
  · rw [hG, GameJs.markWall, if_pos (by rw [hlenG]; decide), List.getElem?_map,
      List.getElem?_modify, gameJs_gridBlocks_eq, List.getElem?_map, r94]
    norm_num [t94, t82]
  · rw [hG, GameJs.markWall, if_pos (by rw [hlenG]; decide), List.getElem?_map,
      List.getElem?_modify, gameJs_gridBlocks_eq, List.getElem?_map, r82]
    norm_num [t94, t82]

/-! ## Particles -/

/-- The particle update of `utils.js` (with its default gravity `0.1`) and the particle
filter of the component are the update of the specification. -/
theorem updateParticles_utils_component_eq_spec {α : Type} [LinearOrderedField α]
    (particles : List (Particle α)) :
    Utils.updateParticles particles 0.1 = updateParticlesSpec particles ∧
      Component.updateParticles particles = updateParticlesSpec particles := by
  induction particles with
  | nil => exact ⟨rfl, rfl⟩
  | cons p rest ih =>
    obtain ⟨ih1, ih2⟩ := ih
    have hlife : p.life - 1 > 0 ↔ p.life > 1 := by omega
    simp only [Utils.updateParticles, Utils.updateParticle, Component.updateParticles,
      updateParticlesSpec, List.filterMap_cons, List.filter_cons] at ih1 ih2 ⊢
    by_cases h : p.life > 1
    · have h' : p.life - 1 > 0 := hlife.2 h
      simp only [h, h', decide_True, if_true, List.map_cons, ih1, ih2, agedParticle, and_self]
    · have h' : ¬ p.life - 1 > 0 := fun c => h (hlife.1 c)
      simp only [h, h', decide_False, if_false, ih1, ih2, Bool.false_eq_true, and_self]

/-- The particle update of `game.js` changes `life` only. -/
theorem gameJs_updateParticles_eq {α : Type} (particles : List (Particle α)) :
    GameJs.updateParticles particles =
      (particles.filter fun p => decide (p.life > 1)).map
        fun p => { p with life := p.life - 1 } := by
  induction particles with
  | nil => rfl
  | cons p rest ih =>
    have hlife : p.life - 1 > 0 ↔ p.life > 1 := by omega
    simp only [GameJs.updateParticles, List.filterMap_cons, List.filter_cons] at ih ⊢
    by_cases h : p.life > 1
    · have h' : p.life - 1 > 0 := hlife.2 h
      simp only [h, h', decide_True, if_true, List.map_cons, ih]
    · have h' : ¬ p.life - 1 > 0 := fun c => h (hlife.1 c)
      simp only [h, h', decide_False, if_false, ih, Bool.false_eq_true]

/-- C17 (the code at the failing input): for a particle at `(0, 0)` with velocity `(1, 1)`
and `life = 30`, the update of `utils.js` and the particle filter of the component return
the particle at `(1, 1)` with `dy = 1.1` and `life = 29`, as the specification says; the
`updateParticles` of `game.js`, which `update()` calls, returns it at `(0, 0)` with
`dy = 1`: only `life` is decremented. -/
theorem C17_gameJs_updateParticles_does_not_move :
    updateParticlesSpec [(Example.movingParticle : Particle ℚ)] =
      [{ x := 1, y := 1, dx := 1, dy := 1.1, life := 29, maxLife := 30, color := "#fbbf24" }] ∧
    Utils.updateParticles [(Example.movingParticle : Particle ℚ)] 0.1 =
      [{ x := 1, y := 1, dx := 1, dy := 1.1, life := 29, maxLife := 30, color := "#fbbf24" }] ∧
    Component.updateParticles [(Example.movingParticle : Particle ℚ)] =
      [{ x := 1, y := 1, dx := 1, dy := 1.1, life := 29, maxLife := 30, color := "#fbbf24" }] ∧
    GameJs.updateParticles [(Example.movingParticle : Particle ℚ)] =
      [{ x := 0, y := 0, dx := 1, dy := 1, life := 29, maxLife := 30, color := "#fbbf24" }] ∧
    GameJs.updateParticles [(Example.movingParticle : Particle ℚ)] ≠
      updateParticlesSpec [(Example.movingParticle : Particle ℚ)] := by
  rw [(updateParticles_utils_component_eq_spec _).1, (updateParticles_utils_component_eq_spec _).2,
    gameJs_updateParticles_eq]
  norm_num [updateParticlesSpec, agedParticle, Example.movingParticle]

/-! ## Launching the attached ball -/

/-- The function `launchFirst` of `game.js` rewrites the first attached ball and nothing
else. -/
theorem gameJs_launchFirst_spec {α : Type} [LinearOrderedField α] (u : α)
    (balls : List (Ball α)) (h : ∃ b ∈ balls, b.attached = true) :
    ∃ pre b post, balls = pre ++ b :: post ∧ (∀ p ∈ pre, p.attached = false) ∧
      b.attached = true ∧
      GameJs.launchFirst u balls =
        pre ++ { b with attached := false, dx := (u - 0.5) * 3, dy := -5 } :: post := by
  induction balls with
  | nil => obtain ⟨b, hb, -⟩ := h; exact absurd hb (List.not_mem_nil _)
  | cons c rest ih =>
    by_cases hc : c.attached = true
    · refine ⟨[], c, rest, rfl, fun p hp => absurd hp (List.not_mem_nil _), hc, ?_⟩
      rw [GameJs.launchFirst, if_pos hc]
      rfl
    · have hrest : ∃ b ∈ rest, b.attached = true := by
        obtain ⟨b, hb, hba⟩ := h
        rcases List.mem_cons.1 hb with rfl | hb'
        · exact absurd hba hc
        · exact ⟨b, hb', hba⟩
      obtain ⟨pre, b, post, h1, h2, h3, h4⟩ := ih hrest
      refine ⟨c :: pre, b, post, by rw [h1]; rfl, ?_, h3, ?_⟩
      · intro p hp
        rcases List.mem_cons.1 hp with rfl | hp'
        · simpa using hc
        · exact h2 p hp'
      · rw [GameJs.launchFirst, if_neg hc, h4]
        rfl

/-- The functions `launchFirst` of the two implementations agree. -/
theorem component_launchFirst_eq {α : Type} [LinearOrderedField α] (u : α)
    (balls : List (Ball α)) : Component.launchFirst u balls = GameJs.launchFirst u balls := by
  induction balls with
  | nil => rfl
  | cons c rest ih =>
    rw [Component.launchFirst, GameJs.launchFirst, ih]
    rfl

/-- The launch velocity `((u - 0.5) · 3, -5)` for a draw `u` in `[0, 1)`: its squared
magnitude is `25 + 9 (u - 0.5)²`, between `25` and `27.25`, and `25` only at `u = 0.5`. -/
theorem launch_velocity_bounds {α : Type} [LinearOrderedField α] (u : α) (h0 : 0 ≤ u)
    (h1 : u < 1) :
    -(3 / 2) ≤ (u - 0.5) * 3 ∧ (u - 0.5) * 3 < 3 / 2 ∧
      25 ≤ (u - 0.5) * 3 * ((u - 0.5) * 3) + -5 * -5 ∧
      (u - 0.5) * 3 * ((u - 0.5) * 3) + -5 * -5 ≤ 27.25 ∧
      ((u - 0.5) * 3 * ((u - 0.5) * 3) + -5 * -5 = 25 ↔ u = 0.5) := by
  have e : (0.5 : α) = 1 / 2 := by norm_num
  have e2 : (27.25 : α) = 109 / 4 := by norm_num
  rw [e, e2]
  refine ⟨by linarith, by linarith, by nlinarith [sq_nonneg (u - 1 / 2)], by nlinarith, ?_⟩
  constructor
  · intro h
    have : (u - 1 / 2) * (u - 1 / 2) = 0 := by linarith
    have := mul_self_eq_zero.1 this
    linarith
  · intro h
    rw [h]
    ring


/-- C18, as stated, fails: with the draw `u = 0.9` a click on the playing state
`Example.splitGame` (one free and one attached ball) launches the attached ball with velocity
`(1.2, -5)`, in `game.js` and in the component, and the magnitude `sqrt(1.2² + 5²)` of that
velocity is not the base ball speed `5`. -/
theorem C18_counterexample_launch_speed_not_five :
    (GameJs.handleClick highHost Example.splitGame).balls =
        [{ x := 100, y := 300, dx := 3, dy := 4, attached := false },
         { x := 240, y := 597, dx := 1.2, dy := -5, attached := false }] ∧
      (Component.handleClick highHost Example.splitApp).game.balls =
        [{ x := 100, y := 300, dx := 3, dy := 4, attached := false },
         { x := 240, y := 597, dx := 1.2, dy := -5, attached := false }] ∧
      Real.sqrt (1.2 * 1.2 + -5 * -5) ≠ 5 := by
  refine ⟨?_, ?_, ?_⟩
  · norm_num [GameJs.handleClick, GameJs.launchFirst, Example.splitGame, Example.emptyGame,
      Example.freeAndAttached, highHost, GameJs.CONFIG.ball.speed]
  · norm_num [Component.handleClick, Component.launchFirst, Example.splitApp, Example.emptyApp,
      Example.splitRef, Example.emptyRef, Example.freeAndAttached, highHost,
      Component.BALL_SPEED]
  · intro h
    have h2 := Real.mul_self_sqrt (show (0 : ℝ) ≤ 1.2 * 1.2 + -5 * -5 by norm_num)
    rw [h] at h2
    norm_num at h2

/-- C18 (amended): in a playing state with an attached ball, `handleClick` (of `game.js` and
of the component) rewrites the first attached ball `b` to the free ball with velocity
`((u - 0.5) · 3, -5)`, `u` the draw, and keeps every other ball, in order; when the state is
not playing or no ball is attached the state is returned unchanged.  For every draw `u` of
the host the horizontal component lies in `[-1.5, 1.5)`, the vertical component is `-5`
(upward, of magnitude the base ball speed), and the squared magnitude `dx² + dy²` lies in
`[25, 27.25]` and equals `25` only for `u = 0.5`. -/
theorem C18_launch_detaches_first_attached_ball {α : Type} [LinearOrderedField α]
    [FloorRing α] (H : Host α) (g : GameJs.Game α) (a : Component.App α) :
    (g.state = GameState.playing → (∃ b ∈ g.balls, b.attached = true) →
      ∃ pre b post, g.balls = pre ++ b :: post ∧ (∀ p ∈ pre, p.attached = false) ∧
        b.attached = true ∧
        (GameJs.handleClick H g).balls =
          pre ++ { b with attached := false, dx := (H.random g.rng - 0.5) * 3, dy := -5 }
            :: post) ∧
      (a.gameState = GameState.playing → (∃ b ∈ a.game.balls, b.attached = true) →
        ∃ pre b post, a.game.balls = pre ++ b :: post ∧ (∀ p ∈ pre, p.attached = false) ∧
          b.attached = true ∧
          (Component.handleClick H a).game.balls =
            pre ++ { b with attached := false, dx := (H.random a.game.rng - 0.5) * 3,
                            dy := -5 } :: post) ∧
      ((g.state ≠ GameState.playing ∨ ∀ b ∈ g.balls, b.attached = false) →
        GameJs.handleClick H g = g) ∧
      ((a.gameState ≠ GameState.playing ∨ ∀ b ∈ a.game.balls, b.attached = false) →
        Component.handleClick H a = a) ∧
      ∀ n : ℕ,
        -(3 / 2) ≤ (H.random n - 0.5) * 3 ∧ (H.random n - 0.5) * 3 < 3 / 2 ∧
          25 ≤ (H.random n - 0.5) * 3 * ((H.random n - 0.5) * 3) + -5 * -5 ∧
          (H.random n - 0.5) * 3 * ((H.random n - 0.5) * 3) + -5 * -5 ≤ 27.25 ∧
          ((H.random n - 0.5) * 3 * ((H.random n - 0.5) * 3) + -5 * -5 = 25 ↔
            H.random n = 0.5) := by
  have hany : ∀ balls : List (Ball α),
      (balls.any fun b => b.attached) = true ↔ ∃ b ∈ balls, b.attached = true := by
    intro balls
    simp [List.any_eq_true]
  refine ⟨?_, ?_, ?_, ?_, ?_⟩
  · intro hs hb
    obtain ⟨pre, b, post, h1, h2, h3, h4⟩ := gameJs_launchFirst_spec (H.random g.rng) g.balls hb
    refine ⟨pre, b, post, h1, h2, h3, ?_⟩
    rw [GameJs.handleClick, if_neg (not_not.2 hs), if_pos ((hany _).2 hb)]
    exact h4
  · intro hs hb
    obtain ⟨pre, b, post, h1, h2, h3, h4⟩ :=
      gameJs_launchFirst_spec (H.random a.game.rng) a.game.balls hb
    refine ⟨pre, b, post, h1, h2, h3, ?_⟩
    rw [Component.handleClick, if_neg (not_not.2 hs), if_pos ((hany _).2 hb)]
    rw [← h4]
    exact component_launchFirst_eq _ _
  · rintro (hs | hb)
    · rw [GameJs.handleClick, if_pos hs]
    · have hn : ¬ (g.balls.any fun b => b.attached) = true := by
        rw [hany]
        rintro ⟨b, hb1, hb2⟩
        rw [hb b hb1] at hb2
        exact Bool.false_ne_true hb2
      unfold GameJs.handleClick
      rw [if_neg hn]
      split_ifs <;> rfl
  · rintro (hs | hb)
    · rw [Component.handleClick, if_pos hs]
    · have hn : ¬ (a.game.balls.any fun b => b.attached) = true := by
        rw [hany]
        rintro ⟨b, hb1, hb2⟩
        rw [hb b hb1] at hb2
        exact Bool.false_ne_true hb2
      unfold Component.handleClick
      rw [if_neg hn]
      split_ifs <;> rfl
  · intro n
    exact launch_velocity_bounds (H.random n) (H.random_mem n).1 (H.random_mem n).2

/-- C18 at a concrete input: the playing state `Example.splitGame` has an attached ball, and
with the draw `0.9` the click detaches it with velocity `((0.9 - 0.5) · 3, -5)` and keeps
the free ball before it. -/
theorem C18_launch_witness :
    (Example.splitGame : GameJs.Game ℝ).state = GameState.playing ∧
      (∃ b ∈ (Example.splitGame : GameJs.Game ℝ).balls, b.attached = true) ∧
      ∃ pre b post, (Example.splitGame : GameJs.Game ℝ).balls = pre ++ b :: post ∧
        (∀ p ∈ pre, p.attached = false) ∧ b.attached = true ∧
        (GameJs.handleClick highHost Example.splitGame).balls =
          pre ++ { b with attached := false,
                          dx := (highHost.random (Example.splitGame : GameJs.Game ℝ).rng - 0.5)
                            * 3,
                          dy := -5 } :: post := by
  have hb : ∃ b ∈ (Example.splitGame : GameJs.Game ℝ).balls, b.attached = true :=
    ⟨{ x := 240, y := 597, dx := 0, dy := 0, attached := true },
      by simp [Example.splitGame, Example.freeAndAttached], rfl⟩
  exact ⟨rfl, hb,
    (C18_launch_detaches_first_attached_ball highHost Example.splitGame Example.splitApp).1
      rfl hb⟩

/-! ## Restart and next level -/

/-- C19: from every prior state, `restartGame` (`game.js`) and `restart` (component) end in
state `playing` with `level = 1`, `score = 0`, `lives = 3` and the block layout generated
for level `1`; `nextLevel` ends in state `playing` with the level increased by `1`, the score
and the lives unchanged, and the block layout generated for the new level.  All four leave
exactly one ball, attached and with velocity `(0, 0)`, and no item and no particle. -/
theorem C19_restart_and_next_level {α : Type} [LinearOrderedField α] [FloorRing α]
    (H : Host α) (g : GameJs.Game α) (a : Component.App α) :
    ((GameJs.restartGame H g).state = GameState.playing ∧
      (GameJs.restartGame H g).level = 1 ∧
      (GameJs.restartGame H g).score = 0 ∧
      (GameJs.restartGame H g).lives = 3 ∧
      (GameJs.restartGame H g).blocks = (GameJs.createBlocks H g 1).1 ∧
      (GameJs.restartGame H g).balls =
        [{ x := g.canvasWidth / 2, y := g.canvasHeight - 35 - 6 - 2, dx := 0, dy := 0,
           attached := true }] ∧
      (GameJs.restartGame H g).items = [] ∧
      (GameJs.restartGame H g).particles = []) ∧
    ((GameJs.nextLevel H g).state = GameState.playing ∧
      (GameJs.nextLevel H g).level = g.level + 1 ∧
      (GameJs.nextLevel H g).score = g.score ∧
      (GameJs.nextLevel H g).lives = g.lives ∧
      (GameJs.nextLevel H g).blocks = (GameJs.createBlocks H g (g.level + 1)).1 ∧
      (GameJs.nextLevel H g).balls =
        [{ x := g.canvasWidth / 2, y := g.canvasHeight - 35 - 6 - 2, dx := 0, dy := 0,
           attached := true }] ∧
      (GameJs.nextLevel H g).items = [] ∧
      (GameJs.nextLevel H g).particles = []) ∧
    ((Component.restart H a).gameState = GameState.playing ∧
      (Component.restart H a).level = 1 ∧
      (Component.restart H a).score = 0 ∧
      (Component.restart H a).lives = 3 ∧
      (Component.restart H a).game.blocks =
        (Component.initBlocks H a.game.rng 1 a.canvasWidth).1 ∧
      (Component.restart H a).game.balls =
        [{ x := a.canvasWidth / 2, y := a.canvasHeight - 50, dx := 0, dy := 0,
           attached := true }] ∧
      (Component.restart H a).game.items = [] ∧
      (Component.restart H a).game.particles = []) ∧
    ((Component.nextLevel H a).gameState = GameState.playing ∧
      (Component.nextLevel H a).level = a.level + 1 ∧
      (Component.nextLevel H a).score = a.score ∧
      (Component.nextLevel H a).lives = a.lives ∧
      (Component.nextLevel H a).game.blocks =
        (Component.initBlocks H a.game.rng (a.level + 1) a.canvasWidth).1 ∧
      (Component.nextLevel H a).game.balls =
        [{ x := a.canvasWidth / 2, y := a.canvasHeight - 50, dx := 0, dy := 0,
           attached := true }] ∧
      (Component.nextLevel H a).game.items = [] ∧
      (Component.nextLevel H a).game.particles = []) := by
  refine ⟨⟨rfl, rfl, rfl, rfl, rfl, rfl, rfl, rfl⟩, ⟨rfl, rfl, rfl, rfl, rfl, rfl, rfl, rfl⟩,
    ⟨rfl, rfl, rfl, rfl, rfl, rfl, rfl, rfl⟩, ⟨rfl, rfl, rfl, rfl, rfl, rfl, rfl, rfl⟩⟩

/-! ## The number of lives -/

/-- JavaScript `activatePowerUp` does not write `lives`. -/
theorem gameJs_activatePowerUp_lives {α : Type} [LinearOrderedField α] (H : Host α)
    (g : GameJs.Game α) (item : Item α) :
    (GameJs.activatePowerUp H g item).lives = g.lives := by
  unfold GameJs.activatePowerUp
  cases item.type <;> rfl

/-- The item filter of `game.js` does not write `lives`. -/
theorem gameJs_filterItems_lives {α : Type} [LinearOrderedField α] (H : Host α)
    (paddleY : α) (items : List (Item α)) (g : GameJs.Game α) :
    (GameJs.filterItems H paddleY g items).1.lives = g.lives := by
  induction items generalizing g with
  | nil => rfl
  | cons item rest ih =>
    unfold GameJs.filterItems
    dsimp only
    split_ifs
    · exact (ih _).trans (gameJs_activatePowerUp_lives H g _)
    · exact ih g
    · exact ih g

/-- One tick of `game.js` takes one life exactly when the ball filter keeps no ball, and
leaves `lives` unchanged otherwise; there is no lower bound. -/
theorem gameJs_update_lives {α : Type} [LinearOrderedField α] (H : Host α)
    (g : GameJs.Game α) :
    (GameJs.update H g).lives =
      if (GameJs.filterBalls H (g.canvasHeight - 35) g g.balls).2.length = 0 then g.lives - 1
      else g.lives := by
  have hl : (GameJs.update H g).lives =
      (GameJs.filterItems H (g.canvasHeight - 35) (GameJs.updateBalls H (g.canvasHeight - 35) g)
        (GameJs.updateBalls H (g.canvasHeight - 35) g).items).1.lives := by
    simp only [GameJs.update, GameJs.updateItems, GameJs.checkLevelComplete,
      GameJs.levelComplete, GameJs.CONFIG.paddle.offsetBottom]
    split_ifs <;> rfl
  rw [hl, gameJs_filterItems_lives]
  obtain ⟨⟨-, hlives, -, -, -, -, -, -⟩, -⟩ :=
    gameJs_filterBalls_spec H (g.canvasHeight - 35) g.balls g
  unfold GameJs.updateBalls
  dsimp only
  by_cases hlost : (GameJs.filterBalls H (g.canvasHeight - 35) g g.balls).2.length = 0
  · rw [if_pos hlost, if_pos hlost]
    split_ifs <;> simp only [GameJs.gameOver, hlives]
  · rw [if_neg hlost, if_neg hlost]
    exact hlives

/-- The simulation part of one tick of the component asks for one life less exactly when the
ball filter keeps no ball. -/
theorem component_simulate_livesChange {α : Type} [LinearOrderedField α] (H : Host α)
    (a : Component.App α) :
    (Component.simulate H a).livesChange =
      if (Component.filterBalls H a.canvasWidth a.canvasHeight (a.canvasHeight - 35)
          { game := a.game, scoreIncrease := 0, livesChange := 0 } a.game.balls).2.length = 0
      then -1 else 0 := by
  obtain ⟨⟨-, -, -, -, hlc⟩, -⟩ := component_filterBalls_spec H a.canvasWidth a.canvasHeight
    (a.canvasHeight - 35) a.game.balls { game := a.game, scoreIncrease := 0, livesChange := 0 }
  unfold Component.simulate Component.ballLoss
  dsimp only
  split_ifs
  · rfl
  · exact hlc

/-- One tick of the component takes one life, but not below `0`, exactly when the ball
filter keeps no ball, and leaves `lives` unchanged otherwise. -/
theorem component_updateGame_lives {α : Type} [LinearOrderedField α] (H : Host α)
    (a : Component.App α) :
    (Component.updateGame H a).lives =
      if (Component.filterBalls H a.canvasWidth a.canvasHeight (a.canvasHeight - 35)
          { game := a.game, scoreIncrease := 0, livesChange := 0 } a.game.balls).2.length = 0
      then max 0 (a.lives - 1) else a.lives := by
  have hlc := component_simulate_livesChange H a
  have hl : (Component.updateGame H a).lives =
      if (Component.simulate H a).livesChange ≠ 0 then
        max 0 (a.lives + (Component.simulate H a).livesChange)
      else a.lives := by
    simp only [Component.updateGame, Component.checkLevelComplete, Component.setLives]
    split_ifs <;> rfl
  rw [hl, hlc]
  split_ifs <;> simp_all
  rfl

/-- A circle of radius `6` that overlaps a rectangle has its centre less than `6` below the
bottom edge of the rectangle. -/
theorem circleRect_true_y {α : Type} [LinearOrderedField α] (cx cy rx ry rw rh : α)
    (hh : 0 ≤ rh) (h : GameJs.circleRectCollision cx cy 6 rx ry rw rh = true) :
    cy < ry + rh + 6 := by
  by_contra hcon
  push_neg at hcon
  unfold GameJs.circleRectCollision GameJs.clamp at h
  simp only [decide_eq_true_eq] at h
  have h1 : min (ry + rh) cy = ry + rh := min_eq_left (by linarith)
  have h2 : max ry (ry + rh) = ry + rh := max_eq_right (by linarith)
  rw [h1, h2] at h
  nlinarith [mul_self_nonneg (cx - max rx (min (rx + rw) cx))]

/-- A circle of radius `6` whose centre is `6` or more to the right of a rectangle does not
overlap it. -/
theorem circleRect_false_x {α : Type} [LinearOrderedField α] (cx cy rx ry rw rh : α)
    (hw : 0 ≤ rw) (hx : rx + rw + 6 ≤ cx) :
    GameJs.circleRectCollision cx cy 6 rx ry rw rh = false := by
  unfold GameJs.circleRectCollision GameJs.clamp
  simp only [decide_eq_false_iff_not, not_lt]
  have h1 : min (rx + rw) cx = rx + rw := min_eq_left (by linarith)
  have h2 : max rx (rx + rw) = rx + rw := max_eq_right (by linarith)
  rw [h1, h2]
  nlinarith [mul_self_nonneg (cy - max ry (min (ry + rh) cy))]

/-- After the wall collision of `game.js` the centre of the ball is at `6` or more, or at
`canvasWidth - 6`. -/
theorem gameJs_handleWallCollision_x {α : Type} [LinearOrderedField α] (g : GameJs.Game α)
    (ball : Ball α) : min 6 (g.canvasWidth - 6) ≤ (GameJs.handleWallCollision g ball).x := by
  rw [handleWallCollision_eq_wallSection, (wallSection_horizontal g.canvasWidth ball).1]
  split_ifs with h1 h2 h3
  · exact min_le_right _ _
  · exact min_le_left _ _
  · exact min_le_right _ _
  · exact le_trans (min_le_left _ _) (by linarith)


/-- The paddle collision of `game.js` keeps the `x` of the ball. -/
theorem gameJs_handlePaddleCollision_x {α : Type} [LinearOrderedField α] (H : Host α)
    (g : GameJs.Game α) (ball : Ball α) (paddleY : α) :
    (GameJs.handlePaddleCollision H g ball paddleY).2.x = ball.x := by
  unfold GameJs.handlePaddleCollision
  split_ifs <;> rfl

/-- The block loop of `game.js` keeps a first block that is out of reach of the ball. -/
theorem gameJs_blockLoop_head_kept {α : Type} [LinearOrderedField α] (H : Host α)
    (b0 : Block α) (rest : List (Block α)) (g : GameJs.Game α) (ball : Ball α)
    (hw : 0 ≤ b0.width) (hx : b0.x + b0.width + 6 ≤ ball.x) :
    (GameJs.blockLoop H (b0 :: rest) g ball).1 = b0 :: (GameJs.blockLoop H rest g ball).1 := by
  have hc := circleRect_false_x ball.x ball.y b0.x b0.y b0.width b0.height hw hx
  rw [GameJs.blockLoop]
  simp only [GameJs.CONFIG.ball.radius, hc]
  split_ifs <;> first | rfl | contradiction

/-- The block loop of `game.js` leaves the blocks as they are unless the ball overlaps one
of them. -/
theorem gameJs_blockLoop_unchanged_or_hit {α : Type} [LinearOrderedField α] (H : Host α)
    (blocks : List (Block α)) (g : GameJs.Game α) (ball : Ball α) :
    (GameJs.blockLoop H blocks g ball).1 = blocks ∨
      ∃ b ∈ blocks,
        GameJs.circleRectCollision ball.x ball.y 6 b.x b.y b.width b.height = true := by
  induction blocks with
  | nil => exact Or.inl rfl
  | cons block rest ih =>
    by_cases hhit : GameJs.circleRectCollision ball.x ball.y 6 block.x block.y block.width
        block.height = true
    · exact Or.inr ⟨block, List.mem_cons_self _ _, hhit⟩
    · rcases ih with h | ⟨b, hb, hbh⟩
      · left
        rw [GameJs.blockLoop]
        simp only [GameJs.CONFIG.ball.radius, hhit]
        split_ifs <;> first | contradiction | (simp only [h])
      · exact Or.inr ⟨b, List.mem_cons_of_mem _ hb, hbh⟩


/-- The callback of the ball filter of `game.js` keeps a first block that lies `6` or more to
the left of every position the wall collision allows. -/
theorem gameJs_ballCallback_head_kept {α : Type} [LinearOrderedField α] (H : Host α)
    (paddleY : α) (g : GameJs.Game α) (ball : Ball α) (b0 : Block α) (rest : List (Block α))
    (hb : g.blocks = b0 :: rest) (hw : 0 ≤ b0.width)
    (hx : b0.x + b0.width + 6 ≤ min 6 (g.canvasWidth - 6)) :
    ∃ rest', (GameJs.ballCallback H paddleY g ball).1.blocks = b0 :: rest' := by
  unfold GameJs.ballCallback
  by_cases hatt : ball.attached = true
  · rw [if_pos hatt]
    exact ⟨rest, hb⟩
  · rw [if_neg hatt]
    dsimp only
    have hx2 := gameJs_handleWallCollision_x g
      { ball with x := ball.x + ball.dx, y := ball.y + ball.dy }
    generalize GameJs.handleWallCollision g
      { ball with x := ball.x + ball.dx, y := ball.y + ball.dy } = ball2 at hx2 ⊢
    have hpx := gameJs_handlePaddleCollision_x H g ball2 paddleY
    have hpb := (gameJs_handlePaddleCollision_blocks H g ball2 paddleY).1
    generalize GameJs.handlePaddleCollision H g ball2 paddleY = res at hpx hpb ⊢
    have hkept : (GameJs.handleBlockCollision H res.1 res.2).1.blocks =
        b0 :: (GameJs.blockLoop H rest res.1 res.2).1 := by
      unfold GameJs.handleBlockCollision
      dsimp only
      rw [hpb, hb]
      exact gameJs_blockLoop_head_kept H b0 rest res.1 res.2 hw (by rw [hpx]; linarith)
    split_ifs <;> exact ⟨_, hkept⟩

/-- A ball that the callback of the ball filter of `game.js` drops has changed no block, when
every block ends at `y = 285` or above and the canvas is at least `285` high. -/
theorem gameJs_ballCallback_lost_blocks {α : Type} [LinearOrderedField α] (H : Host α)
    (paddleY : α) (g : GameJs.Game α) (ball : Ball α)
    (hband : ∀ b ∈ g.blocks, 0 ≤ b.height ∧ b.y + b.height ≤ 285)
    (hch : 285 ≤ g.canvasHeight)
    (hlost : (GameJs.ballCallback H paddleY g ball).2.2 = false) :
    (GameJs.ballCallback H paddleY g ball).1.blocks = g.blocks := by
  unfold GameJs.ballCallback at hlost ⊢
  by_cases hatt : ball.attached = true
  · rw [if_pos hatt]
  · rw [if_neg hatt] at hlost ⊢
    dsimp only at hlost ⊢
    generalize GameJs.handleWallCollision g
      { ball with x := ball.x + ball.dx, y := ball.y + ball.dy } = ball2 at hlost ⊢
    have hpb := (gameJs_handlePaddleCollision_blocks H g ball2 paddleY).1
    have hpu := gameJs_handlePaddleCollision_untouched H g ball2 paddleY
    generalize GameJs.handlePaddleCollision H g ball2 paddleY = res at hlost hpb hpu ⊢
    obtain ⟨hbu, -, -, hby⟩ := gameJs_handleBlockCollision_untouched H res.1 res.2
    have hheight : (GameJs.handleBlockCollision H res.1 res.2).1.canvasHeight =
        g.canvasHeight := hbu.2.2.2.2.2.2.1.trans hpu.2.2.2.2.2.2.1
    have hblocks : (GameJs.handleBlockCollision H res.1 res.2).1.blocks =
        (GameJs.blockLoop H res.1.blocks res.1 res.2).1 := rfl
    split_ifs at hlost ⊢ with hy
    · rw [hblocks]
      rcases gameJs_blockLoop_unchanged_or_hit H res.1.blocks res.1 res.2 with h | ⟨b, hbm, hhit⟩
      · rw [h, hpb]
      · exfalso
        rw [hpb] at hbm
        obtain ⟨h0, h285⟩ := hband b hbm
        have := circleRect_true_y res.2.x res.2.y b.x b.y b.width b.height h0 hhit
        rw [hby, hheight] at hy
        unfold GameJs.CONFIG.ball.radius at hy
        linarith


/-- The ball filter of `game.js` keeps a first block that lies `6` or more to the left of
every position the wall collision allows. -/
theorem gameJs_filterBalls_head_kept {α : Type} [LinearOrderedField α] (H : Host α)
    (paddleY : α) (balls : List (Ball α)) (g : GameJs.Game α) (b0 : Block α)
    (rest : List (Block α)) (hb : g.blocks = b0 :: rest) (hw : 0 ≤ b0.width)
    (hx : b0.x + b0.width + 6 ≤ min 6 (g.canvasWidth - 6)) :
    ∃ rest', (GameJs.filterBalls H paddleY g balls).1.blocks = b0 :: rest' := by
  induction balls generalizing g rest with
  | nil => exact ⟨rest, hb⟩
  | cons ball more ih =>
    unfold GameJs.filterBalls
    dsimp only
    obtain ⟨rest1, h1⟩ := gameJs_ballCallback_head_kept H paddleY g ball b0 rest hb hw hx
    have hcw : (GameJs.ballCallback H paddleY g ball).1.canvasWidth = g.canvasWidth :=
      (gameJs_ballCallback_spec H paddleY g ball).1.2.2.2.2.2.1
    exact ih (GameJs.ballCallback H paddleY g ball).1 rest1 h1 (by rw [hcw]; exact hx)

/-- When the ball filter of `game.js` keeps no ball, it has changed no block, provided every
block ends at `y = 285` or above and the canvas is at least `285` high. -/
theorem gameJs_filterBalls_lost_blocks {α : Type} [LinearOrderedField α] (H : Host α)
    (paddleY : α) (balls : List (Ball α)) (g : GameJs.Game α)
    (hband : ∀ b ∈ g.blocks, 0 ≤ b.height ∧ b.y + b.height ≤ 285)
    (hch : 285 ≤ g.canvasHeight)
    (hlost : (GameJs.filterBalls H paddleY g balls).2.length = 0) :
    (GameJs.filterBalls H paddleY g balls).1.blocks = g.blocks := by
  induction balls generalizing g with
  | nil => rfl
  | cons ball more ih =>
    unfold GameJs.filterBalls at hlost ⊢
    dsimp only at hlost ⊢
    have hheight : (GameJs.ballCallback H paddleY g ball).1.canvasHeight = g.canvasHeight :=
      (gameJs_ballCallback_spec H paddleY g ball).1.2.2.2.2.2.2.1
    by_cases hkeep : (GameJs.ballCallback H paddleY g ball).2.2 = true
    · rw [if_pos hkeep] at hlost
      simp at hlost
    · rw [if_neg hkeep] at hlost
      have h1 := gameJs_ballCallback_lost_blocks H paddleY g ball hband hch
        (by simpa using hkeep)
      rw [ih (GameJs.ballCallback H paddleY g ball).1 (by rw [h1]; exact hband)
        (by rw [hheight]; exact hch) hlost, h1]

/-- JavaScript `activatePowerUp` does not write `state`. -/
theorem gameJs_activatePowerUp_state {α : Type} [LinearOrderedField α] (H : Host α)
    (g : GameJs.Game α) (item : Item α) :
    (GameJs.activatePowerUp H g item).state = g.state := by
  unfold GameJs.activatePowerUp
  cases item.type <;> rfl

/-- The item filter of `game.js` does not write `state`. -/
theorem gameJs_filterItems_state {α : Type} [LinearOrderedField α] (H : Host α)
    (paddleY : α) (items : List (Item α)) (g : GameJs.Game α) :
    (GameJs.filterItems H paddleY g items).1.state = g.state := by
  induction items generalizing g with
  | nil => rfl
  | cons item rest ih =>
    unfold GameJs.filterItems
    dsimp only
    split_ifs
    · exact (ih _).trans (gameJs_activatePowerUp_state H g _)
    · exact ih g
    · exact ih g

/-- The blocks, the canvas and the state after JavaScript `updateBalls` of `game.js`. -/
theorem gameJs_updateBalls_frame {α : Type} [LinearOrderedField α] (H : Host α)
    (paddleY : α) (g : GameJs.Game α) :
    (GameJs.updateBalls H paddleY g).blocks = (GameJs.filterBalls H paddleY g g.balls).1.blocks ∧
      (GameJs.updateBalls H paddleY g).canvasWidth = g.canvasWidth ∧
      (GameJs.updateBalls H paddleY g).canvasHeight = g.canvasHeight ∧
      (GameJs.updateBalls H paddleY g).state =
        if (GameJs.filterBalls H paddleY g g.balls).2.length = 0 ∧ g.lives - 1 ≤ 0 then
          GameState.gameover
        else g.state := by
  obtain ⟨⟨hst, hl, -, -, -, hcw, hch, -⟩, -⟩ := gameJs_filterBalls_spec H paddleY g.balls g
  unfold GameJs.updateBalls
  dsimp only
  by_cases hlost : (GameJs.filterBalls H paddleY g g.balls).2.length = 0
  · rw [if_pos hlost, hl]
    by_cases hlives : g.lives - 1 ≤ 0
    · rw [if_pos hlives, if_pos ⟨hlost, hlives⟩]
      exact ⟨rfl, hcw, hch, rfl⟩
    · rw [if_neg hlives, if_neg (fun h => hlives h.2)]
      exact ⟨rfl, hcw, hch, hst⟩
  · rw [if_neg hlost, if_neg (fun h => hlost h.1)]
    exact ⟨rfl, hcw, hch, hst⟩

/-- The blocks, the canvas and the state after one tick of `game.js`. -/
theorem gameJs_update_frame {α : Type} [LinearOrderedField α] (H : Host α)
    (g : GameJs.Game α) :
    (GameJs.update H g).blocks =
        (GameJs.filterBalls H (g.canvasHeight - 35) g g.balls).1.blocks ∧
      (GameJs.update H g).canvasWidth = g.canvasWidth ∧
      (GameJs.update H g).canvasHeight = g.canvasHeight ∧
      (GameJs.update H g).state =
        if ((GameJs.update H g).blocks.filter fun b => !b.destroyed && !b.isWall).length = 0
        then GameState.levelup
        else if (GameJs.filterBalls H (g.canvasHeight - 35) g g.balls).2.length = 0 ∧
            g.lives - 1 ≤ 0 then GameState.gameover
        else g.state := by
  obtain ⟨u1, u2, u3, u4⟩ := gameJs_updateBalls_frame H (g.canvasHeight - 35) g
  obtain ⟨-, i2, i3, -⟩ := gameJs_filterItems_attached H (g.canvasHeight - 35)
    (GameJs.updateBalls H (g.canvasHeight - 35) g).items
    (GameJs.updateBalls H (g.canvasHeight - 35) g)
  have i1 := (gameJs_filterItems_blocks H (g.canvasHeight - 35)
    (GameJs.updateBalls H (g.canvasHeight - 35) g).items
    (GameJs.updateBalls H (g.canvasHeight - 35) g)).1
  have i4 := gameJs_filterItems_state H (g.canvasHeight - 35)
    (GameJs.updateBalls H (g.canvasHeight - 35) g).items
    (GameJs.updateBalls H (g.canvasHeight - 35) g)
  have hb : (GameJs.update H g).blocks =
      (GameJs.filterItems H (g.canvasHeight - 35) (GameJs.updateBalls H (g.canvasHeight - 35) g)
        (GameJs.updateBalls H (g.canvasHeight - 35) g).items).1.blocks := by
    simp only [GameJs.update, GameJs.updateItems, GameJs.checkLevelComplete,
      GameJs.levelComplete, GameJs.CONFIG.paddle.offsetBottom]
    split_ifs <;> rfl
  have hw : (GameJs.update H g).canvasWidth =
      (GameJs.filterItems H (g.canvasHeight - 35) (GameJs.updateBalls H (g.canvasHeight - 35) g)
        (GameJs.updateBalls H (g.canvasHeight - 35) g).items).1.canvasWidth := by
    simp only [GameJs.update, GameJs.updateItems, GameJs.checkLevelComplete,
      GameJs.levelComplete, GameJs.CONFIG.paddle.offsetBottom]
    split_ifs <;> rfl
  have hh : (GameJs.update H g).canvasHeight =
      (GameJs.filterItems H (g.canvasHeight - 35) (GameJs.updateBalls H (g.canvasHeight - 35) g)
        (GameJs.updateBalls H (g.canvasHeight - 35) g).items).1.canvasHeight := by
    simp only [GameJs.update, GameJs.updateItems, GameJs.checkLevelComplete,
      GameJs.levelComplete, GameJs.CONFIG.paddle.offsetBottom]
    split_ifs <;> rfl
  have hs : (GameJs.update H g).state =
      if ((GameJs.filterItems H (g.canvasHeight - 35)
            (GameJs.updateBalls H (g.canvasHeight - 35) g)
            (GameJs.updateBalls H (g.canvasHeight - 35) g).items).1.blocks.filter
          fun b => !b.destroyed && !b.isWall).length = 0
      then GameState.levelup
      else (GameJs.filterItems H (g.canvasHeight - 35)
            (GameJs.updateBalls H (g.canvasHeight - 35) g)
            (GameJs.updateBalls H (g.canvasHeight - 35) g).items).1.state := by
    simp only [GameJs.update, GameJs.updateItems, GameJs.checkLevelComplete,
      GameJs.levelComplete, GameJs.CONFIG.paddle.offsetBottom]
    split_ifs <;> rfl
  refine ⟨hb.trans (i1.trans u1), hw.trans (i2.trans u2), hh.trans (i3.trans u3), ?_⟩
  rw [hs, hb, i4, u4]


/-- A fresh layout of `game.js`: every block ends at `y = 285` or above, and the first block
is a normal block, not destroyed, `36` wide, at `x = (canvasWidth - 465) / 2`. -/
theorem gameJs_createBlocks_fresh {α : Type} [LinearOrderedField α] [FloorRing α]
    (H : Host α) (g : GameJs.Game α) (level : ℕ) :
    (∀ b ∈ (GameJs.createBlocks H g level).1, 0 ≤ b.height ∧ b.y + b.height ≤ 285) ∧
      ∃ b0 rest, (GameJs.createBlocks H g level).1 = b0 :: rest ∧ b0.destroyed = false ∧
        b0.isWall = false ∧ b0.width = 36 ∧ b0.x = (g.canvasWidth - 465) / 2 := by
  have hrows := rows_toNat level
  obtain ⟨g1, g2, -⟩ := gameJs_wallLoop_spec H
    (min (GameJs.CONFIG.block.rows + ((level / 2 : ℕ) : Int)) 12) (min (3 + level) 8) g.rng []
    (GameJs.gridBlocks g.canvasWidth (min (GameJs.CONFIG.block.rows + ((level / 2 : ℕ) : Int)) 12))
  have hlenG : (GameJs.gridBlocks g.canvasWidth
      (min (GameJs.CONFIG.block.rows + ((level / 2 : ℕ) : Int)) 12)).length =
      12 * min (10 + level / 2) 12 := by
    rw [gameJs_gridBlocks_eq, List.length_map, List.length_range]
    unfold GameJs.CONFIG.block.rows
    rw [hrows, Nat.mul_comm]
  have hlen : (GameJs.createBlocks H g level).1.length = 12 * min (10 + level / 2) 12 :=
    g1.trans hlenG
  have hkey : ∀ k < 12 * min (10 + level / 2) 12,
      ((GameJs.createBlocks H g level).1.map fun b =>
          (b.x, b.y, b.width, b.height, b.destroyed))[k]? =
        some ((g.canvasWidth - 465) / 2 + (((k % 12 : ℕ) : ℕ) : α) * 39,
          60 + (((k / 12 : ℕ) : ℕ) : α) * 19, 36, 16, false) := by
    intro k hk
    have hk' : k < (min (GameJs.CONFIG.block.rows + ((level / 2 : ℕ) : Int)) 12).toNat * 12 := by
      unfold GameJs.CONFIG.block.rows
      rw [hrows]
      omega
    have := (gridBlocks_getElem? g.canvasWidth _ k hk').1
    rw [← g2] at this
    exact this
  constructor
  · intro b hb
    obtain ⟨k, hk⟩ := List.mem_iff_getElem?.1 hb
    have hklen : k < (GameJs.createBlocks H g level).1.length := by
      obtain ⟨h, -⟩ := List.getElem?_eq_some.1 hk
      exact h
    rw [hlen] at hklen
    have h := hkey k hklen
    rw [List.getElem?_map, hk] at h
    simp only [Option.map_some', Option.some.injEq, Prod.mk.injEq] at h
    obtain ⟨-, hy, -, hh, -⟩ := h
    have hrow : k / 12 ≤ 11 := by omega
    have hrow' : (((k / 12 : ℕ) : ℕ) : α) ≤ 11 := by exact_mod_cast hrow
    rw [hy, hh]
    constructor <;> linarith
  · have hpos : 0 < (GameJs.createBlocks H g level).1.length := by
      rw [hlen]
      omega
    obtain ⟨b0, rest, hb0⟩ := List.exists_cons_of_length_pos hpos
    have h := hkey 0 (by omega)
    rw [hb0, List.getElem?_map, List.getElem?_cons_zero] at h
    simp only [Option.map_some', Option.some.injEq, Prod.mk.injEq] at h
    obtain ⟨hx, -, hw, -, hd⟩ := h
    refine ⟨b0, rest, hb0, hd, ?_, hw, ?_⟩
    · by_contra hwall
      have hwall' : b0.isWall = true := by simpa using hwall
      have := gameJs_createBlocks_wall_positions H g level 0 b0
        (by rw [hb0]; exact List.getElem?_cons_zero) hwall'
      omega
    · rw [hx]
      norm_num

/-- A list whose first block is a normal block that is not destroyed has a remaining
block. -/
theorem remaining_pos_of_head {α : Type} (b0 : Block α) (rest : List (Block α))
    (hd : b0.destroyed = false) (hw : b0.isWall = false) :
    0 < ((b0 :: rest).filter fun b => !b.destroyed && !b.isWall).length := by
  rw [List.filter_cons]
  simp [hd, hw]

/-- The vertical extent of the blocks is kept by `BlockStep`. -/
theorem band_of_forall₂_blockStep {α : Type} [LinearOrderedField α] {l l' : List (Block α)}
    (h : List.Forall₂ BlockStep l l')
    (hband : ∀ b ∈ l, 0 ≤ b.height ∧ b.y + b.height ≤ 285) :
    ∀ b ∈ l', 0 ≤ b.height ∧ b.y + b.height ≤ 285 := by
  induction h with
  | nil => exact fun b hb => absurd hb (List.not_mem_nil _)
  | @cons a a' rest rest' ha _ ih =>
    intro b hb
    rcases List.mem_cons.1 hb with rfl | hb'
    · obtain ⟨-, hy, -, hh, -⟩ := ha
      rw [hy, hh]
      exact hband a (List.mem_cons_self _ _)
    · exact ih (fun c hc => hband c (List.mem_cons_of_mem _ hc)) b hb'

/-- One tick of `game.js` from a playing state keeps the invariant of play. -/
theorem gameJs_update_playInvariant {α : Type} [LinearOrderedField α] (H : Host α)
    (g : GameJs.Game α) (hinv : GameJs.PlayInvariant g) (hs : g.state = GameState.playing) :
    GameJs.PlayInvariant (GameJs.update H g) := by
  obtain ⟨hw0, hh, hl0, hl3, hiff, hrem, hband, hhead⟩ := hinv
  obtain ⟨fb, fw, fh, fs⟩ := gameJs_update_frame H g
  have hlives := gameJs_update_lives H g
  have hstep := (gameJs_filterBalls_scoreStep H (g.canvasHeight - 35) g.balls g).1
  have hl1 : 1 ≤ g.lives := by
    have hne : g.lives ≠ 0 := by
      intro h
      have := hiff.1 h
      rw [hs] at this
      cases this
    omega
  have hremlost : (GameJs.filterBalls H (g.canvasHeight - 35) g g.balls).2.length = 0 →
      0 < ((GameJs.update H g).blocks.filter fun b => !b.destroyed && !b.isWall).length := by
    intro hK
    by_cases hW : g.canvasWidth < 393
    · obtain ⟨b0, rest, hb, hd, hwl, hw, hx⟩ := hhead hW
      obtain ⟨rest', hr⟩ :=
        gameJs_filterBalls_head_kept H (g.canvasHeight - 35) g.balls g b0 rest hb hw hx
      rw [fb, hr]
      exact remaining_pos_of_head b0 rest' hd hwl
    · have hch : 285 ≤ g.canvasHeight := by
        rw [hh]
        linarith
      rw [fb, gameJs_filterBalls_lost_blocks H (g.canvasHeight - 35) g.balls g hband hch hK]
      exact hrem hs
  refine ⟨by rw [fw]; exact hw0, by rw [fw, fh]; exact hh, ?_, ?_, ?_, ?_, ?_, ?_⟩
  · rw [hlives]
    split_ifs <;> omega
  · rw [hlives]
    split_ifs <;> omega
  · rw [hlives, fs]
    by_cases hK : (GameJs.filterBalls H (g.canvasHeight - 35) g g.balls).2.length = 0
    · rw [if_pos hK, if_neg (Nat.pos_iff_ne_zero.1 (hremlost hK))]
      by_cases h1 : g.lives - 1 ≤ 0
      · rw [if_pos ⟨hK, h1⟩]
        exact ⟨fun _ => rfl, fun _ => by omega⟩
      · rw [if_neg (show ¬ ((GameJs.filterBalls H (g.canvasHeight - 35) g
            g.balls).2.length = 0 ∧ g.lives - 1 ≤ 0) from fun h => h1 h.2), hs]
        exact ⟨fun h => absurd h (by omega), fun h => by cases h⟩
    · rw [if_neg hK, if_neg (show ¬ ((GameJs.filterBalls H (g.canvasHeight - 35) g
          g.balls).2.length = 0 ∧ g.lives - 1 ≤ 0) from fun h => hK h.1), hs]
      constructor
      · intro h
        omega
      · intro h
        split_ifs at h
  · intro hplay
    rw [fs] at hplay
    by_contra hc
    rw [if_pos (Nat.eq_zero_of_not_pos hc)] at hplay
    cases hplay
  · rw [fb]
    exact band_of_forall₂_blockStep hstep hband
  · intro hW
    rw [fw] at hW
    obtain ⟨b0, rest, hb, hd, hwl, hw, hx⟩ := hhead hW
    obtain ⟨rest', hr⟩ :=
      gameJs_filterBalls_head_kept H (g.canvasHeight - 35) g.balls g b0 rest hb hw hx
    exact ⟨b0, rest', by rw [fb, hr], hd, hwl, hw, by rw [fw]; exact hx⟩

/-- The blocks after JavaScript `initGameData` are a fresh layout for the width of the canvas. -/
theorem gameJs_initGameData_fresh {α : Type} [LinearOrderedField α] [FloorRing α]
    (H : Host α) (g : GameJs.Game α) (keepScore : Bool) :
    (∀ b ∈ (GameJs.initGameData H g keepScore).blocks, 0 ≤ b.height ∧ b.y + b.height ≤ 285) ∧
      ∃ b0 rest, (GameJs.initGameData H g keepScore).blocks = b0 :: rest ∧
        b0.destroyed = false ∧ b0.isWall = false ∧ b0.width = 36 ∧
        b0.x = (g.canvasWidth - 465) / 2 := by
  unfold GameJs.initGameData
  dsimp only
  split_ifs <;> exact gameJs_createBlocks_fresh H _ _

/-- A state with a fresh layout, a canvas as `resizeCanvas()` sets it, and `lives` between
`1` and `3` in the state `playing` satisfies the invariant of play. -/
theorem gameJs_playInvariant_of_fresh {α : Type} [LinearOrderedField α] (g : GameJs.Game α)
    (hw0 : 0 ≤ g.canvasWidth) (hh : g.canvasHeight = g.canvasWidth * (4 / 3))
    (hl1 : 1 ≤ g.lives) (hl3 : g.lives ≤ 3) (hs : g.state = GameState.playing)
    (hfresh : (∀ b ∈ g.blocks, 0 ≤ b.height ∧ b.y + b.height ≤ 285) ∧
      ∃ b0 rest, g.blocks = b0 :: rest ∧ b0.destroyed = false ∧ b0.isWall = false ∧
        b0.width = 36 ∧ b0.x = (g.canvasWidth - 465) / 2) :
    GameJs.PlayInvariant g := by
  obtain ⟨hband, b0, rest, hb, hd, hwl, hw, hx⟩ := hfresh
  refine ⟨hw0, hh, by omega, hl3, ?_, ?_, hband, ?_⟩
  · rw [hs]
    exact ⟨fun h => absurd h (by omega), fun h => by cases h⟩
  · intro _
    rw [hb]
    exact remaining_pos_of_head b0 rest hd hwl
  · intro hW
    refine ⟨b0, rest, hb, hd, hwl, by rw [hw]; norm_num, ?_⟩
    rw [hx, hw]
    apply le_min <;> linarith

/-- Every state of `game.js` reachable in play satisfies the invariant of play. -/
theorem gameJs_reachableInPlay_invariant {α : Type} [LinearOrderedField α] [FloorRing α]
    (H : Host α) (g : GameJs.Game α) (h : GameJs.ReachableInPlay H g) :
    GameJs.PlayInvariant g := by
  induction h with
  | start g cw hcw =>
    apply gameJs_playInvariant_of_fresh
    · exact le_min (by norm_num) hcw
    · rfl
    · show (1 : Int) ≤ 3
      decide
    · exact le_of_eq rfl
    · rfl
    · exact gameJs_initGameData_fresh H (GameJs.resizeCanvas g cw) false
  | @loop g _ ih =>
    unfold GameJs.loop
    split_ifs with hs
    · exact gameJs_update_playInvariant H g ih hs
    · exact ih
  | @move g x _ ih =>
    unfold GameJs.handlePointerMove
    split_ifs
    · exact ih
    · exact ih
  | @click g _ ih =>
    unfold GameJs.handleClick
    split_ifs
    · exact ih
    · exact ih
    · exact ih
  | @next g _ hlevel ih =>
    obtain ⟨hw0, hh, hl0, hl3, hiff, -, -, -⟩ := ih
    have hne : g.lives ≠ 0 := by
      intro h
      have := hiff.1 h
      rw [hlevel] at this
      cases this
    apply gameJs_playInvariant_of_fresh
    · exact hw0
    · exact hh
    · show 1 ≤ g.lives
      omega
    · exact hl3
    · rfl
    · exact gameJs_initGameData_fresh H { g with level := g.level + 1 } true
  | @restart g _ ih =>
    obtain ⟨hw0, hh, -, -, -, -, -, -⟩ := ih
    apply gameJs_playInvariant_of_fresh
    · exact hw0
    · exact hh
    · show (1 : Int) ≤ 3
      decide
    · exact le_of_eq rfl
    · rfl
    · exact gameJs_initGameData_fresh H { g with level := 1 } false
  | @balls g bs _ ih => exact ih

/-! ## Terminal outcomes of one tick -/

/-- JavaScript `activatePowerUp` does not call `gameOver()` nor `levelComplete()`. -/
theorem gameJs_activatePowerUp_outcomes {α : Type} [LinearOrderedField α] (H : Host α)
    (g : GameJs.Game α) (item : Item α) :
    (GameJs.activatePowerUp H g item).outcomes = g.outcomes := by
  unfold GameJs.activatePowerUp
  cases item.type <;> rfl

/-- The item filter of `game.js` does not call `gameOver()` nor `levelComplete()`. -/
theorem gameJs_filterItems_outcomes {α : Type} [LinearOrderedField α] (H : Host α)
    (paddleY : α) (items : List (Item α)) (g : GameJs.Game α) :
    (GameJs.filterItems H paddleY g items).1.outcomes = g.outcomes := by
  induction items generalizing g with
  | nil => rfl
  | cons item rest ih =>
    unfold GameJs.filterItems
    dsimp only
    split_ifs
    · exact (ih _).trans (gameJs_activatePowerUp_outcomes H g _)
    · exact ih g
    · exact ih g

/-- JavaScript `updateBalls` of `game.js` calls `gameOver()` exactly when the ball filter keeps no
ball and `lives ≤ 1`. -/
theorem gameJs_updateBalls_outcomes {α : Type} [LinearOrderedField α] (H : Host α)
    (paddleY : α) (g : GameJs.Game α) :
    (GameJs.updateBalls H paddleY g).outcomes =
      g.outcomes ++
        (if (GameJs.filterBalls H paddleY g g.balls).2.length = 0 ∧ g.lives ≤ 1 then
          [GameState.gameover]
        else []) := by
  obtain ⟨⟨-, hl, -, -, -, -, -, ho⟩, -⟩ := gameJs_filterBalls_spec H paddleY g.balls g
  unfold GameJs.updateBalls
  dsimp only
  by_cases hlost : (GameJs.filterBalls H paddleY g g.balls).2.length = 0
  · rw [if_pos hlost, hl]
    by_cases hlives : g.lives ≤ 1
    · rw [if_pos (show g.lives - 1 ≤ 0 by omega), if_pos ⟨hlost, hlives⟩]
      simp only [GameJs.gameOver, ho]
    · rw [if_neg (show ¬ g.lives - 1 ≤ 0 by omega), if_neg (fun h => hlives h.2),
        List.append_nil]
      exact ho
  · rw [if_neg hlost, if_neg (fun h => hlost h.1), List.append_nil]
    exact ho

/-- The calls of `gameOver()` and `levelComplete()` made by one tick of `game.js`, in their
order: `gameOver()` when the ball filter keeps no ball and `lives ≤ 1`, then
`levelComplete()` when no block is left to destroy after the tick. -/
theorem gameJs_update_outcomes {α : Type} [LinearOrderedField α] (H : Host α)
    (g : GameJs.Game α) :
    (GameJs.update H g).outcomes =
      g.outcomes ++
        (if (GameJs.filterBalls H (g.canvasHeight - 35) g g.balls).2.length = 0 ∧
            g.lives ≤ 1 then [GameState.gameover]
          else []) ++
        (if ((GameJs.update H g).blocks.filter fun b => !b.destroyed && !b.isWall).length = 0
          then [GameState.levelup]
          else []) := by
  have hb : (GameJs.update H g).blocks =
      (GameJs.filterItems H (g.canvasHeight - 35) (GameJs.updateBalls H (g.canvasHeight - 35) g)
        (GameJs.updateBalls H (g.canvasHeight - 35) g).items).1.blocks := by
    simp only [GameJs.update, GameJs.updateItems, GameJs.checkLevelComplete,
      GameJs.levelComplete, GameJs.CONFIG.paddle.offsetBottom]
    split_ifs <;> rfl
  have ho : (GameJs.update H g).outcomes =
      (GameJs.filterItems H (g.canvasHeight - 35)
            (GameJs.updateBalls H (g.canvasHeight - 35) g)
            (GameJs.updateBalls H (g.canvasHeight - 35) g).items).1.outcomes ++
        (if ((GameJs.filterItems H (g.canvasHeight - 35)
              (GameJs.updateBalls H (g.canvasHeight - 35) g)
              (GameJs.updateBalls H (g.canvasHeight - 35) g).items).1.blocks.filter
            fun b => !b.destroyed && !b.isWall).length = 0
          then [GameState.levelup]
          else []) := by
    simp only [GameJs.update, GameJs.updateItems, GameJs.checkLevelComplete,
      GameJs.levelComplete, GameJs.CONFIG.paddle.offsetBottom]
    split_ifs <;> simp
  rw [ho, hb, gameJs_filterItems_outcomes, gameJs_updateBalls_outcomes]

/-- What one tick of the component hands to React and what React commits: the call
`setGameState("levelup")` is made when no block is left to destroy after the tick, the call
`setGameState("gameover")` after it when the ball filter keeps no ball and `lives ≤ 1`; the
state committed is `gameover` in the second case, whether or not the first call was made. -/
theorem component_updateGame_outcomes {α : Type} [LinearOrderedField α] (H : Host α)
    (a : Component.App α) :
    (Component.updateGame H a).outcomes =
        a.outcomes ++
          (if ((Component.updateGame H a).game.blocks.filter
              fun b => !b.destroyed && !b.isWall).length = 0 then [GameState.levelup]
            else []) ++
          (if (Component.filterBalls H a.canvasWidth a.canvasHeight (a.canvasHeight - 35)
                { game := a.game, scoreIncrease := 0, livesChange := 0 }
                a.game.balls).2.length = 0 ∧ a.lives ≤ 1 then [GameState.gameover]
            else []) ∧
      (Component.updateGame H a).gameState =
        (if (Component.filterBalls H a.canvasWidth a.canvasHeight (a.canvasHeight - 35)
              { game := a.game, scoreIncrease := 0, livesChange := 0 }
              a.game.balls).2.length = 0 ∧ a.lives ≤ 1 then GameState.gameover
          else if ((Component.updateGame H a).game.blocks.filter
              fun b => !b.destroyed && !b.isWall).length = 0 then GameState.levelup
          else a.gameState) := by
  have hlc := component_simulate_livesChange H a
  rw [(component_updateGame_game H a).1]
  by_cases hK : (Component.filterBalls H a.canvasWidth a.canvasHeight (a.canvasHeight - 35)
      { game := a.game, scoreIncrease := 0, livesChange := 0 } a.game.balls).2.length = 0
  · rw [if_pos hK] at hlc
    simp only [Component.updateGame, Component.checkLevelComplete, Component.setLives, hlc]
    split_ifs <;> simp_all
  · rw [if_neg hK] at hlc
    simp only [Component.updateGame, Component.checkLevelComplete, Component.setLives, hlc]
    split_ifs <;> simp_all

/-- One tick of the component from a playing state keeps the invariant of play. -/
theorem component_updateGame_playInvariant {α : Type} [LinearOrderedField α] (H : Host α)
    (a : Component.App α) (hinv : Component.PlayInvariant a)
    (hs : a.gameState = GameState.playing) :
    Component.PlayInvariant (Component.updateGame H a) := by
  obtain ⟨hl0, hl3, hiff⟩ := hinv
  have hst := (component_updateGame_outcomes H a).2
  have hlives := component_updateGame_lives H a
  have hl1 : 1 ≤ a.lives := by
    have hne : a.lives ≠ 0 := by
      intro h
      have := hiff.1 h
      rw [hs] at this
      cases this
    omega
  by_cases hK : (Component.filterBalls H a.canvasWidth a.canvasHeight (a.canvasHeight - 35)
      { game := a.game, scoreIncrease := 0, livesChange := 0 } a.game.balls).2.length = 0
  · rw [if_pos hK] at hlives
    have hmax : max 0 (a.lives - 1) = a.lives - 1 := max_eq_right (by omega)
    rw [hmax] at hlives
    by_cases h1 : a.lives ≤ 1
    · rw [if_pos ⟨hK, h1⟩] at hst
      refine ⟨by omega, by omega, ?_⟩
      rw [hst, hlives]
      exact ⟨fun _ => rfl, fun _ => by omega⟩
    · rw [if_neg (fun h => h1 h.2)] at hst
      refine ⟨by omega, by omega, ?_⟩
      rw [hst, hlives, hs]
      constructor
      · intro h
        omega
      · intro h
        split_ifs at h
  · rw [if_neg hK] at hlives
    rw [if_neg (fun h => hK h.1)] at hst
    refine ⟨by omega, by omega, ?_⟩
    rw [hst, hlives, hs]
    constructor
    · intro h
      omega
    · intro h
      split_ifs at h

/-- A playing state of the component with three lives satisfies the invariant of play. -/
theorem component_playInvariant_of_three {α : Type} (a : Component.App α) (h3 : a.lives = 3)
    (hs : a.gameState = GameState.playing) : Component.PlayInvariant a := by
  unfold Component.PlayInvariant
  rw [h3, hs]
  exact ⟨by decide, by decide, fun h => absurd h (by decide), fun h => (by cases h)⟩

/-- Every state of the component reachable in play satisfies the invariant of play. -/
theorem component_reachableInPlay_invariant {α : Type} [LinearOrderedField α] [FloorRing α]
    (H : Host α) (a : Component.App α) (h : Component.ReachableInPlay H a) :
    Component.PlayInvariant a := by
  induction h with
  | start a => exact component_playInvariant_of_three _ rfl rfl
  | @tick a _ ih =>
    unfold Component.tick
    split_ifs with hs
    · exact component_updateGame_playInvariant H a ih hs
    · exact ih
  | @move a x _ ih =>
    unfold Component.handlePointerMove
    split_ifs
    · exact ih
    · exact ih
  | @click a _ ih =>
    unfold Component.handleClick
    split_ifs
    · exact ih
    · exact ih
    · exact ih
  | @next a _ hlevel ih =>
    obtain ⟨hl0, hl3, hiff⟩ := ih
    have hs : (Component.nextLevel H a).gameState = GameState.playing := rfl
    have hl : (Component.nextLevel H a).lives = a.lives := rfl
    have hne : a.lives ≠ 0 := by
      intro h
      have := hiff.1 h
      rw [hlevel] at this
      cases this
    unfold Component.PlayInvariant
    rw [hs, hl]
    exact ⟨hl0, hl3, fun h => absurd h hne, fun h => (by cases h)⟩
  | @restart a _ ih => exact component_playInvariant_of_three _ rfl rfl

set_option maxHeartbeats 1000000 in
/-- The reachability hypothesis of the results on `game.js` below cannot be dropped:
`update()` has no guard of its own.  The playing state `Example.lastBallGame 1` is not
reachable in play; it has a block below the line under which a ball is lost.  There the
frame that loses the last ball at `lives = 1` also destroys the last block: it calls
`gameOver()` and then `levelComplete()` and leaves the state `levelup` with `lives = 0`;
`nextLevel()` then gives a playing state with `lives = 0`, and from a playing state with
`lives = 0` a tick of `game.js` that loses every ball leaves `lives = -1` (as for
`Example.playGame 0 Example.fallingBall`), where the component, which clamps with
`Math.max(0, ·)`, leaves `lives = 0`. -/
theorem gameJs_both_outcomes_outside_play :
    (GameJs.loop halfHost (Example.lastBallGame 1)).outcomes =
        [GameState.gameover, GameState.levelup] ∧
      (GameJs.loop halfHost (Example.lastBallGame 1)).state = GameState.levelup ∧
      (GameJs.loop halfHost (Example.lastBallGame 1)).lives = 0 ∧
      (GameJs.nextLevel halfHost (GameJs.loop halfHost (Example.lastBallGame 1))).state =
        GameState.playing ∧
      (GameJs.nextLevel halfHost (GameJs.loop halfHost (Example.lastBallGame 1))).lives = 0 ∧
      (∀ g : GameJs.Game ℝ, g.state = GameState.playing → g.lives = 0 →
        (GameJs.filterBalls halfHost (g.canvasHeight - 35) g g.balls).2.length = 0 →
        (GameJs.loop halfHost g).lives = -1) ∧
      (GameJs.loop halfHost (Example.playGame 0 Example.fallingBall)).lives = -1 ∧
      (Component.tick halfHost (Example.playApp 0 Example.fallingBall)).lives = 0 := by
  have hnl : ∀ g : GameJs.Game ℝ, (GameJs.nextLevel halfHost g).lives = g.lives := fun _ => rfl
  have hgen : ∀ g : GameJs.Game ℝ, g.state = GameState.playing → g.lives = 0 →
      (GameJs.filterBalls halfHost (g.canvasHeight - 35) g g.balls).2.length = 0 →
      (GameJs.loop halfHost g).lives = -1 := by
    intro g hs hl hlost
    unfold GameJs.loop
    rw [if_pos hs, gameJs_update_lives, if_pos hlost, hl]
    rfl
  have hS1 : (GameJs.loop halfHost (Example.lastBallGame 1)).outcomes =
        [GameState.gameover, GameState.levelup] ∧
      (GameJs.loop halfHost (Example.lastBallGame 1)).state = GameState.levelup ∧
      (GameJs.loop halfHost (Example.lastBallGame 1)).lives = 0 ∧
      (GameJs.loop halfHost (Example.playGame 0 Example.fallingBall)).lives = -1 ∧
      (Component.tick halfHost (Example.playApp 0 Example.fallingBall)).lives = 0 := by
    norm_num [GameJs.loop, Component.tick,
      GameJs.update, GameJs.updateBalls, GameJs.filterBalls, GameJs.ballCallback,
      GameJs.handleWallCollision, GameJs.handlePaddleCollision, GameJs.paddleHit,
      GameJs.handleBlockCollision, GameJs.blockLoop, GameJs.circleRectCollision, GameJs.clamp,
      GameJs.calculateBounce, GameJs.pushParticles, GameJs.updateItems, GameJs.filterItems,
      GameJs.updateParticles, GameJs.checkLevelComplete, GameJs.levelComplete,
      GameJs.gameOver,
      Component.updateGame, Component.simulate, Component.filterBalls,
      Component.ballCallback, Component.wallSection, Component.paddleSection,
      Component.paddleHit, Component.blockSection, Component.blockLoop, Component.blockHit,
      Component.bounce, Component.createParticles, Component.ballLoss, Component.filterItems,
      Component.updateParticles, Component.checkLevelComplete, Component.setLives,
      Example.lastBallGame, Example.lastBlocks, Example.ballUnderLastBlock,
      Example.playGame, Example.playApp, Example.twoBlocks, Example.fallingBall, halfHost,
      GameJs.CONFIG.ball.radius, GameJs.CONFIG.paddle.height,
      GameJs.CONFIG.paddle.offsetBottom, GameJs.CONFIG.item.dropChance,
      Component.BALL_RADIUS, Component.PADDLE_HEIGHT, Component.DROP_CHANCE]
  exact ⟨hS1.1, hS1.2.1, hS1.2.2.1, rfl, by rw [hnl]; exact hS1.2.2.1, hgen, hS1.2.2.2.1,
    hS1.2.2.2.2⟩

set_option maxHeartbeats 1000000 in
/-- C16, as stated, fails in the component.  The playing state `Example.lastBallApp 1`
(level 1, `lives = 1`, the canvas made narrower during play) has one ball, which rises to
`(60, 172)`: there it destroys the last block left and is below the canvas, so it is lost.
The tick makes both calls, `setGameState("levelup")` in the final check of `updateGame` and
`setGameState("gameover")` in the updater of `setLives`: two terminal outcomes are signalled
in one tick.  The state committed is `gameover`, with `lives = 0` and the score raised by the
`10` of the block. -/
theorem C16_counterexample_component_signals_both :
    (Component.tick halfHost (Example.lastBallApp 1)).outcomes =
        [GameState.levelup, GameState.gameover] ∧
      GameState.gameover ∈ (Component.tick halfHost (Example.lastBallApp 1)).outcomes ∧
      GameState.levelup ∈ (Component.tick halfHost (Example.lastBallApp 1)).outcomes ∧
      (Component.tick halfHost (Example.lastBallApp 1)).gameState = GameState.gameover ∧
      (Component.tick halfHost (Example.lastBallApp 1)).lives = 0 ∧
      (Component.tick halfHost (Example.lastBallApp 1)).score = 710 ∧
      ((Component.tick halfHost (Example.lastBallApp 1)).game.blocks.map fun b =>
        (b.destroyed, b.isWall)) = [(true, false), (false, true), (true, false)] := by
  norm_num [Component.tick,
    Component.updateGame, Component.simulate, Component.filterBalls,
    Component.ballCallback, Component.wallSection, Component.paddleSection,
    Component.paddleHit, Component.blockSection, Component.blockLoop, Component.blockHit,
    Component.bounce, Component.createParticles, Component.ballLoss, Component.filterItems,
    Component.updateParticles, Component.checkLevelComplete, Component.setLives,
    Example.lastBallApp, Example.lastBlocks, Example.ballUnderLastBlock,
    halfHost, Component.BALL_RADIUS, Component.PADDLE_HEIGHT, Component.DROP_CHANCE]

/-- C16 (amended): in every state of `game.js` reachable in play (from `startGame()` by
frames that tick only while playing, paddle moves, launches, `nextLevel()` on the level-up
screen and `restartGame()`, whatever the balls are) a frame calls at most one of `gameOver()`
and `levelComplete()`: `gameOver()` when it ticks, the ball filter keeps no ball and
`lives ≤ 1`, otherwise `levelComplete()` when it ticks and no block is left to destroy; and
when the last ball is lost with `lives ≤ 1` the state after the frame is `gameover`.  In the
component `updateGame` calls, from every state, `setGameState("levelup")` when no block is
left to destroy after the tick and `setGameState("gameover")` when the ball filter keeps no
ball and `lives ≤ 1`, both when both conditions hold; whenever the ball filter keeps no ball
and `lives ≤ 1` the state committed is `gameover`: it is not overwritten by `levelup`. -/
theorem C16_one_outcome_in_play_and_gameover_kept {α : Type} [LinearOrderedField α]
    [FloorRing α] (H : Host α) (g : GameJs.Game α) (a : Component.App α)
    (hg : GameJs.ReachableInPlay H g) :
    (GameJs.loop H g).outcomes =
        g.outcomes ++
          (if g.state = GameState.playing ∧
              (GameJs.filterBalls H (g.canvasHeight - 35) g g.balls).2.length = 0 ∧
              g.lives ≤ 1 then [GameState.gameover]
            else if g.state = GameState.playing ∧
              ((GameJs.loop H g).blocks.filter fun b => !b.destroyed && !b.isWall).length = 0
              then [GameState.levelup]
            else []) ∧
      (g.state = GameState.playing →
        (GameJs.filterBalls H (g.canvasHeight - 35) g g.balls).2.length = 0 → g.lives ≤ 1 →
        (GameJs.loop H g).state = GameState.gameover) ∧
      (Component.updateGame H a).outcomes =
        a.outcomes ++
          (if ((Component.updateGame H a).game.blocks.filter
              fun b => !b.destroyed && !b.isWall).length = 0 then [GameState.levelup]
            else []) ++
          (if (Component.filterBalls H a.canvasWidth a.canvasHeight (a.canvasHeight - 35)
                { game := a.game, scoreIncrease := 0, livesChange := 0 }
                a.game.balls).2.length = 0 ∧ a.lives ≤ 1 then [GameState.gameover]
            else []) ∧
      ((Component.filterBalls H a.canvasWidth a.canvasHeight (a.canvasHeight - 35)
            { game := a.game, scoreIncrease := 0, livesChange := 0 }
            a.game.balls).2.length = 0 → a.lives ≤ 1 →
        (Component.updateGame H a).gameState = GameState.gameover) := by
  have hinv := gameJs_reachableInPlay_invariant H g hg
  obtain ⟨co, cs⟩ := component_updateGame_outcomes H a
  refine ⟨?_, ?_, co, ?_⟩
  · unfold GameJs.loop
    by_cases hs : g.state = GameState.playing
    · rw [if_pos hs]
      simp only [hs, true_and]
      have hinv' := gameJs_update_playInvariant H g hinv hs
      obtain ⟨-, -, hl0, -, hiff, -, -, -⟩ := hinv
      obtain ⟨-, -, -, -, hiff', -, -, -⟩ := hinv'
      have hl1 : 1 ≤ g.lives := by
        have hne : g.lives ≠ 0 := by
          intro h
          have := hiff.1 h
          rw [hs] at this
          cases this
        omega
      rw [gameJs_update_outcomes]
      by_cases hK : (GameJs.filterBalls H (g.canvasHeight - 35) g g.balls).2.length = 0 ∧
          g.lives ≤ 1
      · have hlives := gameJs_update_lives H g
        rw [if_pos hK.1] at hlives
        have hgo : (GameJs.update H g).state = GameState.gameover :=
          hiff'.1 (by rw [hlives]; omega)
        have hfs := (gameJs_update_frame H g).2.2.2
        have hrem : ¬ ((GameJs.update H g).blocks.filter
            fun b => !b.destroyed && !b.isWall).length = 0 := by
          intro h0
          rw [if_pos h0, hgo] at hfs
          cases hfs
        rw [if_pos hK, if_pos hK, if_neg hrem, List.append_nil]
      · rw [if_neg hK, if_neg hK, List.append_nil]
    · simp only [if_neg hs, hs, false_and, if_false, List.append_nil]
  · intro hs hK h1
    unfold GameJs.loop
    rw [if_pos hs]
    have hinv' := gameJs_update_playInvariant H g hinv hs
    obtain ⟨-, -, hl0, -, hiff, -, -, -⟩ := hinv
    obtain ⟨-, -, -, -, hiff', -, -, -⟩ := hinv'
    have hl1 : 1 ≤ g.lives := by
      have hne : g.lives ≠ 0 := by
        intro h
        have := hiff.1 h
        rw [hs] at this
        cases this
      omega
    have hlives := gameJs_update_lives H g
    rw [if_pos hK] at hlives
    exact hiff'.1 (by rw [hlives]; omega)
  · intro hK h1
    rw [cs, if_pos ⟨hK, h1⟩]

/-- C16 (amended) at a concrete input: the state after `startGame()` on a canvas of width 480
is reachable in play and playing, and the claim holds for it and for the component state
`Example.lastBallApp 1`. -/
theorem C16_one_outcome_witness :
    GameJs.ReachableInPlay halfHost
        (GameJs.startGame halfHost (GameJs.resizeCanvas GameJs.game 480)) ∧
      (GameJs.startGame halfHost (GameJs.resizeCanvas GameJs.game 480)).state =
        GameState.playing ∧
      ((GameJs.startGame halfHost (GameJs.resizeCanvas GameJs.game 480)).state =
          GameState.playing →
        (GameJs.filterBalls halfHost
          ((GameJs.startGame halfHost (GameJs.resizeCanvas GameJs.game 480)).canvasHeight - 35)
          (GameJs.startGame halfHost (GameJs.resizeCanvas GameJs.game 480))
          (GameJs.startGame halfHost (GameJs.resizeCanvas GameJs.game 480)).balls).2.length = 0 →
        (GameJs.startGame halfHost (GameJs.resizeCanvas GameJs.game 480)).lives ≤ 1 →
        (GameJs.loop halfHost
          (GameJs.startGame halfHost (GameJs.resizeCanvas GameJs.game 480))).state =
          GameState.gameover) :=
  have hg : GameJs.ReachableInPlay halfHost
      (GameJs.startGame halfHost (GameJs.resizeCanvas GameJs.game 480)) :=
    GameJs.ReachableInPlay.start GameJs.game 480 (by norm_num)
  ⟨hg, rfl, (C16_one_outcome_in_play_and_gameover_kept halfHost _ Example.emptyApp hg).2.1⟩

/-- C20: in every state reachable in play (from `startGame()` by frames that tick only while
playing, paddle moves, launches, `nextLevel()` on the level-up screen and
`restartGame()`/`restart()`), `lives` is an integer between `0` and `3`, and `lives = 0`
holds exactly in the state `gameover`, in `game.js` and in the component alike.  A frame
changes `lives` only by taking one life, and does so exactly when it ticks and the ball
filter keeps no ball (in the component: and a life is left to take, which is the case in
every playing state reachable in play). -/
theorem C20_lives_stay_between_zero_and_three {α : Type} [LinearOrderedField α]
    [FloorRing α] (H : Host α) (g : GameJs.Game α) (a : Component.App α)
    (hg : GameJs.ReachableInPlay H g) (ha : Component.ReachableInPlay H a) :
    (0 ≤ g.lives ∧ g.lives ≤ 3 ∧ (g.lives = 0 ↔ g.state = GameState.gameover)) ∧
      (0 ≤ a.lives ∧ a.lives ≤ 3 ∧ (a.lives = 0 ↔ a.gameState = GameState.gameover)) ∧
      (GameJs.loop H g).lives =
        (if g.state = GameState.playing ∧
            (GameJs.filterBalls H (g.canvasHeight - 35) g g.balls).2.length = 0
          then g.lives - 1 else g.lives) ∧
      (Component.tick H a).lives =
        (if a.gameState = GameState.playing ∧
            (Component.filterBalls H a.canvasWidth a.canvasHeight (a.canvasHeight - 35)
              { game := a.game, scoreIncrease := 0, livesChange := 0 }
              a.game.balls).2.length = 0
          then a.lives - 1 else a.lives) := by
  obtain ⟨-, -, gl0, gl3, giff, -, -, -⟩ := gameJs_reachableInPlay_invariant H g hg
  obtain ⟨al0, al3, aiff⟩ := component_reachableInPlay_invariant H a ha
  refine ⟨⟨gl0, gl3, giff⟩, ⟨al0, al3, aiff⟩, ?_, ?_⟩
  · unfold GameJs.loop
    by_cases hs : g.state = GameState.playing
    · rw [if_pos hs, gameJs_update_lives]
      simp only [hs, true_and]
    · rw [if_neg hs, if_neg (fun h => hs h.1)]
  · unfold Component.tick
    by_cases hs : a.gameState = GameState.playing
    · have hl1 : 1 ≤ a.lives := by
        have hne : a.lives ≠ 0 := by
          intro h
          have := aiff.1 h
          rw [hs] at this
          cases this
        omega
      rw [if_pos hs, component_updateGame_lives]
      simp only [hs, true_and]
      by_cases hK : (Component.filterBalls H a.canvasWidth a.canvasHeight (a.canvasHeight - 35)
          { game := a.game, scoreIncrease := 0, livesChange := 0 } a.game.balls).2.length = 0
      · rw [if_pos hK, if_pos hK]
        exact max_eq_right (by omega)
      · rw [if_neg hK, if_neg hK]
    · rw [if_neg hs, if_neg (fun h => hs h.1)]

/-- C20 at a concrete input: the states after `startGame()` and one frame, on a canvas of
width 480 with every draw `0.5`, are reachable in play; their `lives` are between `0` and
`3`, and `0` exactly in the state `gameover`. -/
theorem C20_lives_witness :
    GameJs.ReachableInPlay halfHost
        (GameJs.loop halfHost (GameJs.startGame halfHost (GameJs.resizeCanvas GameJs.game 480))) ∧
      Component.ReachableInPlay halfHost
        (Component.tick halfHost (Component.startGame halfHost Example.emptyApp)) ∧
      (0 ≤ (GameJs.loop halfHost
            (GameJs.startGame halfHost (GameJs.resizeCanvas GameJs.game 480))).lives ∧
        (GameJs.loop halfHost
            (GameJs.startGame halfHost (GameJs.resizeCanvas GameJs.game 480))).lives ≤ 3 ∧
        ((GameJs.loop halfHost
            (GameJs.startGame halfHost (GameJs.resizeCanvas GameJs.game 480))).lives = 0 ↔
          (GameJs.loop halfHost
            (GameJs.startGame halfHost (GameJs.resizeCanvas GameJs.game 480))).state =
            GameState.gameover)) ∧
      (0 ≤ (Component.tick halfHost (Component.startGame halfHost Example.emptyApp)).lives ∧
        (Component.tick halfHost (Component.startGame halfHost Example.emptyApp)).lives ≤ 3 ∧
        ((Component.tick halfHost (Component.startGame halfHost Example.emptyApp)).lives = 0 ↔
          (Component.tick halfHost (Component.startGame halfHost Example.emptyApp)).gameState =
            GameState.gameover)) :=
  have hg : GameJs.ReachableInPlay halfHost
      (GameJs.loop halfHost (GameJs.startGame halfHost (GameJs.resizeCanvas GameJs.game 480))) :=
    GameJs.ReachableInPlay.loop (GameJs.ReachableInPlay.start GameJs.game 480 (by norm_num))
  have ha : Component.ReachableInPlay halfHost
      (Component.tick halfHost (Component.startGame halfHost Example.emptyApp)) :=
    Component.ReachableInPlay.tick (Component.ReachableInPlay.start Example.emptyApp)
  ⟨hg, ha, (C20_lives_stay_between_zero_and_three halfHost _ _ hg ha).1,
    (C20_lives_stay_between_zero_and_three halfHost _ _ hg ha).2.1⟩

/-! ## The two block hit tests -/

/-- JavaScript `clamp` of `game.js` returns a value between its bounds when they are in order. -/
theorem gameJs_clamp_mem {α : Type} [LinearOrderedField α] (value lo hi : α) (h : lo ≤ hi) :
    lo ≤ GameJs.clamp value lo hi ∧ GameJs.clamp value lo hi ≤ hi := by
  unfold GameJs.clamp
  exact ⟨le_max_left _ _, max_le h (min_le_left _ _)⟩

/-- A sum of two squares below `r²`, with `r > 0`, has its first term between `-r` and `r`. -/
theorem abs_lt_of_sq_add_lt {α : Type} [LinearOrderedField α] (a b r : α) (hr : 0 < r)
    (h : a * a + b * b < r * r) : -r < a ∧ a < r := by
  constructor
  · by_contra hc
    push_neg at hc
    nlinarith [mul_self_nonneg b, mul_nonneg (by linarith : (0 : α) ≤ -a - r) hr.le,
      mul_self_nonneg (a + r)]
  · by_contra hc
    push_neg at hc
    nlinarith [mul_self_nonneg b, mul_nonneg (by linarith : (0 : α) ≤ a - r) hr.le,
      mul_self_nonneg (a - r)]

/-- The circle-rectangle tests of `game.js` and of `utils.js` are the same function. -/
theorem circleRectCollision_gameJs_eq_utils {α : Type} [LinearOrderedField α]
    (cx cy r x y w h : α) :
    GameJs.circleRectCollision cx cy r x y w h = Utils.circleRectCollision cx cy r x y w h := by
  unfold GameJs.circleRectCollision Utils.circleRectCollision GameJs.clamp
  simp only [min_comm]

/-- A circle of radius `r > 0` that passes the circle-rectangle test of `game.js` against a
rectangle of non-negative width and height satisfies the four strict bounding-box
inequalities. -/
theorem circleRect_implies_box {α : Type} [LinearOrderedField α] (cx cy r x y w h : α)
    (hr : 0 < r) (hw : 0 ≤ w) (hh : 0 ≤ h)
    (hit : GameJs.circleRectCollision cx cy r x y w h = true) :
    cx + r > x ∧ cx - r < x + w ∧ cy + r > y ∧ cy - r < y + h := by
  obtain ⟨x1, x2⟩ := gameJs_clamp_mem cx x (x + w) (by linarith)
  obtain ⟨y1, y2⟩ := gameJs_clamp_mem cy y (y + h) (by linarith)
  unfold GameJs.circleRectCollision at hit
  simp only [decide_eq_true_eq] at hit
  obtain ⟨a1, a2⟩ := abs_lt_of_sq_add_lt _ _ r hr hit
  obtain ⟨b1, b2⟩ := abs_lt_of_sq_add_lt _ _ r hr (by rw [add_comm]; exact hit)
  refine ⟨?_, ?_, ?_, ?_⟩ <;> linarith

/-- C21: the block hit test of the component is strictly weaker than the circle-rectangle test
of `game.js`.  For every centre, radius `r > 0` and rectangle of non-negative width and
height, a circle that passes `circleRectCollision` satisfies the four strict bounding-box
inequalities; at the radius `6` of both implementations that is the test of `updateGame`.  The
ball at `(-5, -5)`, near the corner `(0, 0)` of a block, passes the test of `updateGame` and
fails `circleRectCollision`.  The `circleRectCollision` of `game.js` and that of `utils.js`
agree on every input. -/
theorem C21_box_test_weaker_than_circle_test {α : Type} [LinearOrderedField α]
    (cx cy r x y w h : α) (ball : Ball α) (block : Block α) :
    (0 < r → 0 ≤ w → 0 ≤ h → GameJs.circleRectCollision cx cy r x y w h = true →
        cx + r > x ∧ cx - r < x + w ∧ cy + r > y ∧ cy - r < y + h) ∧
      (0 ≤ block.width → 0 ≤ block.height →
        GameJs.circleRectCollision ball.x ball.y GameJs.CONFIG.ball.radius block.x block.y
          block.width block.height = true →
        Component.blockHit ball block = true) ∧
      (Component.blockHit (Example.ballNearCorner : Ball α) Example.sideBlock = true ∧
        GameJs.circleRectCollision (Example.ballNearCorner : Ball α).x
          (Example.ballNearCorner : Ball α).y GameJs.CONFIG.ball.radius
          (Example.sideBlock : Block α).x (Example.sideBlock : Block α).y
          (Example.sideBlock : Block α).width (Example.sideBlock : Block α).height = false) ∧
      GameJs.circleRectCollision cx cy r x y w h =
        Utils.circleRectCollision cx cy r x y w h := by
  refine ⟨circleRect_implies_box cx cy r x y w h, ?_, ?_,
    circleRectCollision_gameJs_eq_utils cx cy r x y w h⟩
  · intro hw hh hit
    obtain ⟨h1, h2, h3, h4⟩ := circleRect_implies_box ball.x ball.y 6 block.x block.y
      block.width block.height (by norm_num) hw hh hit
    simp only [Component.blockHit, Component.BALL_RADIUS, Bool.and_eq_true, decide_eq_true_eq]
    exact ⟨⟨⟨h1, h2⟩, h3⟩, h4⟩
  · constructor
    · norm_num [Component.blockHit, Component.BALL_RADIUS, Example.ballNearCorner,
        Example.sideBlock]
    · norm_num [GameJs.circleRectCollision, GameJs.clamp, GameJs.CONFIG.ball.radius,
        Example.ballNearCorner, Example.sideBlock]

/-- C21 at a concrete input: the ball at `(40, -1)` passes the circle-rectangle test against
the block `[0, 36] × [0, 16]`, and satisfies the four bounding-box inequalities. -/
theorem C21_box_test_witness :
    ((0 : ℚ) < 6 ∧ (0 : ℚ) ≤ 36 ∧ (0 : ℚ) ≤ 16 ∧
        GameJs.circleRectCollision (40 : ℚ) (-1) 6 0 0 36 16 = true) ∧
      ((40 : ℚ) + 6 > 0 ∧ (40 : ℚ) - 6 < 0 + 36 ∧ (-1 : ℚ) + 6 > 0 ∧ (-1 : ℚ) - 6 < 0 + 16) :=
  have hit : GameJs.circleRectCollision (40 : ℚ) (-1) 6 0 0 36 16 = true := by
    norm_num [GameJs.circleRectCollision, GameJs.clamp]
  ⟨⟨by norm_num, by norm_num, by norm_num, hit⟩,
    (C21_box_test_weaker_than_circle_test (40 : ℚ) (-1) 6 0 0 36 16 Example.ballAtBlockSide
      Example.sideBlock).1 (by norm_num) (by norm_num) (by norm_num) hit⟩

/-! ## The wall indices are valid -/

/-- Marking one more position: the positions still to count fall by the new one. -/
theorem card_insert_sdiff {β : Type} [DecidableEq β] (S U : Finset β) (p : β) (hp : p ∉ U) :
    (insert p S \ U).card = (S \ insert p U).card + 1 := by
  rw [Finset.insert_sdiff_of_not_mem _ hp, Finset.sdiff_insert]
  have h : insert p (S \ U) = insert p ((S \ U).erase p) := by
    ext x
    simp only [Finset.mem_insert, Finset.mem_erase]
    tauto
  rw [h, Finset.card_insert_of_not_mem (Finset.not_mem_erase p _)]

/-- Modifying an element that does not count into one that does raises the count by one. -/
theorem countP_modify_add_one {β : Type} (p : β → Bool) (f : β → β) (n : ℕ) (l : List β)
    (b : β) (hb : l[n]? = some b) (h0 : p b = false) (h1 : p (f b) = true) :
    (List.modify f n l).countP p = l.countP p + 1 := by
  induction l generalizing n with
  | nil => simp at hb
  | cons c rest ih =>
    cases n with
    | zero =>
      simp only [List.getElem?_cons_zero, Option.some.injEq] at hb
      subst hb
      rw [List.modify_zero_cons, List.countP_cons, List.countP_cons, h0, h1]
      simp
    | succ n =>
      simp only [List.getElem?_cons_succ] at hb
      rw [List.modify_succ_cons, List.countP_cons, List.countP_cons, ih n hb]
      omega

/-- The list of the positions drawn in `n + 1` rounds: the first one, then those of the `n`
rounds that start two draws later. -/
theorem gameJs_wallPosition_succ {α : Type} [LinearOrderedField α] [FloorRing α] (H : Host α)
    (actualRows : Int) (rng n : ℕ) :
    (List.range (n + 1)).map (GameJs.wallPosition H actualRows rng) =
      GameJs.wallPosition H actualRows rng 0 ::
        (List.range n).map (GameJs.wallPosition H actualRows (rng + 2)) := by
  rw [List.range_succ_eq_map, List.map_cons, List.map_map]
  congr 1
  apply List.map_congr_left
  intro i _
  simp only [Function.comp, GameJs.wallPosition, Nat.succ_eq_add_one]
  rw [show rng + 2 * (i + 1) = rng + 2 + 2 * i by ring]

/-- Every position drawn by `game.js` lies in the rows `2..min(actualRows - 2, 6)` and the
columns `1..10`. -/
theorem gameJs_wallPosition_bounds {α : Type} [LinearOrderedField α] [FloorRing α]
    (H : Host α) (actualRows : Int) (hrows : 4 ≤ actualRows) (rng i : ℕ) :
    2 ≤ (GameJs.wallPosition H actualRows rng i).1 ∧
      (GameJs.wallPosition H actualRows rng i).1 ≤ min (actualRows - 2) 6 ∧
      1 ≤ (GameJs.wallPosition H actualRows rng i).2 ∧
      (GameJs.wallPosition H actualRows rng i).2 ≤ 10 := by
  obtain ⟨r1, r2⟩ := gameJs_randomInt_bounds (H.random (rng + 2 * i))
    (H.random_mem _).1 (H.random_mem _).2 2 (min (actualRows - 2) 6) (by omega)
  obtain ⟨c1, c2⟩ := gameJs_randomInt_bounds (H.random (rng + 2 * i + 1))
    (H.random_mem _).1 (H.random_mem _).2 1 (((GameJs.CONFIG.block.cols : ℕ) : Int) - 2)
    (by unfold GameJs.CONFIG.block.cols; omega)
  unfold GameJs.CONFIG.block.cols at c2
  refine ⟨r1, r2, c1, ?_⟩
  unfold GameJs.wallPosition GameJs.CONFIG.block.cols
  dsimp only
  omega

/-- Marking the block of a position that is not yet used, at a valid index: one more wall,
and the walls are those of the used positions and the new one. -/
theorem mark_new_position {α : Type} (blocks : List (Block α)) (used used' : List (Int × Int))
    (row col : Int) (color : String) (hrow : 0 ≤ row) (hcol0 : 0 ≤ col) (hcol : col < 12)
    (hlt : row * 12 + col < (blocks.length : Int))
    (hused : ∀ q ∈ used, 0 ≤ q.1 ∧ 0 ≤ q.2 ∧ q.2 < 12)
    (hinv : WallsAt used blocks) (hmem : (row, col) ∉ used)
    (hused' : ∀ q, q ∈ used' ↔ q = (row, col) ∨ q ∈ used) :
    (List.modify (fun b => { b with isWall := true, color := color, hits := -1 })
        (row * 12 + col).toNat blocks).countP (fun b => b.isWall) =
        blocks.countP (fun b => b.isWall) + 1 ∧
      WallsAt used' (List.modify (fun b => { b with isWall := true, color := color, hits := -1 })
        (row * 12 + col).toNat blocks) := by
  have hnat : (row * 12 + col).toNat < blocks.length := by omega
  have hget : blocks[(row * 12 + col).toNat]? = some (blocks[(row * 12 + col).toNat]) :=
    List.getElem?_eq_getElem hnat
  have hnw : (blocks[(row * 12 + col).toNat]).isWall = false := by
    by_contra hc
    have hc' : (blocks[(row * 12 + col).toNat]).isWall = true := by simpa using hc
    obtain ⟨q, hq, hqk⟩ := (hinv _ _ hget).1 hc'
    obtain ⟨q1, q2, q3⟩ := hused q hq
    have h1 : q.1 = row := by omega
    have h2 : q.2 = col := by omega
    exact hmem (by rw [← h1, ← h2]; exact hq)
  constructor
  · exact countP_modify_add_one _ _ _ _ _ hget hnw rfl
  · intro k b hk
    rw [List.getElem?_modify] at hk
    cases hb0 : blocks[k]? with
    | none => rw [hb0] at hk; cases hk
    | some b0 =>
      rw [hb0] at hk
      simp only [Option.map_eq_map, Option.map_some', Option.some.injEq] at hk
      by_cases hik : (row * 12 + col).toNat = k
      · rw [if_pos hik] at hk
        rw [← hk]
        exact ⟨fun _ => ⟨(row, col), (hused' _).2 (Or.inl rfl), hik⟩, fun _ => rfl⟩
      · rw [if_neg hik] at hk
        rw [← hk, hinv k b0 hb0]
        constructor
        · rintro ⟨q, hq, hqk⟩
          exact ⟨q, (hused' q).2 (Or.inr hq), hqk⟩
        · rintro ⟨q, hq, hqk⟩
          rcases (hused' q).1 hq with rfl | hq'
          · exact absurd hqk hik
          · exact ⟨q, hq', hqk⟩


/-- The wall loop of `game.js`, started with the walls at the used positions: every new
position drawn adds exactly one wall, and the indices are valid throughout. -/
theorem gameJs_wallLoop_count {α : Type} [LinearOrderedField α] [FloorRing α] (H : Host α)
    (actualRows : Int) (hrows : 4 ≤ actualRows) (n rng : ℕ) (used : List (Int × Int))
    (blocks : List (Block α)) (hlen : actualRows * 12 ≤ (blocks.length : Int))
    (hused : ∀ q ∈ used, 0 ≤ q.1 ∧ 0 ≤ q.2 ∧ q.2 < 12) (hinv : WallsAt used blocks) :
    (GameJs.wallLoop H actualRows n rng used blocks).1.countP (fun b => b.isWall) =
      blocks.countP (fun b => b.isWall) +
        (((List.range n).map (GameJs.wallPosition H actualRows rng)).toFinset \
          used.toFinset).card := by
  induction n generalizing rng used blocks with
  | zero => simp [GameJs.wallLoop]
  | succ n ih =>
    have hb : 2 ≤ GameJs.randomInt (H.random rng) 2 (min (actualRows - 2) 6) ∧
        GameJs.randomInt (H.random rng) 2 (min (actualRows - 2) 6) ≤ min (actualRows - 2) 6 ∧
        1 ≤ GameJs.randomInt (H.random (rng + 1)) 1
          (((GameJs.CONFIG.block.cols : ℕ) : Int) - 2) ∧
        GameJs.randomInt (H.random (rng + 1)) 1
          (((GameJs.CONFIG.block.cols : ℕ) : Int) - 2) ≤ 10 :=
      gameJs_wallPosition_bounds H actualRows hrows rng 0
    have hp : GameJs.wallPosition H actualRows rng 0 =
        (GameJs.randomInt (H.random rng) 2 (min (actualRows - 2) 6),
          GameJs.randomInt (H.random (rng + 1)) 1
            (((GameJs.CONFIG.block.cols : ℕ) : Int) - 2)) := rfl
    rw [gameJs_wallPosition_succ, List.toFinset_cons, hp, GameJs.wallLoop]
    generalize GameJs.randomInt (H.random rng) 2 (min (actualRows - 2) 6) = row at hb ⊢
    generalize GameJs.randomInt (H.random (rng + 1)) 1
      (((GameJs.CONFIG.block.cols : ℕ) : Int) - 2) = col at hb ⊢
    obtain ⟨r1, r2, c1, c2⟩ := hb
    by_cases hmem : (row, col) ∈ used
    · rw [if_neg (not_not.2 hmem), Finset.insert_sdiff_of_mem _ (List.mem_toFinset.2 hmem)]
      exact ih (rng + 2) used blocks hlen hused hinv
    · rw [if_pos hmem]
      have hcols : ((GameJs.CONFIG.block.cols : ℕ) : Int) = 12 := rfl
      have hlt : row * 12 + col < (blocks.length : Int) := by omega
      have hmark : GameJs.markWall blocks (row * ((GameJs.CONFIG.block.cols : ℕ) : Int) + col) =
          List.modify
            (fun b => { b with isWall := true, color := GameJs.CONFIG.colors.wall, hits := -1 })
            (row * 12 + col).toNat blocks := by
        rw [hcols, GameJs.markWall, if_pos hlt]
      obtain ⟨m1, m2⟩ := mark_new_position blocks used ((row, col) :: used) row col
        GameJs.CONFIG.colors.wall (by omega) (by omega) (by omega) hlt hused hinv hmem
        (fun q => List.mem_cons)
      rw [hmark, ih (rng + 2) ((row, col) :: used) _
        (by rw [List.length_modify]; exact hlen)
        (by
          intro q hq
          rcases List.mem_cons.1 hq with rfl | hq'
          · exact ⟨by dsimp only; omega, by dsimp only; omega, by dsimp only; omega⟩
          · exact hused q hq')
        m2, m1, List.toFinset_cons,
        card_insert_sdiff _ _ _ (fun h => hmem (List.mem_toFinset.1 h))]
      omega


/-- The list of the positions drawn by the component in `n + 1` rounds: the first one, then
those of the `n` rounds that start two draws later. -/
theorem component_wallPosition_succ {α : Type} [LinearOrderedField α] [FloorRing α]
    (H : Host α) (rows : Int) (rng n : ℕ) :
    (List.range (n + 1)).map (Component.wallPosition H rows rng) =
      Component.wallPosition H rows rng 0 ::
        (List.range n).map (Component.wallPosition H rows (rng + 2)) := by
  rw [List.range_succ_eq_map, List.map_cons, List.map_map]
  congr 1
  apply List.map_congr_left
  intro i _
  simp only [Function.comp, Component.wallPosition, Nat.succ_eq_add_one]
  rw [show rng + 2 * (i + 1) = rng + 2 + 2 * i by ring]

/-- The floor of `u · m` for a draw `u` in `[0, 1)` and an integer `m > 0` lies in
`0..m - 1`. -/
theorem floor_draw_bounds {α : Type} [LinearOrderedField α] [FloorRing α] (u : α)
    (h0 : 0 ≤ u) (h1 : u < 1) (m : Int) (hm : 0 < m) :
    0 ≤ ⌊u * (m : α)⌋ ∧ ⌊u * (m : α)⌋ ≤ m - 1 := by
  have hpos : (0 : α) < (m : α) := by exact_mod_cast hm
  have hlt : ⌊u * (m : α)⌋ < m := by
    rw [Int.floor_lt]
    calc u * (m : α) < 1 * (m : α) := mul_lt_mul_of_pos_right h1 hpos
      _ = (m : α) := one_mul _
  exact ⟨Int.floor_nonneg.2 (mul_nonneg h0 hpos.le), by omega⟩

/-- Every position drawn by the component lies in the rows `2..min(rows - 2, 6) + 1` and the
columns `1..10`. -/
theorem component_wallPosition_bounds {α : Type} [LinearOrderedField α] [FloorRing α]
    (H : Host α) (rows : Int) (hrows : 3 ≤ rows) (rng i : ℕ) :
    2 ≤ (Component.wallPosition H rows rng i).1 ∧
      (Component.wallPosition H rows rng i).1 ≤ min (rows - 2) 6 + 1 ∧
      1 ≤ (Component.wallPosition H rows rng i).2 ∧
      (Component.wallPosition H rows rng i).2 ≤ 10 := by
  obtain ⟨r1, r2⟩ := floor_draw_bounds (H.random (rng + 2 * i)) (H.random_mem _).1
    (H.random_mem _).2 (min (rows - 2) 6) (by omega)
  obtain ⟨c1, c2⟩ := floor_draw_bounds (H.random (rng + 2 * i + 1)) (H.random_mem _).1
    (H.random_mem _).2 (((Component.BLOCK_COLS : ℕ) : Int) - 2)
    (by unfold Component.BLOCK_COLS; omega)
  unfold Component.BLOCK_COLS at c1 c2
  unfold Component.wallPosition Component.BLOCK_COLS
  dsimp only
  omega

/-- The wall loop of the component, started with the walls at the used positions: every new
position drawn adds exactly one wall, and the indices are valid throughout. -/
theorem component_wallLoop_count {α : Type} [LinearOrderedField α] [FloorRing α] (H : Host α)
    (rows : Int) (hrows : 3 ≤ rows) (n rng : ℕ) (used : List (Int × Int))
    (blocks : List (Block α)) (hlen : rows * 12 ≤ (blocks.length : Int))
    (hused : ∀ q ∈ used, 0 ≤ q.1 ∧ 0 ≤ q.2 ∧ q.2 < 12) (hinv : WallsAt used blocks) :
    (Component.wallLoop H rows n rng used blocks).1.countP (fun b => b.isWall) =
      blocks.countP (fun b => b.isWall) +
        (((List.range n).map (Component.wallPosition H rows rng)).toFinset \
          used.toFinset).card := by
  induction n generalizing rng used blocks with
  | zero => simp [Component.wallLoop]
  | succ n ih =>
    have hb : 2 ≤ ⌊H.random rng * ((min (rows - 2) 6 : Int) : α)⌋ + 2 ∧
        ⌊H.random rng * ((min (rows - 2) 6 : Int) : α)⌋ + 2 ≤ min (rows - 2) 6 + 1 ∧
        1 ≤ ⌊H.random (rng + 1) *
          (((((Component.BLOCK_COLS : ℕ) : Int) - 2 : Int)) : α)⌋ + 1 ∧
        ⌊H.random (rng + 1) *
          (((((Component.BLOCK_COLS : ℕ) : Int) - 2 : Int)) : α)⌋ + 1 ≤ 10 :=
      component_wallPosition_bounds H rows hrows rng 0
    have hp : Component.wallPosition H rows rng 0 =
        (⌊H.random rng * ((min (rows - 2) 6 : Int) : α)⌋ + 2,
          ⌊H.random (rng + 1) *
            (((((Component.BLOCK_COLS : ℕ) : Int) - 2 : Int)) : α)⌋ + 1) := rfl
    rw [component_wallPosition_succ, List.toFinset_cons, hp, Component.wallLoop]
    generalize ⌊H.random rng * ((min (rows - 2) 6 : Int) : α)⌋ + 2 = row at hb ⊢
    generalize ⌊H.random (rng + 1) *
      (((((Component.BLOCK_COLS : ℕ) : Int) - 2 : Int)) : α)⌋ + 1 = col at hb ⊢
    obtain ⟨r1, r2, c1, c2⟩ := hb
    have hany : (used.any fun p => decide (p.1 = row ∧ p.2 = col)) = true ↔
        (row, col) ∈ used := by
      rw [List.any_eq_true]
      constructor
      · rintro ⟨p, hp1, hp2⟩
        simp only [decide_eq_true_eq] at hp2
        have : p = (row, col) := Prod.ext hp2.1 hp2.2
        rw [← this]
        exact hp1
      · intro h
        exact ⟨(row, col), h, by simp⟩
    by_cases hmem : (row, col) ∈ used
    · rw [if_neg (by rw [hany.2 hmem]; simp),
        Finset.insert_sdiff_of_mem _ (List.mem_toFinset.2 hmem)]
      exact ih (rng + 2) used blocks hlen hused hinv
    · have hfalse : (used.any fun p => decide (p.1 = row ∧ p.2 = col)) = false := by
        by_contra hc
        exact hmem (hany.1 (by simpa using hc))
      rw [if_pos (by rw [hfalse]; rfl)]
      have hcols : ((Component.BLOCK_COLS : ℕ) : Int) = 12 := rfl
      have hlt : row * 12 + col < (blocks.length : Int) := by omega
      have hmark : Component.markWall blocks (row * ((Component.BLOCK_COLS : ℕ) : Int) + col) =
          List.modify
            (fun b => { b with isWall := true, color := Component.COLORS.wall, hits := -1 })
            (row * 12 + col).toNat blocks := by
        rw [hcols, Component.markWall, if_pos hlt]
      obtain ⟨m1, m2⟩ := mark_new_position blocks used (used ++ [(row, col)]) row col
        Component.COLORS.wall (by omega) (by omega) (by omega) hlt hused hinv hmem
        (fun q => by rw [List.mem_append, List.mem_singleton]; exact or_comm)
      have hfin : (used ++ [(row, col)]).toFinset = insert (row, col) used.toFinset := by
        ext q
        simp only [List.mem_toFinset, List.mem_append, List.mem_singleton, Finset.mem_insert]
        exact or_comm
      rw [hmark, ih (rng + 2) (used ++ [(row, col)]) _
        (by rw [List.length_modify]; exact hlen)
        (by
          intro q hq
          rcases List.mem_append.1 hq with hq' | hq'
          · exact hused q hq'
          · rw [List.mem_singleton.1 hq']
            exact ⟨by dsimp only; omega, by dsimp only; omega, by dsimp only; omega⟩)
        m2, m1, hfin,
        card_insert_sdiff _ _ _ (fun h => hmem (List.mem_toFinset.1 h))]
      omega


/-- The grid has no wall: its walls are those of the empty list of positions. -/
theorem gridBlocks_wallsAt {α : Type} [LinearOrderedField α] (canvasWidth : α) (rows : Int) :
    WallsAt [] (GameJs.gridBlocks canvasWidth rows) ∧
      WallsAt [] (Component.gridBlocks canvasWidth rows) := by
  have key : ∀ l : List (Block α), (∀ b ∈ l, b.isWall = false) → WallsAt [] l := by
    intro l hl k b hk
    have hb : b ∈ l := List.mem_iff_getElem?.2 ⟨k, hk⟩
    rw [hl b hb]
    simp
  constructor
  · apply key
    rw [gameJs_gridBlocks_eq]
    intro b hb
    obtain ⟨k, -, rfl⟩ := List.mem_map.1 hb
    rfl
  · apply key
    rw [component_gridBlocks_eq]
    intro b hb
    obtain ⟨k, -, rfl⟩ := List.mem_map.1 hb
    rfl

/-- No block of the grid is destroyed. -/
theorem gridBlocks_not_destroyed {α : Type} [LinearOrderedField α] (canvasWidth : α)
    (rows : Int) :
    (∀ b ∈ GameJs.gridBlocks canvasWidth rows, b.destroyed = false) ∧
      ∀ b ∈ Component.gridBlocks canvasWidth rows, b.destroyed = false := by
  rw [gameJs_gridBlocks_eq, component_gridBlocks_eq]
  constructor <;>
  · intro b hb
    obtain ⟨k, -, rfl⟩ := List.mem_map.1 hb
    rfl

/-- Two lists with the same position, size and `destroyed` flag at every place: when no block
of the one is destroyed, no block of the other is. -/
theorem not_destroyed_of_keys {α : Type} (l l0 : List (Block α))
    (h : (l.map fun b => (b.x, b.y, b.width, b.height, b.destroyed)) =
      (l0.map fun b => (b.x, b.y, b.width, b.height, b.destroyed)))
    (h0 : ∀ b ∈ l0, b.destroyed = false) : ∀ b ∈ l, b.destroyed = false := by
  intro b hb
  have hmem : (b.x, b.y, b.width, b.height, b.destroyed) ∈
      l.map fun b => (b.x, b.y, b.width, b.height, b.destroyed) :=
    List.mem_map.2 ⟨b, hb, rfl⟩
  rw [h] at hmem
  obtain ⟨b0, hb0, he⟩ := List.mem_map.1 hmem
  simp only [Prod.mk.injEq] at he
  rw [← he.2.2.2.2]
  exact h0 b0 hb0

/-- When no block is destroyed, the blocks left to destroy and the walls make up the
list. -/
theorem remaining_add_walls {α : Type} (l : List (Block α))
    (h : ∀ b ∈ l, b.destroyed = false) :
    (l.filter fun b => !b.destroyed && !b.isWall).length + l.countP (fun b => b.isWall) =
      l.length := by
  induction l with
  | nil => rfl
  | cons b rest ih =>
    have ih' := ih (fun c hc => h c (List.mem_cons_of_mem _ hc))
    have hd := h b (List.mem_cons_self _ _)
    rw [List.filter_cons, List.countP_cons, List.length_cons]
    cases hw : b.isWall <;> simp [hd, hw] <;> omega

/-- As many distinct positions are drawn in `n ≥ 1` rounds as the list of the positions has
distinct elements: at least one and at most `n`. -/
theorem dedup_length_bounds {β : Type} [DecidableEq β] (f : ℕ → β) (n : ℕ) (hn : 1 ≤ n) :
    1 ≤ ((List.range n).map f).dedup.length ∧ ((List.range n).map f).dedup.length ≤ n := by
  constructor
  · apply List.length_pos.2
    intro h
    rw [List.dedup_eq_nil] at h
    have := congrArg List.length h
    rw [List.length_map, List.length_range] at this
    simp only [List.length_nil] at this
    omega
  · have := (List.dedup_sublist ((List.range n).map f)).length_le
    rw [List.length_map, List.length_range] at this
    exact this


/-- The layout of `game.js`: its length, the validity of every wall index, the number of
walls, and that no block is destroyed. -/
theorem gameJs_createBlocks_walls {α : Type} [LinearOrderedField α] [FloorRing α]
    (H : Host α) (g : GameJs.Game α) (level : ℕ) :
    (GameJs.createBlocks H g level).1.length = 12 * min (10 + level / 2) 12 ∧
      (∀ i : ℕ,
        0 ≤ (GameJs.wallPosition H (min (10 + ((level / 2 : ℕ) : Int)) 12) g.rng i).1 * 12 +
            (GameJs.wallPosition H (min (10 + ((level / 2 : ℕ) : Int)) 12) g.rng i).2 ∧
          (GameJs.wallPosition H (min (10 + ((level / 2 : ℕ) : Int)) 12) g.rng i).1 * 12 +
              (GameJs.wallPosition H (min (10 + ((level / 2 : ℕ) : Int)) 12) g.rng i).2 <
            ((GameJs.createBlocks H g level).1.length : Int)) ∧
      (GameJs.createBlocks H g level).1.countP (fun b => b.isWall) =
        ((List.range (min (3 + level) 8)).map
          (GameJs.wallPosition H (min (10 + ((level / 2 : ℕ) : Int)) 12) g.rng)).dedup.length ∧
      ∀ b ∈ (GameJs.createBlocks H g level).1, b.destroyed = false := by
  have hrows := rows_toNat level
  have hrows4 : (4 : Int) ≤ min (10 + ((level / 2 : ℕ) : Int)) 12 := by omega
  obtain ⟨g1, g2, -⟩ := gameJs_wallLoop_spec H
    (min (10 + ((level / 2 : ℕ) : Int)) 12) (min (3 + level) 8) g.rng []
    (GameJs.gridBlocks g.canvasWidth (min (10 + ((level / 2 : ℕ) : Int)) 12))
  have hlenG : (GameJs.gridBlocks g.canvasWidth (min (10 + ((level / 2 : ℕ) : Int)) 12)).length =
      12 * min (10 + level / 2) 12 := by
    rw [gameJs_gridBlocks_eq, List.length_map, List.length_range, hrows, Nat.mul_comm]
  have hlen : (GameJs.createBlocks H g level).1.length = 12 * min (10 + level / 2) 12 :=
    g1.trans hlenG
  have hcount := gameJs_wallLoop_count H (min (10 + ((level / 2 : ℕ) : Int)) 12) hrows4
    (min (3 + level) 8) g.rng []
    (GameJs.gridBlocks g.canvasWidth (min (10 + ((level / 2 : ℕ) : Int)) 12))
    (by rw [hlenG]; omega) (fun q hq => absurd hq (List.not_mem_nil _))
    (gridBlocks_wallsAt g.canvasWidth _).1
  rw [(gridBlocks_countP_isWall g.canvasWidth _).1, Nat.zero_add, List.toFinset_nil,
    Finset.sdiff_empty, List.card_toFinset] at hcount
  refine ⟨hlen, ?_, hcount, ?_⟩
  · intro i
    obtain ⟨r1, r2, c1, c2⟩ := gameJs_wallPosition_bounds H
      (min (10 + ((level / 2 : ℕ) : Int)) 12) hrows4 g.rng i
    rw [hlen]
    constructor <;> omega
  · exact not_destroyed_of_keys _ _ g2 (gridBlocks_not_destroyed g.canvasWidth _).1

/-- The layout of the component: its length, the validity of every wall index, the number of
walls, and that no block is destroyed. -/
theorem component_initBlocks_walls {α : Type} [LinearOrderedField α] [FloorRing α]
    (H : Host α) (rng : ℕ) (level : ℕ) (canvasWidth : α) :
    (Component.initBlocks H rng level canvasWidth).1.length = 12 * min (10 + level / 2) 12 ∧
      (∀ i : ℕ,
        0 ≤ (Component.wallPosition H (min (10 + ((level / 2 : ℕ) : Int)) 12) rng i).1 * 12 +
            (Component.wallPosition H (min (10 + ((level / 2 : ℕ) : Int)) 12) rng i).2 ∧
          (Component.wallPosition H (min (10 + ((level / 2 : ℕ) : Int)) 12) rng i).1 * 12 +
              (Component.wallPosition H (min (10 + ((level / 2 : ℕ) : Int)) 12) rng i).2 <
            ((Component.initBlocks H rng level canvasWidth).1.length : Int)) ∧
      (Component.initBlocks H rng level canvasWidth).1.countP (fun b => b.isWall) =
        ((List.range (min (3 + level) 8)).map
          (Component.wallPosition H (min (10 + ((level / 2 : ℕ) : Int)) 12) rng)).dedup.length ∧
      ∀ b ∈ (Component.initBlocks H rng level canvasWidth).1, b.destroyed = false := by
  have hrows := rows_toNat level
  have hrows3 : (3 : Int) ≤ min (10 + ((level / 2 : ℕ) : Int)) 12 := by omega
  obtain ⟨g1, g2, -⟩ := component_wallLoop_spec H
    (min (10 + ((level / 2 : ℕ) : Int)) 12) (min (3 + level) 8) rng []
    (Component.gridBlocks canvasWidth (min (10 + ((level / 2 : ℕ) : Int)) 12))
  have hlenG : (Component.gridBlocks canvasWidth (min (10 + ((level / 2 : ℕ) : Int)) 12)).length =
      12 * min (10 + level / 2) 12 := by
    rw [component_gridBlocks_eq, List.length_map, List.length_range, hrows, Nat.mul_comm]
  have hlen : (Component.initBlocks H rng level canvasWidth).1.length =
      12 * min (10 + level / 2) 12 := g1.trans hlenG
  have hcount := component_wallLoop_count H (min (10 + ((level / 2 : ℕ) : Int)) 12) hrows3
    (min (3 + level) 8) rng []
    (Component.gridBlocks canvasWidth (min (10 + ((level / 2 : ℕ) : Int)) 12))
    (by rw [hlenG]; omega) (fun q hq => absurd hq (List.not_mem_nil _))
    (gridBlocks_wallsAt canvasWidth _).2
  rw [(gridBlocks_countP_isWall canvasWidth _).2, Nat.zero_add, List.toFinset_nil,
    Finset.sdiff_empty, List.card_toFinset] at hcount
  refine ⟨hlen, ?_, hcount, ?_⟩
  · intro i
    obtain ⟨r1, r2, c1, c2⟩ := component_wallPosition_bounds H
      (min (10 + ((level / 2 : ℕ) : Int)) 12) hrows3 rng i
    rw [hlen]
    constructor <;> omega
  · exact not_destroyed_of_keys _ _ g2 (gridBlocks_not_destroyed canvasWidth _).2

/-- C22: in the layout generator (`createBlocks` of `game.js`, `initBlocks` of the
component), for every level and every sequence of draws, the index `row · 12 + col` computed
in every round of the wall loop satisfies `0 ≤ blockIndex < blocks.length`, so the guard
never fails; the number of walls is the number of distinct positions drawn in the
`min(3 + level, 8)` rounds, which is at least `1` (and at most `8`); no block is destroyed,
so the blocks left to destroy are all the `12 · rows` blocks but the walls, and at least one
is left: the level-complete check does not fire on a fresh layout. -/
theorem C22_wall_indices_valid_and_level_not_complete {α : Type} [LinearOrderedField α]
    [FloorRing α] (H : Host α) (g : GameJs.Game α) (rng : ℕ) (canvasWidth : α) (level : ℕ) :
    ((∀ i : ℕ,
        0 ≤ (GameJs.wallPosition H (min (10 + ((level / 2 : ℕ) : Int)) 12) g.rng i).1 * 12 +
            (GameJs.wallPosition H (min (10 + ((level / 2 : ℕ) : Int)) 12) g.rng i).2 ∧
          (GameJs.wallPosition H (min (10 + ((level / 2 : ℕ) : Int)) 12) g.rng i).1 * 12 +
              (GameJs.wallPosition H (min (10 + ((level / 2 : ℕ) : Int)) 12) g.rng i).2 <
            ((GameJs.createBlocks H g level).1.length : Int)) ∧
      (GameJs.createBlocks H g level).1.countP (fun b => b.isWall) =
        ((List.range (min (3 + level) 8)).map
          (GameJs.wallPosition H (min (10 + ((level / 2 : ℕ) : Int)) 12) g.rng)).dedup.length ∧
      1 ≤ (GameJs.createBlocks H g level).1.countP (fun b => b.isWall) ∧
      ((GameJs.createBlocks H g level).1.filter fun b => !b.destroyed && !b.isWall).length +
          (GameJs.createBlocks H g level).1.countP (fun b => b.isWall) =
        12 * min (10 + level / 2) 12 ∧
      0 < ((GameJs.createBlocks H g level).1.filter fun b =>
        !b.destroyed && !b.isWall).length ∧
      GameJs.checkLevelComplete { g with blocks := (GameJs.createBlocks H g level).1 } =
        { g with blocks := (GameJs.createBlocks H g level).1 }) ∧
    ((∀ i : ℕ,
        0 ≤ (Component.wallPosition H (min (10 + ((level / 2 : ℕ) : Int)) 12) rng i).1 * 12 +
            (Component.wallPosition H (min (10 + ((level / 2 : ℕ) : Int)) 12) rng i).2 ∧
          (Component.wallPosition H (min (10 + ((level / 2 : ℕ) : Int)) 12) rng i).1 * 12 +
              (Component.wallPosition H (min (10 + ((level / 2 : ℕ) : Int)) 12) rng i).2 <
            ((Component.initBlocks H rng level canvasWidth).1.length : Int)) ∧
      (Component.initBlocks H rng level canvasWidth).1.countP (fun b => b.isWall) =
        ((List.range (min (3 + level) 8)).map
          (Component.wallPosition H (min (10 + ((level / 2 : ℕ) : Int)) 12) rng)).dedup.length ∧
      1 ≤ (Component.initBlocks H rng level canvasWidth).1.countP (fun b => b.isWall) ∧
      ((Component.initBlocks H rng level canvasWidth).1.filter fun b =>
          !b.destroyed && !b.isWall).length +
          (Component.initBlocks H rng level canvasWidth).1.countP (fun b => b.isWall) =
        12 * min (10 + level / 2) 12 ∧
      0 < ((Component.initBlocks H rng level canvasWidth).1.filter fun b =>
        !b.destroyed && !b.isWall).length) := by
  obtain ⟨gl, gv, gc, gd⟩ := gameJs_createBlocks_walls H g level
  obtain ⟨cl, cv, cc, cd⟩ := component_initBlocks_walls H rng level canvasWidth
  have gb := dedup_length_bounds
    (GameJs.wallPosition H (min (10 + ((level / 2 : ℕ) : Int)) 12) g.rng) (min (3 + level) 8)
    (by omega)
  have cb := dedup_length_bounds
    (Component.wallPosition H (min (10 + ((level / 2 : ℕ) : Int)) 12) rng) (min (3 + level) 8)
    (by omega)
  have gr := remaining_add_walls _ gd
  have cr := remaining_add_walls _ cd
  rw [gl] at gr
  rw [cl] at cr
  rw [← gc] at gb
  rw [← cc] at cb
  have gpos : 0 < ((GameJs.createBlocks H g level).1.filter fun b =>
      !b.destroyed && !b.isWall).length := by omega
  have cpos : 0 < ((Component.initBlocks H rng level canvasWidth).1.filter fun b =>
      !b.destroyed && !b.isWall).length := by omega
  refine ⟨⟨gv, gc, gb.1, gr, gpos, ?_⟩, ⟨cv, cc, cb.1, cr, cpos⟩⟩
  unfold GameJs.checkLevelComplete
  dsimp only
  rw [if_neg (Nat.pos_iff_ne_zero.1 gpos)]

end BlockBreaker
